import Mathlib

/-!
# HIT-backend: costs, users and logs services

A shallow embedding of the request handlers of `costs-service/index.js`
(POST /api/add, GET /api/report, with `generateReport` and `isMonthInPast`),
of `users-service/index.js` (POST /api/add, GET /api/users/:id), of
`logs-service/index.js` (GET /api/logs) and of the copy of POST /api/add in
`tests/costs.test.js`, together with the Mongoose models they use
(`shared/models/{User,Cost,Report,Log}.js`) and the logger
(`shared/logger.js`).

Modelling conventions

* MongoDB collections are lists in insertion order; a document is a structure.
* `new Date()` is a `Clock` value handed to the handler in its environment;
  one handler call reads one clock value.
* Request fields are JavaScript values (`JsVal`).  Numbers are exact rationals:
  binary floating point rounding, the exponent notation that `ToString` uses
  for very large or very small numbers, and the literal `Infinity` accepted by
  `parseFloat` are outside the model.
* A store operation that throws is an environment flag (`Env`); the flag of the
  cache insert also stands for an insert that loses a race against another
  writer (duplicate key reported by the unique index).
* An object with one computed key, `{ [category]: items }`, is the one-element
  association list `[(category, items)]`.
* The `_id`, `created_at`, `computed_at` and timestamp fields, never read by
  the handlers of the costs and users services, are left out, as is the
  payload of a log entry; with `created_at` the limit of the `Date` constructor
  (years beyond 275760 give an invalid date, which the schema rejects on save)
  is outside the model.  The request logging middleware, which writes a log
  entry after the response has been sent, is not part of a handler.
* The logs service sorts by timestamp, so its view of the logs collection
  (`LogDoc`) carries the timestamp of each entry.
* The `Date` constructor that the users service applies to a birthday is a
  parameter of its environment (`UsersEnv.dateOf`).
-/

namespace HIT

/-! ## JavaScript values and the built-ins the handlers call -/

/-- A JavaScript value as it can occur in a parsed JSON body or query string. -/
inductive JsVal where
  | undefined
  | null
  | bool (b : Bool)
  | num (q : Rat)
  | str (s : String)
  | arr (xs : List JsVal)
  | obj

/-- The test `x === undefined || x === null`. -/
def JsVal.isNullish : JsVal → Bool
  | .undefined => true
  | .null => true
  | _ => false

/-- The test `x !== undefined`. -/
def JsVal.isDefined : JsVal → Bool
  | .undefined => false
  | _ => true

/-- JavaScript truthiness (`ToBoolean`). -/
def JsVal.truthy : JsVal → Bool
  | .undefined => false
  | .null => false
  | .bool b => b
  | .num q => decide (q ≠ 0)
  | .str s => !s.data.isEmpty
  | .arr _ => true
  | .obj => true

/-- The expression `a || b`. -/
def jsOr (a b : JsVal) : JsVal := if a.truthy then a else b

/-- White space and line terminators skipped by `parseInt`, `parseFloat` and
removed by `String.prototype.trim`. -/
def isJsWhiteSpace (c : Char) : Bool :=
  let n := c.toNat
  n == 9 || n == 10 || n == 11 || n == 12 || n == 13 || n == 32 || n == 160 ||
  n == 0x1680 || (decide (0x2000 ≤ n) && decide (n ≤ 0x200A)) ||
  n == 0x2028 || n == 0x2029 || n == 0x202F || n == 0x205F || n == 0x3000 ||
  n == 0xFEFF

/-- A decimal digit. -/
def isJsDigit (c : Char) : Bool := decide (48 ≤ c.toNat) && decide (c.toNat ≤ 57)

/-- The value of a string of decimal digits, most significant digit first. -/
def digitsValue : List Char → Nat → Nat
  | [], acc => acc
  | c :: cs, acc => digitsValue cs (10 * acc + (c.toNat - 48))

/-- Reads an optional sign: the sign factor and the remaining characters. -/
def readSign : List Char → Int × List Char
  | '-' :: cs => (-1, cs)
  | '+' :: cs => (1, cs)
  | cs => (1, cs)

/-- The call `parseInt(s, 10)` on a string; `none` is `NaN`. -/
def parseIntChars (cs : List Char) : Option Int :=
  let (sign, rest) := readSign (cs.dropWhile isJsWhiteSpace)
  let ds := rest.takeWhile isJsDigit
  if ds.isEmpty then none else some (sign * (digitsValue ds 0 : Int))

/-- The call `parseInt(v, 10)`: the argument is converted to a string first.
An array prints as its elements joined by commas, so only its first element
is seen by the parse. -/
def parseInt : JsVal → Option Int
  | .str s => parseIntChars s.data
  | .num q => some (Int.tdiv q.num q.den)
  | .arr (x :: _) => parseInt x
  | _ => none

/-- The exponent part of a decimal literal, `e`, an optional sign and digits;
0 when absent or incomplete. -/
def readExponent : List Char → Int
  | c :: cs =>
    if c == 'e' || c == 'E' then
      let (sign, rest) := readSign cs
      let ds := rest.takeWhile isJsDigit
      if ds.isEmpty then 0 else sign * (digitsValue ds 0 : Int)
    else 0
  | [] => 0

/-- The rational `m * 10 ^ e`. -/
def scale10 (m : Nat) (e : Int) : Rat :=
  if 0 ≤ e then (m : Rat) * (10 : Rat) ^ e.toNat else (m : Rat) / (10 : Rat) ^ (-e).toNat

/-- The call `parseFloat(s)` on a string: the longest prefix that is a decimal
literal; `none` is `NaN`. -/
def parseFloatChars (cs : List Char) : Option Rat :=
  let (sign, rest) := readSign (cs.dropWhile isJsWhiteSpace)
  let intDigits := rest.takeWhile isJsDigit
  let afterInt := rest.dropWhile isJsDigit
  let fracDigits := match afterInt with
    | '.' :: r => r.takeWhile isJsDigit
    | _ => []
  let afterFrac := match afterInt with
    | '.' :: r => r.dropWhile isJsDigit
    | _ => afterInt
  if intDigits.isEmpty && fracDigits.isEmpty then none
  else
    let e := readExponent afterFrac
    some ((sign : Rat) * scale10 (digitsValue (intDigits ++ fracDigits) 0) (e - fracDigits.length))

/-- The call `parseFloat(v)`. -/
def parseFloat : JsVal → Option Rat
  | .str s => parseFloatChars s.data
  | .num q => some q
  | .arr (x :: _) => parseFloat x
  | _ => none

/-- The method `toLowerCase` on the ASCII letters (no other letter lower-cases
to a letter of a category name). -/
def toLowerCase (s : String) : String := String.mk (s.data.map Char.toLower)

/-- The method `trim`. -/
def jsTrim (s : String) : String :=
  String.mk ((s.data.dropWhile isJsWhiteSpace).reverse.dropWhile isJsWhiteSpace).reverse

/-! ## Clock -/

/-- The reading of `new Date()`: `getFullYear()`, `getMonth()` (0 to 11) and
`getDate()`. -/
structure Clock where
  fullYear : Int
  month : Int
  date : Int
deriving DecidableEq, Repr

/-- Calendar order of two clock readings at month granularity: `a` is not
after `b`. -/
def Clock.monthLe (a b : Clock) : Prop :=
  a.fullYear < b.fullYear ∨ (a.fullYear = b.fullYear ∧ a.month ≤ b.month)

instance (a b : Clock) : Decidable (Clock.monthLe a b) := by
  unfold Clock.monthLe; infer_instance

/-! ## Data model -/

/-- Valid cost categories (costs-service/index.js, line 26). -/
def VALID_CATEGORIES : List String := ["food", "health", "housing", "sports", "education"]

/-- A document of the users collection. -/
structure User where
  id : Int
  first_name : String
  last_name : String
  birthday : Int
deriving DecidableEq, Repr

/-- A document of the costs collection. -/
structure Cost where
  description : String
  category : String
  userid : Int
  sum : Rat
  day : Int
  month : Int
  year : Int
deriving DecidableEq, Repr

/-- A line item of a report: `{ sum, description, day }`. -/
structure CostItem where
  sum : Rat
  description : String
  day : Int
deriving DecidableEq, Repr

/-- An element of a report's `costs` array: an object, as the list of its
keys with their values. -/
abbrev CategoryEntry := List (String × List CostItem)

/-- A report `{ userid, year, month, costs }`: the response of GET /api/report
and the document kept in the reports collection. -/
structure Report where
  userid : Int
  year : Int
  month : Int
  costs : List CategoryEntry
deriving DecidableEq, Repr

/-- A document of the logs collection (level, message, service). -/
structure LogEntry where
  level : String
  message : String
  service : String
deriving DecidableEq, Repr

/-- The database: the four collections, each in insertion order. -/
structure Db where
  users : List User
  costs : List Cost
  reports : List Report
  logs : List LogEntry
deriving DecidableEq, Repr

/-- What a handler call gets from outside: the clock and which store
operations throw during the call (`User.findOne`, `Report.findOne`,
`Cost.find`, the save of a cost, the save of a report, and the save of the
log entry with a given message), with the message of the thrown error. -/
structure Env where
  now : Clock
  userFindFails : Bool
  reportFindFails : Bool
  costFindFails : Bool
  costSaveFails : Bool
  reportSaveFails : Bool
  logSaveFails : String → Bool
  faultMessage : String

/-! ## Period classifier and report generation (costs-service/index.js) -/

/-- Checks if a given month/year is in the past (lines 42-54); `now` is the
reading of `new Date()`. -/
def isMonthInPast (now : Clock) (year month : Int) : Bool :=
  let currentYear := now.fullYear
  let currentMonth := now.month + 1
  if year < currentYear then true
  else if year = currentYear ∧ month < currentMonth then true
  else false

/-- The query `Cost.find({ userid, year, month })`: the matching documents in
insertion order. -/
def Cost.find (db : Db) (userid year month : Int) : List Cost :=
  db.costs.filter (fun cost =>
    decide (cost.userid = userid) && decide (cost.year = year) && decide (cost.month = month))

/-- Generates a monthly report for a specific user (lines 63-90). -/
def generateReport (db : Db) (userid year month : Int) : Report :=
  let costs := Cost.find db userid year month
  let costsArray : List CategoryEntry := VALID_CATEGORIES.map (fun category =>
    let categoryCosts := (costs.filter (fun cost => cost.category == category)).map
      (fun cost => ({ sum := cost.sum, description := cost.description, day := cost.day } : CostItem))
    [(category, categoryCosts)])
  { userid := userid, year := year, month := month, costs := costsArray }

/-! ## Store operations -/

/-- The query `User.findOne({ id })`. -/
def User.findOne (db : Db) (id : Int) : Option User :=
  db.users.find? (fun u => decide (u.id = id))

/-- The query `Report.findOne({ userid, year, month })`. -/
def Report.findOne (db : Db) (userid year month : Int) : Option Report :=
  db.reports.find? (fun r =>
    decide (r.userid = userid) && decide (r.year = year) && decide (r.month = month))

/-- Saving a new report document: the store may reject the write, the schema
requires 1 ≤ month ≤ 12, and the unique index on (userid, year, month)
rejects a key that is already present (shared/models/Report.js). -/
def Report.save (env : Env) (db : Db) (r : Report) : Except String Db :=
  if env.reportSaveFails then .error env.faultMessage
  else if r.month < 1 ∨ r.month > 12 then .error "Report validation failed"
  else if (Report.findOne db r.userid r.year r.month).isSome then
    .error "E11000 duplicate key error collection: reports"
  else .ok { db with reports := db.reports ++ [r] }

/-- Saving a new cost document: the setters trim the description and
lower-case and trim the category, then the validators of shared/models/Cost.js
run (description required, category in the enumeration, day, month and year
ranges), then the document is appended to the ledger. -/
def Cost.save (env : Env) (db : Db) (c : Cost) : Except String (Cost × Db) :=
  let doc : Cost := { c with description := jsTrim c.description,
                             category := jsTrim (toLowerCase c.category) }
  if env.costSaveFails then .error env.faultMessage
  else if doc.description.data.isEmpty then
    .error "Cost validation failed: description: Description is required"
  else if !(VALID_CATEGORIES.contains doc.category) then
    .error "Cost validation failed: category: Category must be one of: food, health, housing, sports, education"
  else if doc.day < 1 ∨ doc.day > 31 ∨ doc.month < 1 ∨ doc.month > 12 ∨ doc.year < 1900 then
    .error "Cost validation failed"
  else .ok (doc, { db with costs := db.costs ++ [doc] })

/-! ## Logger (shared/logger.js) -/

/-- Saves a log entry to MongoDB (lines 98-117): a failing save is caught and
the call returns normally. -/
def saveLogToMongoDB (env : Env) (db : Db) (level message service : String) : Db :=
  if env.logSaveFails message then db
  else { db with logs := db.logs ++ [{ level := level, message := message, service := service }] }

/-- The service name of the costs service. -/
def SERVICE_NAME : String := "costs-service"

/-- The method `logger.info` of the costs service. -/
def logger.info (env : Env) (db : Db) (message : String) : Db :=
  saveLogToMongoDB env db "info" message SERVICE_NAME

/-- The method `logger.warn` of the costs service. -/
def logger.warn (env : Env) (db : Db) (message : String) : Db :=
  saveLogToMongoDB env db "warn" message SERVICE_NAME

/-- The method `logger.error` of the costs service. -/
def logger.error (env : Env) (db : Db) (message : String) : Db :=
  saveLogToMongoDB env db "error" message SERVICE_NAME

/-- The method `logger.debug` of the costs service (shared/logger.js, lines
63-66). -/
def logger.debug (env : Env) (db : Db) (message : String) : Db :=
  saveLogToMongoDB env db "debug" message SERVICE_NAME

/-- The method `logger.logRequest` of the costs service (lines 74-85): an info
entry whose message is the method, the URL, the status code and the response
time of the request. -/
def logger.logRequest (env : Env) (db : Db) (method url : String)
    (statusCode responseTime : Nat) : Db :=
  saveLogToMongoDB env db "info"
    (method ++ " " ++ url ++ " " ++ toString statusCode ++ " " ++ toString responseTime ++ "ms")
    SERVICE_NAME

/-! ## HTTP requests and responses -/

/-- The JSON body of a response. -/
inductive Body where
  | error (id : JsVal) (message : String)
  | report (r : Report)
  | cost (c : Cost)

/-- An HTTP response: status code and JSON body. -/
structure Response where
  status : Nat
  body : Body

/-- The query string of GET /api/report. -/
structure ReportQuery where
  id : JsVal
  year : JsVal
  month : JsVal

/-- The body of POST /api/add. -/
structure CostBody where
  description : JsVal
  category : JsVal
  userid : JsVal
  sum : JsVal
  day : JsVal
  month : JsVal
  year : JsVal

/-- The expression `error.message || fallback` of a catch block. -/
def errorMessageOr (message fallback : String) : String :=
  if message.data.isEmpty then fallback else message

/-- The response a number is echoed with (`id: parsedId`). -/
def JsVal.ofInt (n : Int) : JsVal := .num (n : Rat)

/-! ## POST /api/add (costs-service/index.js, lines 99-252) -/

/-- The handler of POST /api/add: adds a new cost item to the costs
collection.  Returns the response and the database after the call. -/
def addCost (env : Env) (db : Db) (body : CostBody) : Response × Db :=
  let db := logger.info env db "Endpoint accessed: POST /api/add (cost)"
  -- Validate required fields
  match body.description with
  | .str description =>
    if description.data.isEmpty then
      (⟨400, .error .null "Description is required and must be a string"⟩, db)
    else
    match body.category with
    | .str category =>
      if category.data.isEmpty then
        (⟨400, .error .null "Category is required and must be a string"⟩, db)
      else
      -- Validate category is one of the allowed values
      let normalizedCategory := jsTrim (toLowerCase category)
      if !(VALID_CATEGORIES.contains normalizedCategory) then
        (⟨400, .error .null
          "Category must be one of: food, health, housing, sports, education"⟩, db)
      else if body.userid.isNullish then
        (⟨400, .error .null "User ID is required"⟩, db)
      else
      -- Parse and validate userid is a number
      match parseInt body.userid with
      | none => (⟨400, .error body.userid "User ID must be a number"⟩, db)
      | some parsedUserid =>
        -- Validate sum is provided
        if body.sum.isNullish then
          (⟨400, .error (.ofInt parsedUserid) "Sum is required"⟩, db)
        else
        -- Parse and validate sum is a number
        match parseFloat body.sum with
        | none => (⟨400, .error (.ofInt parsedUserid) "Sum must be a number"⟩, db)
        | some parsedSum =>
          let serverError (db : Db) (message : String) : Response × Db :=
            let db := logger.error env db "Error adding cost"
            (⟨500, .error (jsOr body.userid .null)
              (errorMessageOr message "An error occurred while adding the cost item")⟩, db)
          -- Check if user exists
          if env.userFindFails then serverError db env.faultMessage
          else
          match User.findOne db parsedUserid with
          | none =>
            let db := logger.warn env db "User not found when adding cost"
            (⟨404, .error (.ofInt parsedUserid)
              "User not found. Cannot add cost for non-existent user."⟩, db)
          | some _ =>
            -- Handle date - use current date if not provided
            let now := env.now
            let costDay := if body.day.isDefined then parseInt body.day else some now.date
            let costMonth :=
              if body.month.isDefined then parseInt body.month else some (now.month + 1)
            let costYear :=
              if body.year.isDefined then parseInt body.year else some now.fullYear
            -- Validate date values
            match costDay with
            | none => (⟨400, .error (.ofInt parsedUserid)
                "Day must be a number between 1 and 31"⟩, db)
            | some costDay =>
              if costDay < 1 ∨ costDay > 31 then
                (⟨400, .error (.ofInt parsedUserid)
                  "Day must be a number between 1 and 31"⟩, db)
              else
              match costMonth with
              | none => (⟨400, .error (.ofInt parsedUserid)
                  "Month must be a number between 1 and 12"⟩, db)
              | some costMonth =>
                if costMonth < 1 ∨ costMonth > 12 then
                  (⟨400, .error (.ofInt parsedUserid)
                    "Month must be a number between 1 and 12"⟩, db)
                else
                match costYear with
                | none => (⟨400, .error (.ofInt parsedUserid)
                    "Year must be a valid year (1900 or later)"⟩, db)
                | some costYear =>
                  if costYear < 1900 then
                    (⟨400, .error (.ofInt parsedUserid)
                      "Year must be a valid year (1900 or later)"⟩, db)
                  -- Check if the date is in the past
                  else if isMonthInPast env.now costYear costMonth then
                    let db := logger.warn env db "Attempt to add cost with past date"
                    (⟨400, .error (.ofInt parsedUserid)
                      "Cannot add costs with dates in the past"⟩, db)
                  else
                    -- Create the cost item
                    let newCost : Cost :=
                      { description := jsTrim description
                        category := normalizedCategory
                        userid := parsedUserid
                        sum := parsedSum
                        day := costDay
                        month := costMonth
                        year := costYear }
                    match Cost.save env db newCost with
                    | .error message => serverError db message
                    | .ok (saved, db) =>
                      let db := logger.info env db "Cost added successfully"
                      -- Return the created cost item
                      (⟨201, .cost saved⟩, db)
    | _ => (⟨400, .error .null "Category is required and must be a string"⟩, db)
  | _ => (⟨400, .error .null "Description is required and must be a string"⟩, db)

/-! ## GET /api/report (costs-service/index.js, lines 283-416) -/

/-- The handler of GET /api/report: gets a monthly report for a specific user,
serving past months from the reports collection (Computed Design Pattern).
Returns the response and the database after the call. -/
def getReport (env : Env) (db : Db) (query : ReportQuery) : Response × Db :=
  let db := logger.info env db "Endpoint accessed: GET /api/report"
  -- Validate required parameters
  if query.id.isNullish then
    (⟨400, .error .null "User ID (id) is required"⟩, db)
  else if query.year.isNullish then
    (⟨400, .error query.id "Year is required"⟩, db)
  else if query.month.isNullish then
    (⟨400, .error query.id "Month is required"⟩, db)
  else
  -- Validate numeric values
  match parseInt query.id with
  | none => (⟨400, .error query.id "User ID must be a number"⟩, db)
  | some parsedId =>
    match parseInt query.year with
    | none => (⟨400, .error (.ofInt parsedId) "Year must be a valid year"⟩, db)
    | some parsedYear =>
      if parsedYear < 1900 then
        (⟨400, .error (.ofInt parsedId) "Year must be a valid year"⟩, db)
      else
      match parseInt query.month with
      | none => (⟨400, .error (.ofInt parsedId) "Month must be between 1 and 12"⟩, db)
      | some parsedMonth =>
        if parsedMonth < 1 ∨ parsedMonth > 12 then
          (⟨400, .error (.ofInt parsedId) "Month must be between 1 and 12"⟩, db)
        else
        let serverError (db : Db) (message : String) : Response × Db :=
          let db := logger.error env db "Error generating report"
          (⟨500, .error (jsOr query.id .null)
            (errorMessageOr message "An error occurred while generating the report")⟩, db)
        -- Check if user exists
        if env.userFindFails then serverError db env.faultMessage
        else
        match User.findOne db parsedId with
        | none =>
          let db := logger.warn env db "User not found when getting report"
          (⟨404, .error (.ofInt parsedId) "User not found"⟩, db)
        | some _ =>
          -- Check if this is a past month - if so, try to get cached report
          let isPastMonth := isMonthInPast env.now parsedYear parsedMonth
          if isPastMonth && env.reportFindFails then serverError db env.faultMessage
          else
          let cachedReport :=
            if isPastMonth then Report.findOne db parsedId parsedYear parsedMonth else none
          match cachedReport with
          | some cachedReport =>
            let db := logger.info env db "Returning cached report"
            (⟨200, .report { userid := cachedReport.userid
                             year := cachedReport.year
                             month := cachedReport.month
                             costs := cachedReport.costs }⟩, db)
          | none =>
            -- Generate the report
            if env.costFindFails then serverError db env.faultMessage
            else
            let report := generateReport db parsedId parsedYear parsedMonth
            -- Cache the report if it is for a past month
            let db :=
              if isPastMonth then
                match Report.save env db
                    { userid := parsedId, year := parsedYear, month := parsedMonth,
                      costs := report.costs } with
                | .ok db => logger.info env db "Report cached for past month"
                | .error _ => logger.warn env db "Could not cache report"
              else db
            let db := logger.info env db "Report generated successfully"
            (⟨200, .report report⟩, db)

/-! ## Sequential runs of the costs service -/

/-- A request to the costs service. -/
inductive Request where
  | add (body : CostBody)
  | report (query : ReportQuery)

/-- One call: the environment it runs in and the request. -/
structure Call where
  env : Env
  request : Request

/-- The database after one call. -/
def Call.exec (db : Db) (c : Call) : Db :=
  match c.request with
  | .add body => (addCost c.env db body).2
  | .report query => (getReport c.env db query).2

/-- The database after a sequence of calls executed one after another. -/
def runCalls (db : Db) (calls : List Call) : Db := calls.foldl Call.exec db

/-! ## Auxiliary definitions used to state and prove the properties -/

/-- A request to GET /api/report that passes validation: the three parameters
parse to `userid`, `year`, `month`, with year ≥ 1900 and 1 ≤ month ≤ 12, and
the user exists. -/
structure ValidReportRequest (db : Db) (query : ReportQuery) (userid year month : Int) :
    Prop where
  idParses : parseInt query.id = some userid
  yearParses : parseInt query.year = some year
  monthParses : parseInt query.month = some month
  yearRange : 1900 ≤ year
  monthRange : 1 ≤ month ∧ month ≤ 12
  user : (User.findOne db userid).isSome = true

/-- The parameters of a report request when they pass validation. -/
def reportParams (query : ReportQuery) : Option (Int × Int × Int) :=
  match parseInt query.id, parseInt query.year, parseInt query.month with
  | some userid, some year, some month =>
    if 1900 ≤ year ∧ 1 ≤ month ∧ month ≤ 12 then some (userid, year, month) else none
  | _, _, _ => none

/-- The part of the handler of GET /api/report that follows validation
(lines 337-407), for the parsed parameters. -/
def resolveReport (env : Env) (db : Db) (rawId : JsVal) (parsedId parsedYear parsedMonth : Int) :
    Response × Db :=
  let serverError (db : Db) (message : String) : Response × Db :=
    let db := logger.error env db "Error generating report"
    (⟨500, .error (jsOr rawId .null)
      (errorMessageOr message "An error occurred while generating the report")⟩, db)
  if env.userFindFails then serverError db env.faultMessage
  else
  match User.findOne db parsedId with
  | none =>
    let db := logger.warn env db "User not found when getting report"
    (⟨404, .error (.ofInt parsedId) "User not found"⟩, db)
  | some _ =>
    let isPastMonth := isMonthInPast env.now parsedYear parsedMonth
    if isPastMonth && env.reportFindFails then serverError db env.faultMessage
    else
    let cachedReport :=
      if isPastMonth then Report.findOne db parsedId parsedYear parsedMonth else none
    match cachedReport with
    | some cachedReport =>
      let db := logger.info env db "Returning cached report"
      (⟨200, .report { userid := cachedReport.userid
                       year := cachedReport.year
                       month := cachedReport.month
                       costs := cachedReport.costs }⟩, db)
    | none =>
      if env.costFindFails then serverError db env.faultMessage
      else
      let report := generateReport db parsedId parsedYear parsedMonth
      let db :=
        if isPastMonth then
          match Report.save env db
              { userid := parsedId, year := parsedYear, month := parsedMonth,
                costs := report.costs } with
          | .ok db => logger.info env db "Report cached for past month"
          | .error _ => logger.warn env db "Could not cache report"
        else db
      let db := logger.info env db "Report generated successfully"
      (⟨200, .report report⟩, db)

/-- What a call of POST /api/add may change: nothing but the logs, or the
logs and one new cost whose month is not in the past. -/
def AddFrame (env : Env) (db : Db) (r : Response × Db) : Prop :=
  r.2.reports = db.reports ∧ r.2.users = db.users ∧
  (r.2.costs = db.costs ∨
    ∃ doc : Cost, isMonthInPast env.now doc.year doc.month = false ∧
      r.2.costs = db.costs ++ [doc])

/-- The key of a cached report. -/
def Report.key (r : Report) : Int × Int × Int := (r.userid, r.year, r.month)

/-- The invariant of the report cache at clock reading `now`: every cached
report is for a period that is closed at `now` and holds the costs that
generateReport computes from the ledger, and no key is cached twice. -/
def CacheInv (now : Clock) (db : Db) : Prop :=
  (∀ r ∈ db.reports, isMonthInPast now r.year r.month = true ∧
    r.costs = (generateReport db r.userid r.year r.month).costs) ∧
  (db.reports.map Report.key).Nodup

/-- The clock reading of the last call of a run, `start` for the empty run. -/
def lastClock (start : Clock) : List Call → Clock
  | [] => start
  | c :: cs => lastClock c.env.now cs

/-- The number of cached reports under a key: the size of the answer to the
query `{ userid, year, month }` on the reports collection. -/
def Report.countKey (db : Db) (userid year month : Int) : Nat :=
  (db.reports.filter (fun r =>
    decide (r.userid = userid) && decide (r.year = year) && decide (r.month = month))).length

/-! ## Auxiliary definitions for POST /api/add -/

/-- The checks of the required fields (lines 105-160): the response of the
first check that fails, or else the description, the normalised category, the
parsed userid and the parsed sum. -/
def requiredFields (body : CostBody) : Except Response (String × String × Int × Rat) :=
  match body.description with
  | .str description =>
    if description.data.isEmpty then
      .error ⟨400, .error .null "Description is required and must be a string"⟩
    else
    match body.category with
    | .str category =>
      if category.data.isEmpty then
        .error ⟨400, .error .null "Category is required and must be a string"⟩
      else
      let normalizedCategory := jsTrim (toLowerCase category)
      if !(VALID_CATEGORIES.contains normalizedCategory) then
        .error ⟨400, .error .null
          "Category must be one of: food, health, housing, sports, education"⟩
      else if body.userid.isNullish then
        .error ⟨400, .error .null "User ID is required"⟩
      else
      match parseInt body.userid with
      | none => .error ⟨400, .error body.userid "User ID must be a number"⟩
      | some parsedUserid =>
        if body.sum.isNullish then
          .error ⟨400, .error (.ofInt parsedUserid) "Sum is required"⟩
        else
        match parseFloat body.sum with
        | none => .error ⟨400, .error (.ofInt parsedUserid) "Sum must be a number"⟩
        | some parsedSum => .ok (description, normalizedCategory, parsedUserid, parsedSum)
    | _ => .error ⟨400, .error .null "Category is required and must be a string"⟩
  | _ => .error ⟨400, .error .null "Description is required and must be a string"⟩

/-- The day of a submission (line 174): the parsed field, or today's day of
the month when the field is omitted. -/
def resolvedDay (now : Clock) (body : CostBody) : Option Int :=
  if body.day.isDefined then parseInt body.day else some now.date

/-- The month of a submission (line 175). -/
def resolvedMonth (now : Clock) (body : CostBody) : Option Int :=
  if body.month.isDefined then parseInt body.month else some (now.month + 1)

/-- The year of a submission (line 176). -/
def resolvedYear (now : Clock) (body : CostBody) : Option Int :=
  if body.year.isDefined then parseInt body.year else some now.fullYear

/-- The validation of the date values (lines 178-198): the response of the
first check that fails, or else day, month and year. -/
def dateFields (now : Clock) (body : CostBody) (parsedUserid : Int) :
    Except Response (Int × Int × Int) :=
  match resolvedDay now body with
  | none => .error ⟨400, .error (.ofInt parsedUserid) "Day must be a number between 1 and 31"⟩
  | some costDay =>
    if costDay < 1 ∨ costDay > 31 then
      .error ⟨400, .error (.ofInt parsedUserid) "Day must be a number between 1 and 31"⟩
    else
    match resolvedMonth now body with
    | none =>
      .error ⟨400, .error (.ofInt parsedUserid) "Month must be a number between 1 and 12"⟩
    | some costMonth =>
      if costMonth < 1 ∨ costMonth > 12 then
        .error ⟨400, .error (.ofInt parsedUserid) "Month must be a number between 1 and 12"⟩
      else
      match resolvedYear now body with
      | none =>
        .error ⟨400, .error (.ofInt parsedUserid) "Year must be a valid year (1900 or later)"⟩
      | some costYear =>
        if costYear < 1900 then
          .error ⟨400, .error (.ofInt parsedUserid)
            "Year must be a valid year (1900 or later)"⟩
        else .ok (costDay, costMonth, costYear)

/-- The handler of POST /api/add written in stages: required fields, user
lookup, date values, past-date check, save. -/
def addCostStaged (env : Env) (db : Db) (body : CostBody) : Response × Db :=
  let db := logger.info env db "Endpoint accessed: POST /api/add (cost)"
  match requiredFields body with
  | .error response => (response, db)
  | .ok (description, normalizedCategory, parsedUserid, parsedSum) =>
    let serverError (db : Db) (message : String) : Response × Db :=
      let db := logger.error env db "Error adding cost"
      (⟨500, .error (jsOr body.userid .null)
        (errorMessageOr message "An error occurred while adding the cost item")⟩, db)
    if env.userFindFails then serverError db env.faultMessage
    else
    match User.findOne db parsedUserid with
    | none =>
      let db := logger.warn env db "User not found when adding cost"
      (⟨404, .error (.ofInt parsedUserid)
        "User not found. Cannot add cost for non-existent user."⟩, db)
    | some _ =>
      match dateFields env.now body parsedUserid with
      | .error response => (response, db)
      | .ok (costDay, costMonth, costYear) =>
        if isMonthInPast env.now costYear costMonth then
          let db := logger.warn env db "Attempt to add cost with past date"
          (⟨400, .error (.ofInt parsedUserid) "Cannot add costs with dates in the past"⟩, db)
        else
          match Cost.save env db
              { description := jsTrim description
                category := normalizedCategory
                userid := parsedUserid
                sum := parsedSum
                day := costDay
                month := costMonth
                year := costYear } with
          | .error message => serverError db message
          | .ok (saved, db) =>
            let db := logger.info env db "Cost added successfully"
            (⟨201, .cost saved⟩, db)

/-- The required fields of a submission pass their checks: the description is
a non-empty string, the category is a string whose lower-cased, trimmed form
is in the enumeration, the userid parses to `userid` and the sum to `sum`. -/
structure ValidCostFields (body : CostBody) (description category : String) (userid : Int)
    (sum : Rat) : Prop where
  descriptionIs : body.description = .str description
  descriptionNonEmpty : description.data.isEmpty = false
  categoryIs : body.category = .str category
  categoryValid : VALID_CATEGORIES.contains (jsTrim (toLowerCase category)) = true
  useridParses : parseInt body.userid = some userid
  sumParses : parseFloat body.sum = some sum

/-- The date values of a submission pass their checks: each of day, month and
year resolves (the parsed field, or the component of the current date when the
field is omitted) to a number in its range. -/
structure ValidCostDate (now : Clock) (body : CostBody) (day month year : Int) : Prop where
  dayIs : resolvedDay now body = some day
  dayRange : 1 ≤ day ∧ day ≤ 31
  monthIs : resolvedMonth now body = some month
  monthRange : 1 ≤ month ∧ month ≤ 12
  yearIs : resolvedYear now body = some year
  yearRange : 1900 ≤ year

/-- The cost document that POST /api/add builds from the checked values
(lines 214-223). -/
def newCostOf (description category : String) (userid : Int) (sum : Rat)
    (day month year : Int) : Cost :=
  { description := jsTrim description
    category := jsTrim (toLowerCase category)
    userid := userid
    sum := sum
    day := day
    month := month
    year := year }

/-- A submission that POST /api/add accepts: valid required fields, an
existing user, valid date values that are not in the past, and a description
that is not blank. -/
structure AcceptedCost (now : Clock) (db : Db) (body : CostBody) (description category : String)
    (userid : Int) (sum : Rat) (day month year : Int) : Prop where
  fields : ValidCostFields body description category userid sum
  user : (User.findOne db userid).isSome = true
  date : ValidCostDate now body day month year
  notPast : isMonthInPast now year month = false
  notBlank : (jsTrim description).data.isEmpty = false

/-- The bucket of a category in a report: the value under that key in the
first element of the costs array that has the key (the tests read it as
`costs.find(c => c.food).food`). -/
def Report.bucket (r : Report) (category : String) : Option (List CostItem) :=
  r.costs.findSome? (fun entry => (entry.find? (fun kv => kv.1 == category)).map (fun kv => kv.2))

/-- The line item of a report for a cost record: `{ sum, description, day }`. -/
def CostItem.ofCost (cost : Cost) : CostItem :=
  { sum := cost.sum, description := cost.description, day := cost.day }

/-- The time order of two clock readings: year first, then month, then day
of the month. -/
def Clock.le (a b : Clock) : Prop :=
  a.fullYear < b.fullYear ∨
    (a.fullYear = b.fullYear ∧ (a.month < b.month ∨ (a.month = b.month ∧ a.date ≤ b.date)))

instance (a b : Clock) : Decidable (Clock.le a b) := by
  unfold Clock.le; infer_instance

/-! ## The order of the checks of POST /api/add, as the specification states it

The definitions of this section follow the wording of the specification, not
the handler: one check per field, each on its own, and a list that fixes their
order.  They are compared with `addCost` in the properties. -/

/-- The id a failure response echoes once the userid has been read: the parsed
number when the userid parses, the raw field otherwise. -/
def echoedUserid (body : CostBody) : JsVal :=
  match parseInt body.userid with
  | some parsedUserid => .ofInt parsedUserid
  | none => body.userid

/-- The check of the description: a non-empty string. -/
def checkDescription (body : CostBody) : Option Response :=
  match body.description with
  | .str description =>
    if description.data.isEmpty then
      some ⟨400, .error .null "Description is required and must be a string"⟩
    else none
  | _ => some ⟨400, .error .null "Description is required and must be a string"⟩

/-- The check of the category: a non-empty string that names, apart from case
and surrounding blanks, a category of the enumeration. -/
def checkCategory (body : CostBody) : Option Response :=
  match body.category with
  | .str category =>
    if category.data.isEmpty then
      some ⟨400, .error .null "Category is required and must be a string"⟩
    else if VALID_CATEGORIES.contains (jsTrim (toLowerCase category)) then none
    else some ⟨400, .error .null
      "Category must be one of: food, health, housing, sports, education"⟩
  | _ => some ⟨400, .error .null "Category is required and must be a string"⟩

/-- The check of the userid: present and a number. -/
def checkUserid (body : CostBody) : Option Response :=
  if body.userid.isNullish then some ⟨400, .error .null "User ID is required"⟩
  else if (parseInt body.userid).isNone then
    some ⟨400, .error body.userid "User ID must be a number"⟩
  else none

/-- The check of the sum: present and a number. -/
def checkSum (body : CostBody) : Option Response :=
  if body.sum.isNullish then some ⟨400, .error (echoedUserid body) "Sum is required"⟩
  else if (parseFloat body.sum).isNone then
    some ⟨400, .error (echoedUserid body) "Sum must be a number"⟩
  else none

/-- The check that the user exists. -/
def checkUserExists (db : Db) (body : CostBody) : Option Response :=
  match parseInt body.userid with
  | some parsedUserid =>
    if (User.findOne db parsedUserid).isNone then
      some ⟨404, .error (.ofInt parsedUserid)
        "User not found. Cannot add cost for non-existent user."⟩
    else none
  | none => none

/-- The check of the day: a number between 1 and 31. -/
def checkDay (now : Clock) (body : CostBody) : Option Response :=
  match resolvedDay now body with
  | some costDay =>
    if 1 ≤ costDay ∧ costDay ≤ 31 then none
    else some ⟨400, .error (echoedUserid body) "Day must be a number between 1 and 31"⟩
  | none => some ⟨400, .error (echoedUserid body) "Day must be a number between 1 and 31"⟩

/-- The check of the month: a number between 1 and 12. -/
def checkMonth (now : Clock) (body : CostBody) : Option Response :=
  match resolvedMonth now body with
  | some costMonth =>
    if 1 ≤ costMonth ∧ costMonth ≤ 12 then none
    else some ⟨400, .error (echoedUserid body) "Month must be a number between 1 and 12"⟩
  | none => some ⟨400, .error (echoedUserid body) "Month must be a number between 1 and 12"⟩

/-- The check of the year: a number, 1900 or later. -/
def checkYear (now : Clock) (body : CostBody) : Option Response :=
  match resolvedYear now body with
  | some costYear =>
    if 1900 ≤ costYear then none
    else some ⟨400, .error (echoedUserid body) "Year must be a valid year (1900 or later)"⟩
  | none => some ⟨400, .error (echoedUserid body) "Year must be a valid year (1900 or later)"⟩

/-- The past-date check: the (year, month) of the submission is not before the
current month. -/
def checkPastDate (now : Clock) (body : CostBody) : Option Response :=
  match resolvedYear now body, resolvedMonth now body with
  | some costYear, some costMonth =>
    if isMonthInPast now costYear costMonth then
      some ⟨400, .error (echoedUserid body) "Cannot add costs with dates in the past"⟩
    else none
  | _, _ => none

/-- The checks on the fields of the body alone, in the stated order:
description, category, userid, sum. -/
def fieldChecks (body : CostBody) : List (Option Response) :=
  [checkDescription body, checkCategory body, checkUserid body, checkSum body]

/-- The checks of POST /api/add in the stated order: description, category,
userid, sum, user existence, day, month, year, past-date. -/
def checksInStatedOrder (now : Clock) (db : Db) (body : CostBody) : List (Option Response) :=
  fieldChecks body ++
    [checkUserExists db body, checkDay now body, checkMonth now body, checkYear now body,
     checkPastDate now body]

/-- The response of the first check of a list that fails, if one does. -/
def firstFailure (checks : List (Option Response)) : Option Response :=
  checks.findSome? id

/-! ## The copy of POST /api/add in the test suite (tests/costs.test.js, lines 20-138) -/

namespace CostsTest

/-- The helper `isMonthInPast` of the test file (lines 20-28).  The test
handler calls it on values that were not validated, so a year or month may be
NaN (`none`); a comparison with NaN is false. -/
def isMonthInPast (now : Clock) (year month : Option Int) : Bool :=
  let currentYear := now.fullYear
  let currentMonth := now.month + 1
  if (match year with
      | some year => decide (year < currentYear)
      | none => false) then true
  else if (match year, month with
      | some year, some month => decide (year = currentYear) && decide (month < currentMonth)
      | _, _ => false) then true
  else false

/-- The handler of POST /api/add of the test application (lines 54-138).  It
has the required-field checks and the user check of the service, resolves the
date, and goes from there to the past-date check and the save: the values of
day, month and year are not validated by the handler, and nothing is logged.
A NaN among them is rejected by the schema when the document is saved. -/
def addCost (env : Env) (db : Db) (body : CostBody) : Response × Db :=
  match body.description with
  | .str description =>
    if description.data.isEmpty then
      (⟨400, .error .null "Description is required"⟩, db)
    else
    match body.category with
    | .str category =>
      if category.data.isEmpty then
        (⟨400, .error .null "Category is required"⟩, db)
      else
      let normalizedCategory := jsTrim (toLowerCase category)
      if !(VALID_CATEGORIES.contains normalizedCategory) then
        (⟨400, .error .null
          "Category must be one of: food, health, housing, sports, education"⟩, db)
      else if body.userid.isNullish then
        (⟨400, .error .null "User ID is required"⟩, db)
      else
      match parseInt body.userid with
      | none => (⟨400, .error body.userid "User ID must be a number"⟩, db)
      | some parsedUserid =>
        if body.sum.isNullish then
          (⟨400, .error (.ofInt parsedUserid) "Sum is required"⟩, db)
        else
        match parseFloat body.sum with
        | none => (⟨400, .error (.ofInt parsedUserid) "Sum must be a number"⟩, db)
        | some parsedSum =>
          let serverError (message : String) : Response × Db :=
            (⟨500, .error (jsOr body.userid .null) message⟩, db)
          if env.userFindFails then serverError env.faultMessage
          else
          match User.findOne db parsedUserid with
          | none =>
            (⟨404, .error (.ofInt parsedUserid)
              "User not found. Cannot add cost for non-existent user."⟩, db)
          | some _ =>
            let now := env.now
            let costDay := if body.day.isDefined then parseInt body.day else some now.date
            let costMonth :=
              if body.month.isDefined then parseInt body.month else some (now.month + 1)
            let costYear :=
              if body.year.isDefined then parseInt body.year else some now.fullYear
            if isMonthInPast env.now costYear costMonth then
              (⟨400, .error (.ofInt parsedUserid)
                "Cannot add costs with dates in the past"⟩, db)
            else
              match costDay, costMonth, costYear with
              | some costDay, some costMonth, some costYear =>
                let newCost : Cost :=
                  { description := jsTrim description
                    category := normalizedCategory
                    userid := parsedUserid
                    sum := parsedSum
                    day := costDay
                    month := costMonth
                    year := costYear }
                match Cost.save env db newCost with
                | .error message => serverError message
                | .ok (saved, db) => (⟨201, .cost saved⟩, db)
              | _, _, _ => serverError "Cost validation failed"
    | _ => (⟨400, .error .null "Category is required"⟩, db)
  | _ => (⟨400, .error .null "Description is required"⟩, db)

end CostsTest

/-! ## The users service (users-service/index.js) -/

/-- An error a store operation raises: the code of the driver, when there is
one, and the message. -/
structure StoreError where
  code : Option Nat
  message : String
deriving DecidableEq, Repr

/-- The environment of a call of the users service: that of the costs service,
and with it the built-in `Date` constructor (the time value of
`new Date(birthday)`, `none` for an invalid date), the error the store raises
on the insert of a user, if it raises one (a duplicate key that a concurrent
writer causes has code 11000), and a fault of the aggregation over the
ledger. -/
structure UsersEnv extends Env where
  dateOf : JsVal → Option Int
  userSaveError : Option StoreError
  costAggregateFails : Bool

/-- Saving a new user document (shared/models/User.js): the setters trim the
names and the required validators run; then the document is sent to the store,
which may raise an error, and whose unique index on `id` rejects an id that is
already present with the duplicate key error 11000. -/
def User.save (env : UsersEnv) (db : Db) (u : User) : Except StoreError (User × Db) :=
  let doc : User := { u with first_name := jsTrim u.first_name, last_name := jsTrim u.last_name }
  if doc.first_name.data.isEmpty ∧ doc.last_name.data.isEmpty then
    .error ⟨none, "User validation failed: first_name: First name is required, last_name: Last name is required"⟩
  else if doc.first_name.data.isEmpty then
    .error ⟨none, "User validation failed: first_name: First name is required"⟩
  else if doc.last_name.data.isEmpty then
    .error ⟨none, "User validation failed: last_name: Last name is required"⟩
  else
    match env.userSaveError with
    | some error => .error error
    | none =>
      if (User.findOne db doc.id).isSome then
        .error ⟨some 11000, "E11000 duplicate key error collection: users index: id_1"⟩
      else .ok (doc, { db with users := db.users ++ [doc] })

/-- The aggregation of GET /api/users/:id (lines 91-99): the documents of the
user are matched and grouped into one group that carries the total of their
sums; without a matching document there is no group. -/
def Cost.aggregate (db : Db) (userid : Int) : List Rat :=
  let matched := db.costs.filter (fun cost => decide (cost.userid = userid))
  if matched.isEmpty then [] else [(matched.map (fun cost => cost.sum)).sum]

namespace UsersService

/-- The service name of the users service. -/
def SERVICE_NAME : String := "users-service"

/-- The method `logger.info` of the users service. -/
def logger.info (env : UsersEnv) (db : Db) (message : String) : Db :=
  saveLogToMongoDB env.toEnv db "info" message SERVICE_NAME

/-- The method `logger.warn` of the users service. -/
def logger.warn (env : UsersEnv) (db : Db) (message : String) : Db :=
  saveLogToMongoDB env.toEnv db "warn" message SERVICE_NAME

/-- The method `logger.error` of the users service. -/
def logger.error (env : UsersEnv) (db : Db) (message : String) : Db :=
  saveLogToMongoDB env.toEnv db "error" message SERVICE_NAME

/-- The JSON body of a response of the users service: an error, the details of
a user with the total of the user's costs, or a created user. -/
inductive Body where
  | error (id : JsVal) (message : String)
  | details (id : Int) (first_name last_name : String) (total : Rat)
  | user (id : Int) (first_name last_name : String) (birthday : Int)

/-- An HTTP response of the users service. -/
structure Response where
  status : Nat
  body : Body

/-- The body of POST /api/add of the users service. -/
structure UserBody where
  id : JsVal
  first_name : JsVal
  last_name : JsVal
  birthday : JsVal

/-- The handler of GET /api/users/:id (lines 64-120): the details of a user
with the total of the user's costs.  `id` is the path parameter. -/
def getUser (env : UsersEnv) (db : Db) (id : String) : Response × Db :=
  let userId := parseInt (.str id)
  let db := logger.info env db "Endpoint accessed: GET /api/users/:id"
  -- Validate user ID
  match userId with
  | none =>
    let db := logger.warn env db "Invalid user ID provided"
    (⟨400, .error (.str id) "Invalid user ID. Must be a number."⟩, db)
  | some userId =>
    let serverError (db : Db) (message : String) : Response × Db :=
      let db := logger.error env db "Error retrieving user details"
      (⟨500, .error (.str id)
        (errorMessageOr message "An error occurred while retrieving user details")⟩, db)
    -- Find the user by custom id
    if env.userFindFails then serverError db env.faultMessage
    else
    match User.findOne db userId with
    | none =>
      let db := logger.warn env db "User not found"
      (⟨404, .error (.ofInt userId) "User not found"⟩, db)
    | some user =>
      -- Calculate total costs for this user
      if env.costAggregateFails then serverError db env.faultMessage
      else
      let costsAggregate := Cost.aggregate db userId
      let total : Rat :=
        match costsAggregate with
        | group :: _ => group
        | [] => 0
      let db := logger.info env db "User details retrieved successfully"
      (⟨200, .details user.id user.first_name user.last_name total⟩, db)

/-- The handler of POST /api/add of the users service (lines 127-225): adds a
new user to the users collection. -/
def addUser (env : UsersEnv) (db : Db) (body : UserBody) : Response × Db :=
  let db := logger.info env db "Endpoint accessed: POST /api/add (user)"
  -- Validate required fields
  if body.id.isNullish then
    (⟨400, .error .null "User ID is required"⟩, db)
  else
  match body.first_name with
  | .str first_name =>
    if first_name.data.isEmpty then
      (⟨400, .error body.id "First name is required and must be a string"⟩, db)
    else
    match body.last_name with
    | .str last_name =>
      if last_name.data.isEmpty then
        (⟨400, .error body.id "Last name is required and must be a string"⟩, db)
      else if !body.birthday.truthy then
        (⟨400, .error body.id "Birthday is required"⟩, db)
      else
      -- Validate ID is a number
      match parseInt body.id with
      | none => (⟨400, .error body.id "User ID must be a number"⟩, db)
      | some userId =>
        let caught (db : Db) (error : StoreError) : Response × Db :=
          let db := logger.error env db "Error adding user"
          -- Handle duplicate key error
          if error.code = some 11000 then
            (⟨400, .error body.id "A user with this ID already exists"⟩, db)
          else
            (⟨500, .error (jsOr body.id .null)
              (errorMessageOr error.message "An error occurred while adding the user")⟩, db)
        -- Check if user with this ID already exists
        if env.userFindFails then caught db ⟨none, env.faultMessage⟩
        else
        match User.findOne db userId with
        | some _ =>
          let db := logger.warn env db "User with this ID already exists"
          (⟨400, .error (.ofInt userId) "A user with this ID already exists"⟩, db)
        | none =>
          -- Parse and validate birthday
          match env.dateOf body.birthday with
          | none =>
            (⟨400, .error (.ofInt userId)
              "Invalid birthday format. Please provide a valid date."⟩, db)
          | some birthdayDate =>
            -- Create new user
            match User.save env db
                { id := userId, first_name := jsTrim first_name, last_name := jsTrim last_name,
                  birthday := birthdayDate } with
            | .error error => caught db error
            | .ok (newUser, db) =>
              let db := logger.info env db "User added successfully"
              -- Return the created user
              (⟨201, .user newUser.id newUser.first_name newUser.last_name
                newUser.birthday⟩, db)
    | _ => (⟨400, .error body.id "Last name is required and must be a string"⟩, db)
  | _ => (⟨400, .error body.id "First name is required and must be a string"⟩, db)

/-- A call of POST /api/add of the users service: the environment it runs in
and the body. -/
structure AddCall where
  env : UsersEnv
  body : UserBody

/-- The store after a sequence of user additions. -/
def runAddUser (db : Db) (calls : List AddCall) : Db :=
  calls.foldl (fun db call => (addUser call.env db call.body).2) db

end UsersService

/-- The ids of the user directory, in insertion order. -/
def Db.userIds (db : Db) : List Int := db.users.map (fun u => u.id)

/-! ## The logs service (logs-service/index.js) -/

/-- A document of the logs collection as the logs service reads it
(shared/models/Log.js): level, message, service and the timestamp, in
milliseconds since the epoch. -/
structure LogDoc where
  level : String
  message : String
  service : String
  timestamp : Int
deriving DecidableEq, Repr

/-- The order of `sort({ timestamp: -1 })`: `a` may come before `b` when the
timestamp of `a` is not earlier than that of `b`. -/
def LogDoc.notEarlier (a b : LogDoc) : Prop := b.timestamp ≤ a.timestamp

instance : DecidableRel LogDoc.notEarlier := fun a b => by
  unfold LogDoc.notEarlier; infer_instance

instance : IsTotal LogDoc LogDoc.notEarlier :=
  ⟨fun a b => by unfold LogDoc.notEarlier; omega⟩

instance : IsTrans LogDoc LogDoc.notEarlier :=
  ⟨fun a b c hab hbc => by unfold LogDoc.notEarlier at *; omega⟩

/-- The environment of a call of the logs service: the reading of `new Date()`
when the log entry with a given message is built, the faults of the log writes
and of the query, and the message of a fault. -/
structure LogsEnv where
  timestampOf : String → Int
  logSaveFails : String → Bool
  logFindFails : Bool
  faultMessage : String

/-- The query `Log.find({}).sort({ timestamp: -1 })`: all documents of the
collection, by timestamp descending.  Documents with the same timestamp are
kept in insertion order; the store does not fix their order. -/
def Log.findSorted (logs : List LogDoc) : List LogDoc :=
  logs.insertionSort LogDoc.notEarlier

namespace LogsService

/-- The service name of the logs service. -/
def SERVICE_NAME : String := "logs-service"

/-- The function `saveLogToMongoDB` of shared/logger.js (lines 98-117) on the
collection with its timestamps: a failing save is caught and the call returns
normally. -/
def saveLogToMongoDB (env : LogsEnv) (logs : List LogDoc) (level message service : String) :
    List LogDoc :=
  if env.logSaveFails message then logs
  else logs ++ [{ level := level, message := message, service := service,
                  timestamp := env.timestampOf message }]

/-- The method `logger.info` of the logs service. -/
def logger.info (env : LogsEnv) (logs : List LogDoc) (message : String) : List LogDoc :=
  saveLogToMongoDB env logs "info" message SERVICE_NAME

/-- The method `logger.error` of the logs service. -/
def logger.error (env : LogsEnv) (logs : List LogDoc) (message : String) : List LogDoc :=
  saveLogToMongoDB env logs "error" message SERVICE_NAME

/-- The JSON body of a response of the logs service: the array of log
documents, or an error. -/
inductive Body where
  | logs (docs : List LogDoc)
  | error (id : JsVal) (message : String)

/-- An HTTP response of the logs service. -/
structure Response where
  status : Nat
  body : Body

/-- The handler of GET /api/logs (lines 36-56): retrieves all log documents
from the logs collection.  Returns the response and the collection after the
call. -/
def getLogs (env : LogsEnv) (logs : List LogDoc) : Response × List LogDoc :=
  let logs := logger.info env logs "Endpoint accessed: GET /api/logs"
  if env.logFindFails then
    -- Log error to database
    let logs := logger.error env logs "Error retrieving logs"
    (⟨500, .error .null
      (errorMessageOr env.faultMessage "An error occurred while retrieving logs")⟩, logs)
  else
    -- Retrieve all logs from the database
    let found := Log.findSorted logs
    let logs := logger.info env logs "Logs retrieved successfully"
    (⟨200, .logs found⟩, logs)

/-- The entry that GET /api/logs writes when it is accessed. -/
def accessEntry (env : LogsEnv) : LogDoc :=
  { level := "info", message := "Endpoint accessed: GET /api/logs", service := SERVICE_NAME,
    timestamp := env.timestampOf "Endpoint accessed: GET /api/logs" }

end LogsService

/-! ## Example inputs -/

/-- An environment in November 2026 in which no store operation fails. -/
def exampleEnv : Env :=
  { now := { fullYear := 2026, month := 10, date := 6 }
    userFindFails := false, reportFindFails := false, costFindFails := false
    costSaveFails := false, reportSaveFails := false
    logSaveFails := fun _ => false, faultMessage := "store unavailable" }

/-- A database with the test user 123123, four cost records and one cached
report (for January 2020, holding one food item). -/
def exampleDb : Db :=
  { users := [{ id := 123123, first_name := "mosh", last_name := "israeli", birthday := 0 }]
    costs :=
      [{ description := "Pizza", category := "food", userid := 123123, sum := 30,
         day := 6, month := 11, year := 2026 },
       { description := "Gym membership", category := "sports", userid := 123123, sum := 50,
         day := 6, month := 11, year := 2026 },
       { description := "Bread", category := "food", userid := 123123, sum := 4,
         day := 7, month := 11, year := 2026 },
       { description := "Rent", category := "housing", userid := 123123, sum := 900,
         day := 1, month := 12, year := 2026 }]
    reports :=
      [{ userid := 123123, year := 2020, month := 1,
         costs := [[("food", [{ sum := 12, description := "Soup", day := 3 }])],
                   [("health", [])], [("housing", [])], [("sports", [])],
                   [("education", [])]] }]
    logs := [] }

/-- A request for January 2020, a closed period that has a cached report. -/
def cachedQuery : ReportQuery := { id := .str "123123", year := .str "2020", month := .str "1" }

/-- A request for March 2021, a closed period without a cached report. -/
def uncachedQuery : ReportQuery := { id := .str "123123", year := .str "2021", month := .str "3" }

/-- A request for November 2026, the current month of the example clock. -/
def currentQuery : ReportQuery := { id := .str "123123", year := .str "2026", month := .str "11" }

/-- The example database with an empty report cache. -/
def freshDb : Db := { exampleDb with reports := [] }

/-- The example environment one month later, in December 2026. -/
def decemberEnv : Env := { exampleEnv with now := { fullYear := 2026, month := 11, date := 2 } }

/-- A cost submission without a date. -/
def lunchBody : CostBody :=
  { description := .str "Lunch", category := .str "Food", userid := .num 123123,
    sum := .num 25, day := .undefined, month := .undefined, year := .undefined }

/-- A cost submission dated 20 November 2026. -/
def novemberBody : CostBody :=
  { description := .str "Books", category := .str "education", userid := .num 123123,
    sum := .num 40, day := .num 20, month := .num 11, year := .num 2026 }

/-- A run of the costs service: a report for a closed month, a cost for the
current month, a report for the current month, then, a month later, the same
report again and a cost submission for the month that has closed. -/
def exampleCalls : List Call :=
  [{ env := exampleEnv, request := .report uncachedQuery },
   { env := exampleEnv, request := .add lunchBody },
   { env := exampleEnv, request := .report currentQuery },
   { env := decemberEnv, request := .report currentQuery },
   { env := decemberEnv, request := .add novemberBody }]

/-- The ledger of the test "should return costs grouped by category": a food
record 'Pizza' and a sports record 'Gym membership' of the test user, dated
today. -/
def groupingDb : Db :=
  { users := [{ id := 123123, first_name := "mosh", last_name := "israeli", birthday := 0 }]
    costs :=
      [{ description := "Pizza", category := "food", userid := 123123, sum := 30,
         day := 6, month := 11, year := 2026 },
       { description := "Gym membership", category := "sports", userid := 123123, sum := 50,
         day := 6, month := 11, year := 2026 }]
    reports := []
    logs := [] }

/-- The submission of the test "should not allow costs with past dates":
1 January 2020. -/
def pastBody : CostBody :=
  { description := .str "Past cost", category := .str "food", userid := .num 123123,
    sum := .num 10, day := .num 1, month := .num 1, year := .num 2020 }

/-- A submission that gives the month only: January, of the current year. -/
def januaryBody : CostBody :=
  { description := .str "Past cost", category := .str "food", userid := .num 123123,
    sum := .num 10, day := .undefined, month := .num 1, year := .undefined }

/-- The submission of the test "should return 400 for invalid category". -/
def invalidCategoryBody : CostBody :=
  { description := .str "Invalid category test", category := .str "invalid_category",
    userid := .num 123123, sum := .num 10, day := .undefined, month := .undefined,
    year := .undefined }

/-- A submission for a user that does not exist. -/
def strangerBody : CostBody :=
  { description := .str "Test", category := .str "food", userid := .num 999999,
    sum := .num 10, day := .undefined, month := .undefined, year := .undefined }

/-- A submission without a sum. -/
def noSumBody : CostBody :=
  { description := .str "Test", category := .str "food", userid := .num 123123,
    sum := .undefined, day := .undefined, month := .undefined, year := .undefined }

/-- The request of the test "should return 404 for non-existent user". -/
def strangerQuery : ReportQuery := { id := .str "999999", year := .str "2025", month := .str "1" }

/-- The request of the test "should return 400 for invalid month". -/
def monthThirteenQuery : ReportQuery :=
  { id := .str "123123", year := .str "2025", month := .str "13" }

/-- The request of the test "should return 400 when id is missing". -/
def noIdQuery : ReportQuery := { id := .undefined, year := .str "2025", month := .str "1" }

/-- A submission with a negative sum. -/
def refundBody : CostBody :=
  { description := .str "Refund", category := .str "food", userid := .num 123123,
    sum := .num (-5), day := .undefined, month := .undefined, year := .undefined }

/-- The record stored for the submission with a negative sum on 6 November
2026. -/
def refundRecord : Cost :=
  { description := "Refund", category := "food", userid := 123123, sum := -5,
    day := 6, month := 11, year := 2026 }

/-- A submission dated on day 32. -/
def dayThirtyTwoBody : CostBody :=
  { description := .str "Test", category := .str "food", userid := .num 123123,
    sum := .num 10, day := .num 32, month := .undefined, year := .undefined }

/-- A submission for a user that does not exist, dated on day 32 of January
2020: an invalid day and a month in the past. -/
def strangerPastBody : CostBody :=
  { description := .str "Test", category := .str "food", userid := .num 999999,
    sum := .num 10, day := .num 32, month := .num 1, year := .num 2020 }

/-- A submission dated on the first day of November 2026. -/
def firstOfMonthBody : CostBody :=
  { description := .str "Coffee", category := .str "food", userid := .num 123123,
    sum := .num 3, day := .num 1, month := .num 11, year := .num 2026 }

/-- An environment of the users service without faults, on the example clock;
of the `Date` constructor it has the value at the string '1990-01-01', and a
whole number is its own time value. -/
def exampleUsersEnv : UsersEnv :=
  { toEnv := exampleEnv
    dateOf := fun v =>
      match v with
      | .num q => if q.den = 1 then some q.num else none
      | .str s => if s = "1990-01-01" then some 631152000000 else none
      | _ => none
    userSaveError := none
    costAggregateFails := false }

/-- The body of the test "should return 400 for duplicate user ID": the id of
the test user. -/
def duplicateUserBody : UsersService.UserBody :=
  { id := .num 123123, first_name := .str "Duplicate", last_name := .str "User",
    birthday := .str "1990-01-01" }

/-- A body with an id that no user has. -/
def newUserBody : UsersService.UserBody :=
  { id := .num 555555, first_name := .str " Dana ", last_name := .str "Levi",
    birthday := .str "1990-01-01" }

/-- The store of the test "should calculate total costs correctly": the test
user with a food cost of 50.5 and a health cost of 100. -/
def totalsDb : Db :=
  { users := [{ id := 123123, first_name := "mosh", last_name := "israeli", birthday := 0 }]
    costs :=
      [{ description := "Test cost 1", category := "food", userid := 123123, sum := 101 / 2,
         day := 6, month := 11, year := 2026 },
       { description := "Test cost 2", category := "health", userid := 123123, sum := 100,
         day := 6, month := 11, year := 2026 }]
    reports := []
    logs := [] }

/-- An environment of the logs service without faults, in which every log
entry is written at time 1000. -/
def exampleLogsEnv : LogsEnv :=
  { timestampOf := fun _ => 1000
    logSaveFails := fun _ => false
    logFindFails := false
    faultMessage := "store unavailable" }

/-- The example environment of the logs service with every log write
failing. -/
def silentLogsEnv : LogsEnv := { exampleLogsEnv with logSaveFails := fun _ => true }

/-- The collection of the test "should return all logs": three entries,
written at times 30, 10 and 20. -/
def threeLogs : List LogDoc :=
  [{ level := "info", message := "Test log 1", service := "test", timestamp := 30 },
   { level := "warn", message := "Test log 2", service := "test", timestamp := 10 },
   { level := "error", message := "Test log 3", service := "test", timestamp := 20 }]

/-! # Properties -/

/-! ## Period classifier -/

/-- The classifier is true exactly on `year < currentYear` and on
`year = currentYear` with `month < currentMonth`. -/
theorem isMonthInPast_eq_true_iff (now : Clock) (year month : Int) :
    isMonthInPast now year month = true ↔
      (year < now.fullYear ∨ (year = now.fullYear ∧ month < now.month + 1)) := by
  unfold isMonthInPast
  by_cases h1 : year < now.fullYear
  · simp [h1]
  · by_cases h2 : year = now.fullYear ∧ month < now.month + 1
    · simp [h1, h2]
    · simp only [h1, h2, if_false, or_self]
      simp

/-- The classifier is false exactly on the current and the later months. -/
theorem isMonthInPast_eq_false_iff (now : Clock) (year month : Int) :
    isMonthInPast now year month = false ↔
      (now.fullYear < year ∨ (year = now.fullYear ∧ now.month + 1 ≤ month)) := by
  rw [← Bool.not_eq_true, isMonthInPast_eq_true_iff]
  omega

/-- C1: for every year, month and reference time, isMonthInPast is true iff
(year, month) is strictly before (now.year, now.month) in the lexicographic
order, year first; it is false for the current month and, more generally,
false exactly on the months not before the current one. -/
theorem C1_isMonthInPast_iff_lex_lt (now : Clock) (year month : Int) :
    (isMonthInPast now year month = true ↔
      toLex (year, month) < toLex (now.fullYear, now.month + 1)) ∧
    isMonthInPast now now.fullYear (now.month + 1) = false ∧
    (isMonthInPast now year month = false ↔
      toLex (now.fullYear, now.month + 1) ≤ toLex (year, month)) := by
  refine ⟨?_, ?_, ?_⟩
  · rw [isMonthInPast_eq_true_iff, Prod.Lex.lt_iff]
  · rw [isMonthInPast_eq_false_iff]
    omega
  · rw [isMonthInPast_eq_false_iff, Prod.Lex.le_iff]
    simp only
    omega

/-! ## Reduction and frame lemmas for the handlers -/

/-- A value that parses as an integer is neither undefined nor null. -/
theorem isNullish_of_parseInt {v : JsVal} {n : Int} (h : parseInt v = some n) :
    v.isNullish = false := by
  cases v <;> simp_all [parseInt, JsVal.isNullish]

/-- Logging leaves the users collection as it is. -/
@[simp] theorem saveLogToMongoDB_users (env : Env) (db : Db) (l m s : String) :
    (saveLogToMongoDB env db l m s).users = db.users := by
  unfold saveLogToMongoDB; split <;> rfl

/-- Logging leaves the ledger as it is. -/
@[simp] theorem saveLogToMongoDB_costs (env : Env) (db : Db) (l m s : String) :
    (saveLogToMongoDB env db l m s).costs = db.costs := by
  unfold saveLogToMongoDB; split <;> rfl

/-- Logging leaves the report cache as it is. -/
@[simp] theorem saveLogToMongoDB_reports (env : Env) (db : Db) (l m s : String) :
    (saveLogToMongoDB env db l m s).reports = db.reports := by
  unfold saveLogToMongoDB; split <;> rfl

/-- The user lookup does not see the logs. -/
@[simp] theorem userFindOne_saveLog (env : Env) (db : Db) (l m s : String) (id : Int) :
    User.findOne (saveLogToMongoDB env db l m s) id = User.findOne db id := by
  simp [User.findOne]

/-- The cache lookup does not see the logs. -/
@[simp] theorem reportFindOne_saveLog (env : Env) (db : Db) (l m s : String) (u y mo : Int) :
    Report.findOne (saveLogToMongoDB env db l m s) u y mo = Report.findOne db u y mo := by
  simp [Report.findOne]

/-- The ledger query does not see the logs. -/
@[simp] theorem costFind_saveLog (env : Env) (db : Db) (l m s : String) (u y mo : Int) :
    Cost.find (saveLogToMongoDB env db l m s) u y mo = Cost.find db u y mo := by
  simp [Cost.find]

/-- Report generation does not see the logs. -/
@[simp] theorem generateReport_saveLog (env : Env) (db : Db) (l m s : String) (u y mo : Int) :
    generateReport (saveLogToMongoDB env db l m s) u y mo = generateReport db u y mo := by
  simp [generateReport]

/-- The cache insert is rejected, or it is accepted, the key was absent and
the report is appended. -/
theorem reportSave_cases (env : Env) (db : Db) (r : Report) :
    (∃ msg, Report.save env db r = .error msg) ∨
    (env.reportSaveFails = false ∧ Report.findOne db r.userid r.year r.month = none ∧
      Report.save env db r = .ok { db with reports := db.reports ++ [r] }) := by
  unfold Report.save
  split
  · exact Or.inl ⟨_, rfl⟩
  · split
    · exact Or.inl ⟨_, rfl⟩
    · split
      · exact Or.inl ⟨_, rfl⟩
      · rename_i h1 _ h3
        refine Or.inr ⟨by simpa using h1, ?_, rfl⟩
        simpa using h3


/-- On parameters that pass validation the handler logs the access and
continues with the resolver. -/
theorem getReport_of_params (env : Env) (db : Db) (query : ReportQuery) (userid year month : Int)
    (h : reportParams query = some (userid, year, month)) :
    getReport env db query =
      resolveReport env (logger.info env db "Endpoint accessed: GET /api/report")
        query.id userid year month := by
  unfold reportParams at h
  cases hid : parseInt query.id with
  | none => simp [hid] at h
  | some a =>
    cases hy : parseInt query.year with
    | none => simp [hid, hy] at h
    | some b =>
      cases hm : parseInt query.month with
      | none => simp [hid, hy, hm] at h
      | some c =>
        simp only [hid, hy, hm] at h
        split at h
        · rename_i hr
          simp only [Option.some.injEq, Prod.mk.injEq] at h
          obtain ⟨rfl, rfl, rfl⟩ := h
          have n1 := isNullish_of_parseInt hid
          have n2 := isNullish_of_parseInt hy
          have n3 := isNullish_of_parseInt hm
          have hyr : ¬ b < 1900 := by omega
          have hmr : ¬ (c < 1 ∨ c > 12) := by omega
          unfold getReport resolveReport
          simp only [n1, n2, n3, hid, hy, hm, hyr, hmr, if_false, Bool.false_eq_true]
        · simp at h

/-- On parameters that fail validation the handler answers 400 and only logs
the access. -/
theorem getReport_of_no_params (env : Env) (db : Db) (query : ReportQuery)
    (h : reportParams query = none) :
    (getReport env db query).1.status = 400 ∧
    (getReport env db query).2 = logger.info env db "Endpoint accessed: GET /api/report" := by
  unfold reportParams at h
  unfold getReport
  by_cases n1 : query.id.isNullish = true
  · simp [n1]
  by_cases n2 : query.year.isNullish = true
  · simp [n1, n2]
  by_cases n3 : query.month.isNullish = true
  · simp [n1, n2, n3]
  simp only [n1, n2, n3, if_false, Bool.false_eq_true]
  cases hid : parseInt query.id with
  | none => simp
  | some a =>
    cases hy : parseInt query.year with
    | none => simp
    | some b =>
      by_cases hyr : b < 1900
      · simp [hyr]
      cases hm : parseInt query.month with
      | none => simp [hyr]
      | some c =>
        by_cases hmr : c < 1 ∨ c > 12
        · simp [hyr, hmr]
        · simp only [hid, hy, hm] at h
          split at h
          · simp at h
          · omega

/-- What the resolver does to the cache: nothing, or one insert for a closed
period under a key that was absent. -/
theorem resolveReport_reports (env : Env) (db : Db) (rawId : JsVal) (userid year month : Int) :
    (resolveReport env db rawId userid year month).2.reports = db.reports ∨
    (isMonthInPast env.now year month = true ∧ Report.findOne db userid year month = none ∧
      env.reportSaveFails = false ∧
      (resolveReport env db rawId userid year month).2.reports =
        db.reports ++ [⟨userid, year, month, (generateReport db userid year month).costs⟩]) := by
  unfold resolveReport
  simp only [logger.info, logger.warn, logger.error]
  by_cases hu : env.userFindFails = true
  · simp [hu]
  cases hfind : User.findOne db userid with
  | none => simp [hu]
  | some u =>
    cases hpast : isMonthInPast env.now year month with
    | false =>
      by_cases hc : env.costFindFails = true
      · simp [hu, hc]
      · simp [hu, hc]
    | true =>
      by_cases hr : env.reportFindFails = true
      · simp [hu, hr]
      cases hcached : Report.findOne db userid year month with
      | some cached => simp [hu, hr]
      | none =>
        by_cases hc : env.costFindFails = true
        · simp [hu, hr, hc]
        · rcases reportSave_cases env db
            ⟨userid, year, month, (generateReport db userid year month).costs⟩ with ⟨msg, hs⟩ | ⟨hf, _, hs⟩
          · simp [hu, hr, hc, hs]
          · right
            simp [hu, hr, hc, hs, hf]

/-- The resolver changes neither the ledger nor the users. -/
theorem resolveReport_costs (env : Env) (db : Db) (rawId : JsVal) (userid year month : Int) :
    (resolveReport env db rawId userid year month).2.costs = db.costs ∧
    (resolveReport env db rawId userid year month).2.users = db.users := by
  unfold resolveReport
  simp only [logger.info, logger.warn, logger.error]
  by_cases hu : env.userFindFails = true
  · simp [hu]
  cases hfind : User.findOne db userid with
  | none => simp [hu]
  | some u =>
    cases hpast : isMonthInPast env.now year month with
    | false =>
      by_cases hc : env.costFindFails = true
      · simp [hu, hc]
      · simp [hu, hc]
    | true =>
      by_cases hr : env.reportFindFails = true
      · simp [hu, hr]
      cases hcached : Report.findOne db userid year month with
      | some cached => simp [hu, hr]
      | none =>
        by_cases hc : env.costFindFails = true
        · simp [hu, hr, hc]
        · rcases reportSave_cases env db
            ⟨userid, year, month, (generateReport db userid year month).costs⟩ with ⟨msg, hs⟩ | ⟨hf, _, hs⟩
          · simp [hu, hr, hc, hs]
          · simp [hu, hr, hc, hs]

/-- The ledger insert is rejected, or a document with the given userid, year
and month is appended. -/
theorem costSave_cases (env : Env) (db : Db) (c : Cost) :
    (∃ msg, Cost.save env db c = .error msg) ∨
    (∃ doc : Cost, doc.userid = c.userid ∧ doc.year = c.year ∧ doc.month = c.month ∧
      Cost.save env db c = .ok (doc, { db with costs := db.costs ++ [doc] })) := by
  unfold Cost.save
  simp only
  split
  · exact Or.inl ⟨_, rfl⟩
  · split
    · exact Or.inl ⟨_, rfl⟩
    · split
      · exact Or.inl ⟨_, rfl⟩
      · split
        · exact Or.inl ⟨_, rfl⟩
        · exact Or.inr ⟨{ c with description := jsTrim c.description, category := jsTrim (toLowerCase c.category) }, rfl, rfl, rfl, rfl⟩

/-- POST /api/add leaves the cache and the users as they are and adds at most
one cost, whose month is not in the past. -/
theorem addCost_frame (env : Env) (db : Db) (body : CostBody) :
    AddFrame env db (addCost env db body) := by
  unfold addCost
  simp only [logger.info, logger.warn, logger.error]
  cases hd : body.description with
  | str description =>
    simp only
    by_cases h1 : description.data.isEmpty = true
    · simp only [h1, if_true]; simp [AddFrame]
    simp only [h1, if_false, Bool.false_eq_true]
    cases hc : body.category with
    | str category =>
      simp only
      by_cases h2 : category.data.isEmpty = true
      · simp only [h2, if_true]; simp [AddFrame]
      simp only [h2, if_false, Bool.false_eq_true]
      by_cases h3 : (!(VALID_CATEGORIES.contains (jsTrim (toLowerCase category)))) = true
      · simp only [h3, if_true]; simp [AddFrame]
      simp only [h3, if_false, Bool.false_eq_true]
      by_cases h4 : body.userid.isNullish = true
      · simp only [h4, if_true]; simp [AddFrame]
      simp only [h4, if_false, Bool.false_eq_true]
      cases hu : parseInt body.userid with
      | none => simp [AddFrame]
      | some parsedUserid =>
        simp only
        by_cases h5 : body.sum.isNullish = true
        · simp only [h5, if_true]; simp [AddFrame]
        simp only [h5, if_false, Bool.false_eq_true]
        cases hs : parseFloat body.sum with
        | none => simp [AddFrame]
        | some parsedSum =>
          simp only
          by_cases h6 : env.userFindFails = true
          · simp only [h6, if_true]; simp [AddFrame]
          simp only [h6, if_false, Bool.false_eq_true, userFindOne_saveLog]
          cases hf : User.findOne db parsedUserid with
          | none => simp [AddFrame]
          | some u =>
            simp only
            generalize (if body.day.isDefined = true then parseInt body.day
              else some env.now.date) = costDay
            cases costDay with
            | none => simp [AddFrame]
            | some costDay =>
              simp only
              by_cases h7 : costDay < 1 ∨ costDay > 31
              · simp only [h7, if_true]; simp [AddFrame]
              simp only [h7, if_false]
              generalize (if body.month.isDefined = true then parseInt body.month
                else some (env.now.month + 1)) = costMonth
              cases costMonth with
              | none => simp [AddFrame]
              | some costMonth =>
                simp only
                by_cases h8 : costMonth < 1 ∨ costMonth > 12
                · simp only [h8, if_true]; simp [AddFrame]
                simp only [h8, if_false]
                generalize (if body.year.isDefined = true then parseInt body.year
                  else some env.now.fullYear) = costYear
                cases costYear with
                | none => simp [AddFrame]
                | some costYear =>
                  simp only
                  by_cases h9 : costYear < 1900
                  · simp only [h9, if_true]; simp [AddFrame]
                  simp only [h9, if_false]
                  by_cases h10 : isMonthInPast env.now costYear costMonth = true
                  · simp only [h10, if_true]; simp [AddFrame]
                  simp only [h10, if_false, Bool.false_eq_true]
                  rcases costSave_cases env
                    (saveLogToMongoDB env db "info" "Endpoint accessed: POST /api/add (cost)"
                      SERVICE_NAME)
                    { description := jsTrim description
                      category := jsTrim (toLowerCase category)
                      userid := parsedUserid, sum := parsedSum, day := costDay
                      month := costMonth, year := costYear } with ⟨msg, hsave⟩ | ⟨doc, -, hy, hm, hsave⟩
                  · simp only [hsave]; simp [AddFrame]
                  · simp only [hsave]
                    refine ⟨by simp, by simp, Or.inr ⟨doc, ?_, by simp⟩⟩
                    rw [hy, hm]
                    simpa using h10
    | _ => simp [AddFrame]
  | _ => simp [AddFrame]

/-! ## Completeness and counting of generateReport -/

/-- The costs array of a report, one entry per category. -/
theorem generateReport_costs (db : Db) (userid year month : Int) :
    (generateReport db userid year month).costs =
      VALID_CATEGORIES.map (fun category =>
        [(category, ((Cost.find db userid year month).filter
          (fun cost => cost.category == category)).map
            (fun cost => ({ sum := cost.sum, description := cost.description,
                            day := cost.day } : CostItem)))]) := rfl

/-- C9: for every userid, year, month and ledger, the costs array of
generateReport has exactly five entries, each an object with a single key, and
the keys are food, health, housing, sports, education in this order; a
category without a matching record is present with an empty list; on an empty
ledger all five lists are empty. -/
theorem C9_generateReport_complete (db : Db) (userid year month : Int) :
    (generateReport db userid year month).costs.length = 5 ∧
    (∀ entry ∈ (generateReport db userid year month).costs, entry.length = 1) ∧
    (generateReport db userid year month).costs.map (fun entry => entry.map Prod.fst) =
      [["food"], ["health"], ["housing"], ["sports"], ["education"]] ∧
    (∀ category ∈ VALID_CATEGORIES,
      (∀ cost ∈ Cost.find db userid year month, cost.category ≠ category) →
        [(category, [])] ∈ (generateReport db userid year month).costs) ∧
    (generateReport { db with costs := [] } userid year month).costs =
      [[("food", [])], [("health", [])], [("housing", [])], [("sports", [])],
       [("education", [])]] := by
  refine ⟨?_, ?_, ?_, ?_, ?_⟩
  · simp [generateReport_costs, VALID_CATEGORIES]
  · intro entry h
    simp only [generateReport_costs, List.mem_map] at h
    obtain ⟨c, -, rfl⟩ := h
    rfl
  · simp [generateReport_costs, VALID_CATEGORIES]
  · intro category hc hnone
    rw [generateReport_costs, List.mem_map]
    refine ⟨category, hc, ?_⟩
    have hnil : (Cost.find db userid year month).filter
        (fun cost => cost.category == category) = [] := by
      rw [List.filter_eq_nil_iff]
      intro cost hcost
      simpa using hnone cost hcost
    rw [hnil]
    rfl
  · rfl

/-- Over records whose categories are in the enumeration, the sizes of the
five per-category sub-lists add up to the number of records. -/
theorem bucket_count (costs : List Cost) (h : ∀ c ∈ costs, c.category ∈ VALID_CATEGORIES) :
    ((VALID_CATEGORIES.map (fun category =>
        (costs.filter (fun cost => cost.category == category)).length)).sum) =
      costs.length := by
  induction costs with
  | nil => rfl
  | cons c cs ih =>
    have hc := h c (List.mem_cons_self _ _)
    have ih := ih (fun x hx => h x (List.mem_cons_of_mem _ hx))
    simp only [VALID_CATEGORIES, List.map, List.sum_cons, List.sum_nil, List.filter_cons] at ih ⊢
    simp only [VALID_CATEGORIES, List.mem_cons, List.mem_singleton, List.not_mem_nil,
      or_false] at hc
    rcases hc with hc | hc | hc | hc | hc <;> simp [hc] <;> omega

/-- C10: when every record the ledger query returns for (userid, year, month)
has a category of the enumeration, the number of line items over all buckets
of generateReport's result is the number of records returned by the query. -/
theorem C10_generateReport_count (db : Db) (userid year month : Int)
    (h : ∀ c ∈ Cost.find db userid year month, c.category ∈ VALID_CATEGORIES) :
    (((generateReport db userid year month).costs.map
        (fun entry => (entry.map (fun kv => kv.2.length)).sum)).sum) =
      (Cost.find db userid year month).length := by
  rw [generateReport_costs, List.map_map, ← bucket_count _ h]
  congr 1
  apply List.map_congr_left
  intro category _
  simp

/-- Witness of C10: a ledger with three records of user 123123 in November
2026 (and one of another month); the report has three line items. -/
theorem C10_generateReport_count_witness :
    (((generateReport exampleDb 123123 2026 11).costs.map
        (fun entry => (entry.map (fun kv => kv.2.length)).sum)).sum) = 3 :=
  (C10_generateReport_count exampleDb 123123 2026 11 (by decide)).trans (by decide)

/-! ## The report resolver: cache hit, cache miss, open period -/

/-- A valid request has parameters that pass validation. -/
theorem ValidReportRequest.params {db : Db} {query : ReportQuery} {userid year month : Int}
    (hv : ValidReportRequest db query userid year month) :
    reportParams query = some (userid, year, month) := by
  obtain ⟨hid, hy, hm, hyr, hmr, -⟩ := hv
  simp [reportParams, hid, hy, hm, hyr, hmr]

/-- A valid request stays valid when only the ledger, the cache or the logs
of the database differ. -/
theorem ValidReportRequest.of_users {db db2 : Db} {query : ReportQuery} {userid year month : Int}
    (hv : ValidReportRequest db query userid year month) (h : db2.users = db.users) :
    ValidReportRequest db2 query userid year month :=
  ⟨hv.idParses, hv.yearParses, hv.monthParses, hv.yearRange, hv.monthRange, by
    have := hv.user
    simpa [User.findOne, h] using this⟩

/-- The resolver on a closed period with a cached report. -/
theorem resolveReport_hit (env : Env) (db : Db) (rawId : JsVal) (userid year month : Int)
    (cached : Report)
    (huser : (User.findOne db userid).isSome = true)
    (hpast : isMonthInPast env.now year month = true)
    (hcached : Report.findOne db userid year month = some cached)
    (hu : env.userFindFails = false) (hr : env.reportFindFails = false) :
    resolveReport env db rawId userid year month =
      (⟨200, .report cached⟩, logger.info env db "Returning cached report") := by
  obtain ⟨u, hfind⟩ := Option.isSome_iff_exists.mp huser
  simp [resolveReport, hu, hr, hfind, hpast, hcached]

/-- The resolver on a closed period without a cached report. -/
theorem resolveReport_miss (env : Env) (db : Db) (rawId : JsVal) (userid year month : Int)
    (huser : (User.findOne db userid).isSome = true)
    (hpast : isMonthInPast env.now year month = true)
    (hcached : Report.findOne db userid year month = none)
    (hu : env.userFindFails = false) (hr : env.reportFindFails = false)
    (hc : env.costFindFails = false) :
    resolveReport env db rawId userid year month =
      (⟨200, .report (generateReport db userid year month)⟩,
        logger.info env
          (match Report.save env db
              ⟨userid, year, month, (generateReport db userid year month).costs⟩ with
            | .ok db2 => logger.info env db2 "Report cached for past month"
            | .error _ => logger.warn env db "Could not cache report")
          "Report generated successfully") := by
  obtain ⟨u, hfind⟩ := Option.isSome_iff_exists.mp huser
  simp [resolveReport, hu, hr, hc, hfind, hpast, hcached]

/-- The resolver on an open period. -/
theorem resolveReport_open (env : Env) (db : Db) (rawId : JsVal) (userid year month : Int)
    (huser : (User.findOne db userid).isSome = true)
    (hopen : isMonthInPast env.now year month = false)
    (hu : env.userFindFails = false) (hc : env.costFindFails = false) :
    resolveReport env db rawId userid year month =
      (⟨200, .report (generateReport db userid year month)⟩,
        logger.info env db "Report generated successfully") := by
  obtain ⟨u, hfind⟩ := Option.isSome_iff_exists.mp huser
  simp [resolveReport, hu, hc, hfind, hopen]

/-- The key of the entry that `Report.findOne` returns is the key asked for. -/
theorem reportFindOne_key {db : Db} {userid year month : Int} {r : Report}
    (h : Report.findOne db userid year month = some r) :
    r ∈ db.reports ∧ r.userid = userid ∧ r.year = year ∧ r.month = month := by
  unfold Report.findOne at h
  have hmem := List.mem_of_find?_eq_some h
  have hp := List.find?_some h
  simp only [Bool.and_eq_true, decide_eq_true_eq] at hp
  exact ⟨hmem, hp.1.1, hp.1.2, hp.2⟩

/-- C2: for a valid request (existing user, year ≥ 1900, 1 ≤ month ≤ 12) for a
closed period whose key has an entry in the report cache, with the user and
cache lookups answered by the store, GET /api/report answers 200 with exactly
the cached userid, year, month and costs; the entry's key is the requested one;
the cache, the ledger and the users are left as they were (no cache write);
and the response is the same whatever the ledger contains, also when a ledger
scan would throw (no ledger scan is made). -/
theorem C2_closed_period_cache_hit (env : Env) (db : Db) (query : ReportQuery)
    (userid year month : Int) (cached : Report)
    (hvalid : ValidReportRequest db query userid year month)
    (hclosed : isMonthInPast env.now year month = true)
    (hcached : Report.findOne db userid year month = some cached)
    (hu : env.userFindFails = false) (hr : env.reportFindFails = false) :
    (getReport env db query).1 =
      ⟨200, .report { userid := cached.userid, year := cached.year, month := cached.month,
                      costs := cached.costs }⟩ ∧
    (cached.userid = userid ∧ cached.year = year ∧ cached.month = month) ∧
    (getReport env db query).2.reports = db.reports ∧
    (getReport env db query).2.costs = db.costs ∧
    (getReport env db query).2.users = db.users ∧
    (∀ (ledger : List Cost) (scanFails saveFails : Bool),
      (getReport { env with costFindFails := scanFails, reportSaveFails := saveFails }
        { db with costs := ledger } query).1 = (getReport env db query).1) := by
  have key := reportFindOne_key hcached
  have hres := getReport_of_params env db query userid year month hvalid.params
  have hstep := resolveReport_hit env (logger.info env db "Endpoint accessed: GET /api/report")
    query.id userid year month cached (by simpa [logger.info] using hvalid.user) hclosed
    (by simpa [logger.info] using hcached) hu hr
  rw [hstep] at hres
  refine ⟨by rw [hres], ⟨key.2.1, key.2.2.1, key.2.2.2⟩, ?_, ?_, ?_, ?_⟩
  · rw [hres]; simp [logger.info]
  · rw [hres]; simp [logger.info]
  · rw [hres]; simp [logger.info]
  · intro ledger scanFails saveFails
    have hvalid2 : ValidReportRequest { db with costs := ledger } query userid year month :=
      hvalid.of_users rfl
    have hres2 := getReport_of_params
      { env with costFindFails := scanFails, reportSaveFails := saveFails }
      { db with costs := ledger } query userid year month hvalid2.params
    have hstep2 := resolveReport_hit
      { env with costFindFails := scanFails, reportSaveFails := saveFails }
      (logger.info { env with costFindFails := scanFails, reportSaveFails := saveFails }
        { db with costs := ledger } "Endpoint accessed: GET /api/report")
      query.id userid year month cached (by simpa [logger.info] using hvalid2.user) hclosed
      (by simpa [logger.info, Report.findOne] using hcached) hu hr
    rw [hstep2] at hres2
    rw [hres, hres2]

/-- Witness of C2: the cached report of January 2020 is served although the
ledger has no record for that month. -/
theorem C2_closed_period_cache_hit_witness :
    (getReport exampleEnv exampleDb cachedQuery).1 =
      ⟨200, .report { userid := 123123, year := 2020, month := 1,
                      costs := [[("food", [{ sum := 12, description := "Soup", day := 3 }])],
                                [("health", [])], [("housing", [])], [("sports", [])],
                                [("education", [])]] }⟩ :=
  (C2_closed_period_cache_hit exampleEnv exampleDb cachedQuery 123123 2020 1
    { userid := 123123, year := 2020, month := 1,
      costs := [[("food", [{ sum := 12, description := "Soup", day := 3 }])],
                [("health", [])], [("housing", [])], [("sports", [])], [("education", [])]] }
    ⟨by decide, by decide, by decide, by decide, by decide, by decide⟩
    (by decide) (by decide) rfl rfl).1

/-- The report of a period without matching ledger records has five empty
buckets. -/
theorem generateReport_costs_of_find_nil (db : Db) (userid year month : Int)
    (h : Cost.find db userid year month = []) :
    (generateReport db userid year month).costs =
      [[("food", [])], [("health", [])], [("housing", [])], [("sports", [])],
       [("education", [])]] := by
  simp [generateReport, h, VALID_CATEGORIES]

/-- The lookup finds an entry appended under a key that was absent. -/
theorem reportFindOne_append_new (db : Db) (r : Report)
    (h : Report.findOne db r.userid r.year r.month = none) :
    Report.findOne { db with reports := db.reports ++ [r] } r.userid r.year r.month = some r := by
  unfold Report.findOne at h ⊢
  simp [List.find?_append, h]

/-- C3: for a valid request for a closed period whose key has no entry in the
report cache (the store answering the lookups and the ledger scan),
GET /api/report answers 200 with the report generateReport computes from the
ledger; when the cache insert succeeds, the cache afterwards is the old cache
with one new entry under the requested key whose costs are the returned
report's costs, and the lookup of that key finds it; when the ledger has no
record for the period, the returned report, and the cached one, have all five
buckets empty. -/
theorem C3_closed_period_cache_miss (env : Env) (db : Db) (query : ReportQuery)
    (userid year month : Int)
    (hvalid : ValidReportRequest db query userid year month)
    (hclosed : isMonthInPast env.now year month = true)
    (hmiss : Report.findOne db userid year month = none)
    (hu : env.userFindFails = false) (hr : env.reportFindFails = false)
    (hc : env.costFindFails = false) :
    (getReport env db query).1 = ⟨200, .report (generateReport db userid year month)⟩ ∧
    (env.reportSaveFails = false →
      (getReport env db query).2.reports =
        db.reports ++ [⟨userid, year, month, (generateReport db userid year month).costs⟩] ∧
      Report.findOne (getReport env db query).2 userid year month =
        some ⟨userid, year, month, (generateReport db userid year month).costs⟩) ∧
    (Cost.find db userid year month = [] →
      (getReport env db query).1 =
        ⟨200, .report ⟨userid, year, month,
          [[("food", [])], [("health", [])], [("housing", [])], [("sports", [])],
           [("education", [])]]⟩⟩ ∧
      (env.reportSaveFails = false →
        Report.findOne (getReport env db query).2 userid year month =
          some ⟨userid, year, month,
            [[("food", [])], [("health", [])], [("housing", [])], [("sports", [])],
             [("education", [])]]⟩)) := by
  have hres := getReport_of_params env db query userid year month hvalid.params
  have hstep := resolveReport_miss env (logger.info env db "Endpoint accessed: GET /api/report")
    query.id userid year month (by simpa [logger.info] using hvalid.user) hclosed
    (by simpa [logger.info] using hmiss) hu hr hc
  rw [hstep] at hres
  have hresp : (getReport env db query).1 =
      ⟨200, .report (generateReport db userid year month)⟩ := by
    rw [hres]; simp [logger.info]
  have hsaved : env.reportSaveFails = false →
      (getReport env db query).2.reports =
        db.reports ++ [⟨userid, year, month, (generateReport db userid year month).costs⟩] ∧
      Report.findOne (getReport env db query).2 userid year month =
        some ⟨userid, year, month, (generateReport db userid year month).costs⟩ := by
    intro hs
    have hmr := hvalid.monthRange
    have hm1 : ¬ (month < 1 ∨ month > 12) := by omega
    have hreports : (getReport env db query).2.reports =
        db.reports ++ [⟨userid, year, month, (generateReport db userid year month).costs⟩] := by
      rw [hres]
      simp [logger.info, logger.warn, Report.save, hs, hm1, hmiss]
    refine ⟨hreports, ?_⟩
    have := reportFindOne_append_new db
      ⟨userid, year, month, (generateReport db userid year month).costs⟩ hmiss
    unfold Report.findOne at this ⊢
    rw [hreports]
    exact this
  refine ⟨hresp, hsaved, ?_⟩
  intro hempty
  have hcosts := generateReport_costs_of_find_nil db userid year month hempty
  have hgen : generateReport db userid year month =
      ⟨userid, year, month,
        [[("food", [])], [("health", [])], [("housing", [])], [("sports", [])],
         [("education", [])]]⟩ := by
    rw [← hcosts]; rfl
  refine ⟨by rw [hresp, hgen], ?_⟩
  intro hs
  rw [(hsaved hs).2, hcosts]

/-- Witness of C3: March 2021 is not cached; the empty report is returned and
cached. -/
theorem C3_closed_period_cache_miss_witness :
    (getReport exampleEnv exampleDb uncachedQuery).1 =
      ⟨200, .report ⟨123123, 2021, 3,
        [[("food", [])], [("health", [])], [("housing", [])], [("sports", [])],
         [("education", [])]]⟩⟩ ∧
    Report.findOne (getReport exampleEnv exampleDb uncachedQuery).2 123123 2021 3 =
      some ⟨123123, 2021, 3,
        [[("food", [])], [("health", [])], [("housing", [])], [("sports", [])],
         [("education", [])]]⟩ :=
  have h := (C3_closed_period_cache_miss exampleEnv exampleDb uncachedQuery 123123 2021 3
    ⟨by decide, by decide, by decide, by decide, by decide, by decide⟩
    (by decide) (by decide) rfl rfl rfl).2.2 (by decide)
  ⟨h.1, h.2 rfl⟩

/-- A request that fails validation is answered without looking at the
environment or the database. -/
theorem getReport_of_no_params_resp (env env2 : Env) (db db2 : Db) (query : ReportQuery)
    (h : reportParams query = none) :
    (getReport env2 db2 query).1 = (getReport env db query).1 := by
  unfold reportParams at h
  unfold getReport
  by_cases n1 : query.id.isNullish = true
  · simp [n1]
  by_cases n2 : query.year.isNullish = true
  · simp [n1, n2]
  by_cases n3 : query.month.isNullish = true
  · simp [n1, n2, n3]
  simp only [n1, n2, n3, if_false, Bool.false_eq_true]
  cases hid : parseInt query.id with
  | none => simp
  | some a =>
    cases hy : parseInt query.year with
    | none => simp
    | some b =>
      by_cases hyr : b < 1900
      · simp [hyr]
      cases hm : parseInt query.month with
      | none => simp [hyr]
      | some c =>
        by_cases hmr : c < 1 ∨ c > 12
        · simp [hyr, hmr]
        · simp only [hid, hy, hm] at h
          split at h
          · simp at h
          · omega

/-- For an open period the response of the resolver is determined by the
clock, the users, the ledger and the faults of the user lookup and of the
ledger scan. -/
theorem resolveReport_open_resp (env env2 : Env) (db db2 : Db) (rawId : JsVal)
    (userid year month : Int)
    (hopen : isMonthInPast env.now year month = false)
    (hnow : env2.now = env.now) (huf : env2.userFindFails = env.userFindFails)
    (hcf : env2.costFindFails = env.costFindFails)
    (hfm : env2.faultMessage = env.faultMessage)
    (husers : db2.users = db.users) (hcosts : db2.costs = db.costs) :
    (resolveReport env2 db2 rawId userid year month).1 =
      (resolveReport env db rawId userid year month).1 := by
  have hfind : User.findOne db2 userid = User.findOne db userid := by
    simp [User.findOne, husers]
  have hgen : generateReport db2 userid year month = generateReport db userid year month := by
    simp [generateReport, Cost.find, hcosts]
  unfold resolveReport
  simp only [hnow, huf, hcf, hfm, hfind, hgen, hopen]
  by_cases hu : env.userFindFails = true
  · simp [hu]
  cases hfu : User.findOne db userid with
  | none => simp [hu]
  | some u =>
    by_cases hc : env.costFindFails = true
    · simp [hu, hc]
    · simp [hu, hc]

/-- C4: for a request to GET /api/report whose year and month denote an open
period (the current month or a later one) the report cache after the call is
the cache before it, the ledger and the users are unchanged, and the response
does not depend on what the cache holds nor on whether a cache lookup or
insert would fail (the cache is neither read nor written); when the request
is valid (existing user, year ≥ 1900, 1 ≤ month ≤ 12) and the store answers
the user lookup and the ledger scan, the response is 200 with the report
generateReport computes from the ledger. -/
theorem C4_open_period_bypasses_cache (env : Env) (db : Db) (query : ReportQuery)
    (year month : Int)
    (hyear : parseInt query.year = some year) (hmonth : parseInt query.month = some month)
    (hopen : isMonthInPast env.now year month = false) :
    (getReport env db query).2.reports = db.reports ∧
    (getReport env db query).2.costs = db.costs ∧
    (getReport env db query).2.users = db.users ∧
    (∀ (cache : List Report) (lookupFails insertFails : Bool),
      (getReport { env with reportFindFails := lookupFails, reportSaveFails := insertFails }
        { db with reports := cache } query).1 = (getReport env db query).1) ∧
    (∀ userid : Int, ValidReportRequest db query userid year month →
      env.userFindFails = false → env.costFindFails = false →
      (getReport env db query).1 = ⟨200, .report (generateReport db userid year month)⟩) := by
  have hframe : (getReport env db query).2.reports = db.reports ∧
      (getReport env db query).2.costs = db.costs ∧
      (getReport env db query).2.users = db.users := by
    cases hp : reportParams query with
    | none =>
      rw [(getReport_of_no_params env db query hp).2]
      simp [logger.info]
    | some p =>
      obtain ⟨u, y, m⟩ := p
      have hy : y = year := by
        unfold reportParams at hp
        rw [hyear, hmonth] at hp
        cases hid : parseInt query.id <;> simp only [hid] at hp
        · simp at hp
        · split at hp
          · simp only [Option.some.injEq, Prod.mk.injEq] at hp; exact hp.2.1.symm
          · simp at hp
      have hm : m = month := by
        unfold reportParams at hp
        rw [hyear, hmonth] at hp
        cases hid : parseInt query.id <;> simp only [hid] at hp
        · simp at hp
        · split at hp
          · simp only [Option.some.injEq, Prod.mk.injEq] at hp; exact hp.2.2.symm
          · simp at hp
      subst hy hm
      rw [getReport_of_params env db query u y m hp]
      have hc := resolveReport_costs env (logger.info env db "Endpoint accessed: GET /api/report")
        query.id u y m
      refine ⟨?_, by simpa [logger.info] using hc.1, by simpa [logger.info] using hc.2⟩
      rcases resolveReport_reports env (logger.info env db "Endpoint accessed: GET /api/report")
        query.id u y m with h | ⟨hpast, -⟩
      · simpa [logger.info] using h
      · rw [hopen] at hpast; cases hpast
  refine ⟨hframe.1, hframe.2.1, hframe.2.2, ?_, ?_⟩
  · intro cache lookupFails insertFails
    cases hp : reportParams query with
    | none => exact getReport_of_no_params_resp _ _ _ _ query hp
    | some p =>
      obtain ⟨u, y, m⟩ := p
      have hym : y = year ∧ m = month := by
        unfold reportParams at hp
        rw [hyear, hmonth] at hp
        cases hid : parseInt query.id <;> simp only [hid] at hp
        · simp at hp
        · split at hp
          · simp only [Option.some.injEq, Prod.mk.injEq] at hp
            exact ⟨hp.2.1.symm, hp.2.2.symm⟩
          · simp at hp
      obtain ⟨rfl, rfl⟩ := hym
      rw [getReport_of_params _ _ query u y m hp, getReport_of_params _ _ query u y m hp]
      refine resolveReport_open_resp env _ _ _ _ _ _ _ hopen ?_ ?_ ?_ ?_ ?_ ?_
      · rfl
      · rfl
      · rfl
      · rfl
      · simp [logger.info]
      · simp [logger.info]
  · intro userid hvalid hu hc
    rw [getReport_of_params env db query userid year month hvalid.params,
      resolveReport_open env _ query.id userid year month
        (by simpa [logger.info] using hvalid.user) hopen hu hc]
    simp [logger.info]

/-- Witness of C4: a report for the current month leaves the cache as it was
and is computed from the ledger. -/
theorem C4_open_period_bypasses_cache_witness :
    (getReport exampleEnv exampleDb currentQuery).2.reports = exampleDb.reports ∧
    (getReport exampleEnv exampleDb currentQuery).1 =
      ⟨200, .report (generateReport exampleDb 123123 2026 11)⟩ :=
  have h := C4_open_period_bypasses_cache exampleEnv exampleDb currentQuery 2026 11
    (by decide) (by decide) (by decide)
  ⟨h.1, h.2.2.2.2 123123
    ⟨by decide, by decide, by decide, by decide, by decide, by decide⟩ rfl rfl⟩

/-! ## Cache write failures -/

/-- The response on a cache miss for a closed period, whatever the outcome of
the cache insert. -/
theorem getReport_miss_resp (env : Env) (db : Db) (query : ReportQuery)
    (userid year month : Int)
    (hvalid : ValidReportRequest db query userid year month)
    (hclosed : isMonthInPast env.now year month = true)
    (hmiss : Report.findOne db userid year month = none)
    (hu : env.userFindFails = false) (hr : env.reportFindFails = false)
    (hc : env.costFindFails = false) :
    (getReport env db query).1 = ⟨200, .report (generateReport db userid year month)⟩ := by
  rw [getReport_of_params env db query userid year month hvalid.params,
    resolveReport_miss env _ query.id userid year month
      (by simpa [logger.info] using hvalid.user) hclosed
      (by simpa [logger.info] using hmiss) hu hr hc]
  simp [logger.info]

/-- The cache after a miss for a closed period whose insert is rejected. -/
theorem getReport_miss_save_fails (env : Env) (db : Db) (query : ReportQuery)
    (userid year month : Int)
    (hvalid : ValidReportRequest db query userid year month)
    (hclosed : isMonthInPast env.now year month = true)
    (hmiss : Report.findOne db userid year month = none)
    (hu : env.userFindFails = false) (hr : env.reportFindFails = false)
    (hc : env.costFindFails = false) (hs : env.reportSaveFails = true) :
    (getReport env db query).2.reports = db.reports := by
  rw [getReport_of_params env db query userid year month hvalid.params,
    resolveReport_miss env _ query.id userid year month
      (by simpa [logger.info] using hvalid.user) hclosed
      (by simpa [logger.info] using hmiss) hu hr hc]
  simp [logger.info, logger.warn, Report.save, hs]

/-- C5: for a valid request for a closed period with a cache miss (lookups and
ledger scan answered by the store), GET /api/report answers 200 with the
freshly computed report whether or not the cache insert is rejected; the
response with a rejected insert is the response with an accepted insert; and
a rejected insert leaves the cache as it was. -/
theorem C5_cache_write_failure_swallowed (env : Env) (db : Db) (query : ReportQuery)
    (userid year month : Int)
    (hvalid : ValidReportRequest db query userid year month)
    (hclosed : isMonthInPast env.now year month = true)
    (hmiss : Report.findOne db userid year month = none)
    (hu : env.userFindFails = false) (hr : env.reportFindFails = false)
    (hc : env.costFindFails = false) :
    (getReport { env with reportSaveFails := true } db query).1 =
      ⟨200, .report (generateReport db userid year month)⟩ ∧
    (getReport { env with reportSaveFails := true } db query).1 =
      (getReport { env with reportSaveFails := false } db query).1 ∧
    (getReport { env with reportSaveFails := true } db query).2.reports = db.reports ∧
    (getReport env db query).1.status = 200 := by
  have h1 := getReport_miss_resp { env with reportSaveFails := true } db query userid year month
    hvalid hclosed hmiss hu hr hc
  have h2 := getReport_miss_resp { env with reportSaveFails := false } db query userid year month
    hvalid hclosed hmiss hu hr hc
  have h3 := getReport_miss_save_fails { env with reportSaveFails := true } db query
    userid year month hvalid hclosed hmiss hu hr hc rfl
  have h4 := getReport_miss_resp env db query userid year month hvalid hclosed hmiss hu hr hc
  exact ⟨h1, h1.trans h2.symm, h3, by rw [h4]⟩

/-- Witness of C5: the request for March 2021 with a rejected cache insert. -/
theorem C5_cache_write_failure_swallowed_witness :
    (getReport { exampleEnv with reportSaveFails := true } exampleDb uncachedQuery).1 =
      ⟨200, .report (generateReport exampleDb 123123 2021 3)⟩ ∧
    (getReport { exampleEnv with reportSaveFails := true } exampleDb uncachedQuery).2.reports =
      exampleDb.reports :=
  have h := C5_cache_write_failure_swallowed exampleEnv exampleDb uncachedQuery 123123 2021 3
    ⟨by decide, by decide, by decide, by decide, by decide, by decide⟩
    (by decide) (by decide) rfl rfl rfl
  ⟨h.1, h.2.2.1⟩

/-! ## Invariants of the report cache under sequential runs -/

/-- A period that is closed stays closed when the clock advances. -/
theorem isMonthInPast_mono {a b : Clock} (hab : Clock.monthLe a b) {year month : Int}
    (h : isMonthInPast a year month = true) : isMonthInPast b year month = true := by
  rw [isMonthInPast_eq_true_iff] at h ⊢
  unfold Clock.monthLe at hab
  omega

/-- The month order of clock readings is reflexive. -/
theorem Clock.monthLe_refl (a : Clock) : Clock.monthLe a a := by
  unfold Clock.monthLe; omega

/-- The ledger query depends on the ledger only. -/
theorem generateReport_congr {db db2 : Db} (h : db2.costs = db.costs) (userid year month : Int) :
    generateReport db2 userid year month = generateReport db userid year month := by
  simp [generateReport, Cost.find, h]

/-- A record of another period does not change the report of a period. -/
theorem generateReport_append_other (db db2 : Db) (doc : Cost) (userid year month : Int)
    (h : db2.costs = db.costs ++ [doc]) (hne : ¬ (doc.year = year ∧ doc.month = month)) :
    generateReport db2 userid year month = generateReport db userid year month := by
  have hfind : Cost.find db2 userid year month = Cost.find db userid year month := by
    unfold Cost.find
    rw [h, List.filter_append]
    have : List.filter (fun cost => decide (cost.userid = userid) && decide (cost.year = year) &&
        decide (cost.month = month)) [doc] = [] := by
      rw [List.filter_eq_nil_iff]
      intro c hc
      rw [List.mem_singleton] at hc
      subst hc
      simp only [Bool.and_eq_true, decide_eq_true_eq]
      tauto
    rw [this, List.append_nil]
  simp only [generateReport, hfind]

/-- The lookup misses exactly when the key is not among the cached keys. -/
theorem reportFindOne_eq_none_iff (db : Db) (userid year month : Int) :
    Report.findOne db userid year month = none ↔
      (userid, year, month) ∉ db.reports.map Report.key := by
  unfold Report.findOne
  rw [List.find?_eq_none]
  simp only [Bool.and_eq_true, decide_eq_true_eq, List.mem_map, Report.key, Prod.mk.injEq,
    not_exists, not_and]
  constructor
  · intro h r hr h1 h2 h3
    exact h r hr ⟨h1, h2⟩ h3
  · intro h r hr h12 h3
    exact h r hr h12.1 h12.2 h3

/-- What GET /api/report does to the cache: nothing, or one insert, for a
period closed at the time of the call, under a key that was absent. -/
theorem getReport_reports (env : Env) (db : Db) (query : ReportQuery) :
    (getReport env db query).2.reports = db.reports ∨
    ∃ userid year month, reportParams query = some (userid, year, month) ∧
      isMonthInPast env.now year month = true ∧
      Report.findOne db userid year month = none ∧
      env.reportSaveFails = false ∧
      (getReport env db query).2.reports =
        db.reports ++ [⟨userid, year, month, (generateReport db userid year month).costs⟩] := by
  cases hp : reportParams query with
  | none =>
    left
    rw [(getReport_of_no_params env db query hp).2]
    simp [logger.info]
  | some p =>
    obtain ⟨u, y, m⟩ := p
    rw [getReport_of_params env db query u y m hp]
    rcases resolveReport_reports env (logger.info env db "Endpoint accessed: GET /api/report")
      query.id u y m with h | ⟨hpast, hmiss, hs, h⟩
    · left; simpa [logger.info] using h
    · right
      exact ⟨u, y, m, rfl, hpast, by simpa [logger.info] using hmiss, hs,
        by simpa [logger.info] using h⟩

/-- GET /api/report changes neither the ledger nor the users. -/
theorem getReport_costs_users (env : Env) (db : Db) (query : ReportQuery) :
    (getReport env db query).2.costs = db.costs ∧
    (getReport env db query).2.users = db.users := by
  cases hp : reportParams query with
  | none =>
    rw [(getReport_of_no_params env db query hp).2]
    simp [logger.info]
  | some p =>
    obtain ⟨u, y, m⟩ := p
    rw [getReport_of_params env db query u y m hp]
    have h := resolveReport_costs env (logger.info env db "Endpoint accessed: GET /api/report")
      query.id u y m
    simpa [logger.info] using h

/-- One call keeps the cache invariant when the clock has not gone back. -/
theorem CacheInv.exec {lo : Clock} {db : Db} (hinv : CacheInv lo db) (c : Call)
    (hle : Clock.monthLe lo c.env.now) : CacheInv c.env.now (c.exec db) := by
  obtain ⟨hsound, hnodup⟩ := hinv
  unfold Call.exec
  cases hreq : c.request with
  | add body =>
    obtain ⟨hr, -, hcosts⟩ := addCost_frame c.env db body
    refine ⟨?_, by rw [hr]; exact hnodup⟩
    intro r hmem
    rw [hr] at hmem
    obtain ⟨hclosed, hs⟩ := hsound r hmem
    have hclosed2 := isMonthInPast_mono hle hclosed
    refine ⟨hclosed2, ?_⟩
    rcases hcosts with h | ⟨doc, hopen, h⟩
    · rw [generateReport_congr h]; exact hs
    · rw [generateReport_append_other db _ doc r.userid r.year r.month h ?_]
      · exact hs
      · rintro ⟨hy, hm⟩
        rw [hy, hm, hclosed2] at hopen
        cases hopen
  | report query =>
    obtain ⟨hcosts, -⟩ := getReport_costs_users c.env db query
    rcases getReport_reports c.env db query with h | ⟨u, y, m, -, hpast, hmiss, -, h⟩
    · refine ⟨?_, by rw [h]; exact hnodup⟩
      intro r hmem
      rw [h] at hmem
      obtain ⟨hclosed, hs⟩ := hsound r hmem
      exact ⟨isMonthInPast_mono hle hclosed, by rw [generateReport_congr hcosts]; exact hs⟩
    · constructor
      · intro r hmem
        rw [h, List.mem_append, List.mem_singleton] at hmem
        rcases hmem with hmem | rfl
        · obtain ⟨hclosed, hs⟩ := hsound r hmem
          exact ⟨isMonthInPast_mono hle hclosed, by rw [generateReport_congr hcosts]; exact hs⟩
        · exact ⟨hpast, by rw [generateReport_congr hcosts]⟩
      · rw [h, List.map_append, List.nodup_append]
        refine ⟨hnodup, by simp, ?_⟩
        intro k hk hk2
        simp only [List.map_cons, List.map_nil, List.mem_singleton] at hk2
        subst hk2
        exact (reportFindOne_eq_none_iff db u y m).mp hmiss hk

/-- A run under a clock that never goes back keeps the cache invariant. -/
theorem CacheInv.run (calls : List Call) :
    ∀ (lo : Clock) (db : Db), CacheInv lo db →
      (∀ c ∈ calls, Clock.monthLe lo c.env.now) →
      calls.Pairwise (fun a b => Clock.monthLe a.env.now b.env.now) →
      CacheInv (lastClock lo calls) (runCalls db calls) := by
  induction calls with
  | nil => intro lo db h _ _; exact h
  | cons c cs ih =>
    intro lo db h hlo hpw
    rw [List.pairwise_cons] at hpw
    have hstep := h.exec c (hlo c (List.mem_cons_self _ _))
    exact ih c.env.now (c.exec db) hstep hpw.1 hpw.2

/-- An empty cache satisfies the invariant at every clock reading. -/
theorem CacheInv.of_empty (now : Clock) (db : Db) (h : db.reports = []) : CacheInv now db := by
  unfold CacheInv
  rw [h]
  simp

/-- The cache invariant after a run from an empty cache, at the clock of the
last call. -/
theorem CacheInv.run_of_empty (db : Db) (c : Call) (cs : List Call) (h : db.reports = [])
    (hpw : (c :: cs).Pairwise (fun a b => Clock.monthLe a.env.now b.env.now)) :
    CacheInv (lastClock c.env.now cs) (runCalls db (c :: cs)) := by
  have := CacheInv.run (c :: cs) c.env.now db (CacheInv.of_empty _ db h) ?_ hpw
  · exact this
  · intro c2 hc2
    rw [List.mem_cons] at hc2
    rcases hc2 with rfl | hc2
    · exact Clock.monthLe_refl _
    · exact (List.pairwise_cons.mp hpw).1 c2 hc2

/-- C6: starting from an empty report cache, after every sequence of
POST /api/add and GET /api/report calls executed one after another under a
clock that never goes back (by month), every entry of the report cache holds
the costs that generateReport computes from the current ledger for the
entry's (userid, year, month). -/
theorem C6_cache_never_stale (db : Db) (calls : List Call) (hempty : db.reports = [])
    (hclock : calls.Pairwise (fun a b => Clock.monthLe a.env.now b.env.now)) :
    ∀ r ∈ (runCalls db calls).reports,
      r.costs = (generateReport (runCalls db calls) r.userid r.year r.month).costs := by
  cases calls with
  | nil =>
    intro r hr
    simp only [runCalls, List.foldl_nil, hempty, List.not_mem_nil] at hr
  | cons c cs =>
    intro r hr
    exact ((CacheInv.run_of_empty db c cs hempty hclock).1 r hr).2

/-- Witness of C6: after the example run the cache holds two reports, each
equal to what the ledger gives. -/
theorem C6_cache_never_stale_witness :
    (runCalls freshDb exampleCalls).reports.length = 2 ∧
    ∀ r ∈ (runCalls freshDb exampleCalls).reports,
      r.costs = (generateReport (runCalls freshDb exampleCalls) r.userid r.year r.month).costs :=
  ⟨by decide, C6_cache_never_stale freshDb exampleCalls rfl (by decide)⟩

/-! ## Idempotent caching -/

/-- The response and the cache on a cache hit for a closed period. -/
theorem getReport_hit (env : Env) (db : Db) (query : ReportQuery)
    (userid year month : Int) (cached : Report)
    (hvalid : ValidReportRequest db query userid year month)
    (hclosed : isMonthInPast env.now year month = true)
    (hcached : Report.findOne db userid year month = some cached)
    (hu : env.userFindFails = false) (hr : env.reportFindFails = false) :
    (getReport env db query).1 = ⟨200, .report cached⟩ ∧
    (getReport env db query).2.reports = db.reports := by
  rw [getReport_of_params env db query userid year month hvalid.params,
    resolveReport_hit env _ query.id userid year month cached
      (by simpa [logger.info] using hvalid.user) hclosed
      (by simpa [logger.info] using hcached) hu hr]
  simp [logger.info]

/-- The cache after a miss for a closed period whose insert is accepted. -/
theorem getReport_miss_save_ok (env : Env) (db : Db) (query : ReportQuery)
    (userid year month : Int)
    (hvalid : ValidReportRequest db query userid year month)
    (hclosed : isMonthInPast env.now year month = true)
    (hmiss : Report.findOne db userid year month = none)
    (hu : env.userFindFails = false) (hr : env.reportFindFails = false)
    (hc : env.costFindFails = false) (hs : env.reportSaveFails = false) :
    (getReport env db query).2.reports =
      db.reports ++ [⟨userid, year, month, (generateReport db userid year month).costs⟩] := by
  have hmr := hvalid.monthRange
  have hm1 : ¬ (month < 1 ∨ month > 12) := by omega
  rw [getReport_of_params env db query userid year month hvalid.params,
    resolveReport_miss env _ query.id userid year month
      (by simpa [logger.info] using hvalid.user) hclosed
      (by simpa [logger.info] using hmiss) hu hr hc]
  simp [logger.info, logger.warn, Report.save, hs, hm1, hmiss]

/-- The lookup only reads the reports collection. -/
theorem reportFindOne_congr {db db2 : Db} (h : db2.reports = db.reports)
    (userid year month : Int) :
    Report.findOne db2 userid year month = Report.findOne db userid year month := by
  simp [Report.findOne, h]

/-- A key that the lookup misses has no cached report. -/
theorem countKey_of_miss (db : Db) (userid year month : Int)
    (hmiss : Report.findOne db userid year month = none) :
    Report.countKey db userid year month = 0 := by
  unfold Report.findOne at hmiss
  unfold Report.countKey
  rw [List.length_eq_zero, List.filter_eq_nil_iff]
  intro r hr
  have := List.find?_eq_none.mp hmiss r hr
  simpa using this

/-- A key that the lookup finds has a cached report. -/
theorem countKey_of_hit (db : Db) (userid year month : Int) (cached : Report)
    (hfind : Report.findOne db userid year month = some cached) :
    1 ≤ Report.countKey db userid year month := by
  unfold Report.findOne at hfind
  unfold Report.countKey
  have hmem := List.mem_of_find?_eq_some hfind
  have hp := List.find?_some hfind
  have : cached ∈ db.reports.filter (fun r =>
      decide (r.userid = userid) && decide (r.year = year) && decide (r.month = month)) :=
    List.mem_filter.mpr ⟨hmem, hp⟩
  exact List.length_pos_of_mem this

/-- Counting after an insert under the counted key. -/
theorem countKey_append_same (db db2 : Db) (userid year month : Int) (costs : List CategoryEntry)
    (h : db2.reports = db.reports ++ [⟨userid, year, month, costs⟩]) :
    Report.countKey db2 userid year month = Report.countKey db userid year month + 1 := by
  unfold Report.countKey
  rw [h, List.filter_append]
  simp

/-- Counting only reads the reports collection. -/
theorem countKey_congr {db db2 : Db} (h : db2.reports = db.reports) (userid year month : Int) :
    Report.countKey db2 userid year month = Report.countKey db userid year month := by
  simp [Report.countKey, h]

/-- C7: for an existing user and a closed period (valid request, the store
answering the lookups and the ledger scan, the cache respecting its unique
index), two GET /api/report calls with the same parameters, one after the
other, return the same report with status 200; afterwards the cache holds at
most one entry for the key, and exactly one as soon as the cache insert was
not rejected in both calls. -/
theorem C7_idempotent_caching (env1 env2 : Env) (db : Db) (query : ReportQuery)
    (userid year month : Int)
    (hvalid : ValidReportRequest db query userid year month)
    (hclosed1 : isMonthInPast env1.now year month = true)
    (hclosed2 : isMonthInPast env2.now year month = true)
    (hunique : Report.countKey db userid year month ≤ 1)
    (hu1 : env1.userFindFails = false) (hr1 : env1.reportFindFails = false)
    (hc1 : env1.costFindFails = false)
    (hu2 : env2.userFindFails = false) (hr2 : env2.reportFindFails = false)
    (hc2 : env2.costFindFails = false) :
    (getReport env2 (getReport env1 db query).2 query).1 = (getReport env1 db query).1 ∧
    (getReport env1 db query).1.status = 200 ∧
    Report.countKey (getReport env2 (getReport env1 db query).2 query).2 userid year month ≤ 1 ∧
    ((env1.reportSaveFails = false ∨ env2.reportSaveFails = false) →
      Report.countKey (getReport env2 (getReport env1 db query).2 query).2 userid year month
        = 1) := by
  have husers := (getReport_costs_users env1 db query).2
  have hcosts := (getReport_costs_users env1 db query).1
  have hvalid2 : ValidReportRequest (getReport env1 db query).2 query userid year month :=
    hvalid.of_users husers
  cases hfind : Report.findOne db userid year month with
  | some cached =>
    obtain ⟨hresp1, hrep1⟩ := getReport_hit env1 db query userid year month cached hvalid
      hclosed1 hfind hu1 hr1
    have hfind2 : Report.findOne (getReport env1 db query).2 userid year month = some cached := by
      rw [reportFindOne_congr hrep1]; exact hfind
    obtain ⟨hresp2, hrep2⟩ := getReport_hit env2 _ query userid year month cached hvalid2
      hclosed2 hfind2 hu2 hr2
    have hone := countKey_of_hit db userid year month cached hfind
    rw [countKey_congr (hrep2.trans hrep1), hresp2, hresp1]
    exact ⟨rfl, rfl, hunique, fun _ => by omega⟩
  | none =>
    have hresp1 := getReport_miss_resp env1 db query userid year month hvalid hclosed1 hfind
      hu1 hr1 hc1
    have hzero := countKey_of_miss db userid year month hfind
    cases hs1 : env1.reportSaveFails with
    | true =>
      have hrep1 := getReport_miss_save_fails env1 db query userid year month hvalid hclosed1
        hfind hu1 hr1 hc1 hs1
      have hfind2 : Report.findOne (getReport env1 db query).2 userid year month = none := by
        rw [reportFindOne_congr hrep1]; exact hfind
      have hresp2 := getReport_miss_resp env2 _ query userid year month hvalid2 hclosed2 hfind2
        hu2 hr2 hc2
      rw [generateReport_congr hcosts] at hresp2
      refine ⟨by rw [hresp2, hresp1], by rw [hresp1], ?_, ?_⟩
      · cases hs2 : env2.reportSaveFails with
        | true =>
          rw [countKey_congr ((getReport_miss_save_fails env2 _ query userid year month hvalid2
            hclosed2 hfind2 hu2 hr2 hc2 hs2).trans hrep1), hzero]
          omega
        | false =>
          rw [countKey_append_same _ _ userid year month _
            (getReport_miss_save_ok env2 _ query userid year month hvalid2 hclosed2 hfind2
              hu2 hr2 hc2 hs2), countKey_congr hrep1, hzero]
      · intro hor
        have hs2 : env2.reportSaveFails = false := by
          rcases hor with h | h
          · cases h
          · exact h
        rw [countKey_append_same _ _ userid year month _
          (getReport_miss_save_ok env2 _ query userid year month hvalid2 hclosed2 hfind2
            hu2 hr2 hc2 hs2), countKey_congr hrep1, hzero]
    | false =>
      have hrep1 := getReport_miss_save_ok env1 db query userid year month hvalid hclosed1
        hfind hu1 hr1 hc1 hs1
      have hfind2 : Report.findOne (getReport env1 db query).2 userid year month =
          some ⟨userid, year, month, (generateReport db userid year month).costs⟩ := by
        have := reportFindOne_append_new db
          ⟨userid, year, month, (generateReport db userid year month).costs⟩ hfind
        unfold Report.findOne at this ⊢
        rw [hrep1]
        exact this
      obtain ⟨hresp2, hrep2⟩ := getReport_hit env2 _ query userid year month _ hvalid2
        hclosed2 hfind2 hu2 hr2
      have hcount : Report.countKey (getReport env2 (getReport env1 db query).2 query).2
          userid year month = 1 := by
        rw [countKey_congr hrep2, countKey_append_same _ _ userid year month _ hrep1, hzero]
      refine ⟨?_, by rw [hresp1], by omega, fun _ => hcount⟩
      rw [hresp2, hresp1]
      rfl

/-- Witness of C7: two requests for March 2021 in a row; the second is served
from the entry the first one cached. -/
theorem C7_idempotent_caching_witness :
    (getReport exampleEnv (getReport exampleEnv exampleDb uncachedQuery).2 uncachedQuery).1 =
      (getReport exampleEnv exampleDb uncachedQuery).1 ∧
    Report.countKey (getReport exampleEnv (getReport exampleEnv exampleDb uncachedQuery).2
      uncachedQuery).2 123123 2021 3 = 1 :=
  have h := C7_idempotent_caching exampleEnv exampleEnv exampleDb uncachedQuery 123123 2021 3
    ⟨by decide, by decide, by decide, by decide, by decide, by decide⟩
    (by decide) (by decide) (by decide) rfl rfl rfl rfl rfl rfl
  ⟨h.1, h.2.2.2 (Or.inl rfl)⟩

/-! ## Cached keys: closed periods, no key twice -/

/-- What one call does to the cache: nothing, or one insert for a period
closed at the time of the call under a key that was absent. -/
theorem Call.exec_reports (db : Db) (c : Call) :
    (c.exec db).reports = db.reports ∨
    ∃ r : Report, isMonthInPast c.env.now r.year r.month = true ∧
      r.key ∉ db.reports.map Report.key ∧ (c.exec db).reports = db.reports ++ [r] := by
  unfold Call.exec
  cases hreq : c.request with
  | add body => exact Or.inl (addCost_frame c.env db body).1
  | report query =>
    rcases getReport_reports c.env db query with h | ⟨u, y, m, -, hpast, hmiss, -, h⟩
    · exact Or.inl h
    · exact Or.inr ⟨⟨u, y, m, (generateReport db u y m).costs⟩, hpast,
        (reportFindOne_eq_none_iff db u y m).mp hmiss, h⟩

/-- Along a run no key is cached twice, and every entry that was not there at
the start was cached by a call for which its period was closed. -/
theorem runCalls_keys (calls : List Call) :
    ∀ db : Db, (db.reports.map Report.key).Nodup →
      ((runCalls db calls).reports.map Report.key).Nodup ∧
      ∀ r ∈ (runCalls db calls).reports,
        r ∈ db.reports ∨ ∃ c ∈ calls, isMonthInPast c.env.now r.year r.month = true := by
  induction calls with
  | nil => intro db h; exact ⟨h, fun r hr => Or.inl hr⟩
  | cons c cs ih =>
    intro db hnodup
    have hstep : ((c.exec db).reports.map Report.key).Nodup ∧
        ∀ r ∈ (c.exec db).reports,
          r ∈ db.reports ∨ isMonthInPast c.env.now r.year r.month = true := by
      rcases Call.exec_reports db c with h | ⟨r, hpast, hnew, h⟩
      · rw [h]; exact ⟨hnodup, fun r hr => Or.inl hr⟩
      · rw [h]
        constructor
        · rw [List.map_append, List.nodup_append]
          refine ⟨hnodup, by simp, ?_⟩
          intro k hk hk2
          simp only [List.map_cons, List.map_nil, List.mem_singleton] at hk2
          subst hk2
          exact hnew hk
        · intro r2 hr2
          rw [List.mem_append, List.mem_singleton] at hr2
          rcases hr2 with hr2 | rfl
          · exact Or.inl hr2
          · exact Or.inr hpast
    obtain ⟨hn, hall⟩ := ih (c.exec db) hstep.1
    refine ⟨hn, ?_⟩
    intro r hr
    rcases hall r hr with h | ⟨c2, hc2, h⟩
    · rcases hstep.2 r h with h2 | h2
      · exact Or.inl h2
      · exact Or.inr ⟨c, List.mem_cons_self _ _, h2⟩
    · exact Or.inr ⟨c2, List.mem_cons_of_mem _ hc2, h⟩

/-- C8: GET /api/report changes the cache only by inserting one report for
the requested (userid, year, month), only when isMonthInPast holds for it at
the time of the call, and only under a key that is not yet present; so after
any sequential run of calls from an empty cache no key occurs twice, every
cached key was a closed period for the call that cached it, and under a clock
that never goes back every cached key is a closed period at the last call. -/
theorem C8_cached_keys_closed_and_unique (env : Env) (db : Db) (query : ReportQuery)
    (start : Db) (calls : List Call) (hempty : start.reports = []) :
    ((getReport env db query).2.reports = db.reports ∨
      ∃ userid year month, parseInt query.id = some userid ∧
        parseInt query.year = some year ∧ parseInt query.month = some month ∧
        isMonthInPast env.now year month = true ∧
        (userid, year, month) ∉ db.reports.map Report.key ∧
        ∃ costs, (getReport env db query).2.reports =
          db.reports ++ [⟨userid, year, month, costs⟩]) ∧
    ((runCalls start calls).reports.map Report.key).Nodup ∧
    (∀ r ∈ (runCalls start calls).reports,
      ∃ c ∈ calls, isMonthInPast c.env.now r.year r.month = true) ∧
    (calls.Pairwise (fun a b => Clock.monthLe a.env.now b.env.now) →
      ∀ (r : Report) (now : Clock), r ∈ (runCalls start calls).reports →
        isMonthInPast (lastClock now calls) r.year r.month = true) := by
  refine ⟨?_, ?_, ?_, ?_⟩
  · rcases getReport_reports env db query with h | ⟨u, y, m, hp, hpast, hmiss, -, h⟩
    · exact Or.inl h
    · right
      refine ⟨u, y, m, ?_, ?_, ?_, hpast, (reportFindOne_eq_none_iff db u y m).mp hmiss, _, h⟩
      all_goals
        unfold reportParams at hp
        cases hid : parseInt query.id <;> cases hy : parseInt query.year <;>
          cases hm : parseInt query.month <;> simp only [hid, hy, hm] at hp <;>
          try (simp at hp; done)
        split at hp
        · simp only [Option.some.injEq, Prod.mk.injEq] at hp
          simp [hp.1, hp.2.1, hp.2.2]
        · simp at hp
  · exact (runCalls_keys calls start (by rw [hempty]; simp)).1
  · intro r hr
    rcases (runCalls_keys calls start (by rw [hempty]; simp)).2 r hr with h | h
    · rw [hempty] at h; cases h
    · exact h
  · intro hclock r now hr
    cases calls with
    | nil => simp only [runCalls, List.foldl_nil, hempty, List.not_mem_nil] at hr
    | cons c cs => exact ((CacheInv.run_of_empty start c cs hempty hclock).1 r hr).1

/-- Witness of C8: the keys cached by the example run are distinct and closed
in December 2026. -/
theorem C8_cached_keys_closed_and_unique_witness :
    (runCalls freshDb exampleCalls).reports.map Report.key =
      [(123123, 2021, 3), (123123, 2026, 11)] ∧
    ((runCalls freshDb exampleCalls).reports.map Report.key).Nodup ∧
    ∀ r ∈ (runCalls freshDb exampleCalls).reports,
      isMonthInPast decemberEnv.now r.year r.month = true :=
  have h := C8_cached_keys_closed_and_unique exampleEnv exampleDb uncachedQuery freshDb
    exampleCalls rfl
  ⟨by decide, h.2.1, fun r hr => h.2.2.2 (by decide) r decemberEnv.now hr⟩

/-! ## POST /api/add in stages -/

/-- The handler of POST /api/add is its staged form. -/
theorem addCost_eq_staged (env : Env) (db : Db) (body : CostBody) :
    addCost env db body = addCostStaged env db body := by
  unfold addCost addCostStaged
  simp only [logger.info, logger.warn, logger.error]
  cases hd : body.description with
  | str description =>
    by_cases h1 : description.data.isEmpty = true
    · simp [requiredFields, hd, h1]
    cases hc : body.category with
    | str category =>
      by_cases h2 : category.data.isEmpty = true
      · simp [requiredFields, hd, hc, h1, h2]
      by_cases h3 : (!(VALID_CATEGORIES.contains (jsTrim (toLowerCase category)))) = true
      · simp only [requiredFields, hd, hc, h1, h2, h3, if_true, if_false, Bool.false_eq_true]
      by_cases h4 : body.userid.isNullish = true
      · simp only [requiredFields, hd, hc, h1, h2, h3, h4, if_true, if_false,
          Bool.false_eq_true]
      cases hu : parseInt body.userid with
      | none =>
        simp only [requiredFields, hd, hc, h1, h2, h3, h4, hu, if_false, Bool.false_eq_true]
      | some parsedUserid =>
        by_cases h5 : body.sum.isNullish = true
        · simp only [requiredFields, hd, hc, h1, h2, h3, h4, hu, h5, if_true, if_false,
            Bool.false_eq_true]
        cases hs : parseFloat body.sum with
        | none =>
          simp only [requiredFields, hd, hc, h1, h2, h3, h4, hu, h5, hs, if_false,
            Bool.false_eq_true]
        | some parsedSum =>
          simp only [requiredFields, hd, hc, h1, h2, h3, h4, hu, h5, hs, if_false,
            Bool.false_eq_true]
          by_cases h6 : env.userFindFails = true
          · simp only [h6, if_true]
          simp only [h6, if_false, Bool.false_eq_true]
          cases hf : User.findOne (saveLogToMongoDB env db "info"
              "Endpoint accessed: POST /api/add (cost)" SERVICE_NAME) parsedUserid with
          | none => rfl
          | some u =>
            simp only [dateFields, resolvedDay, resolvedMonth, resolvedYear]
            generalize (if body.day.isDefined = true then parseInt body.day
              else some env.now.date) = costDay
            cases costDay with
            | none => rfl
            | some costDay =>
              simp only
              by_cases h7 : costDay < 1 ∨ costDay > 31
              · simp only [h7, if_true]
              simp only [h7, if_false]
              generalize (if body.month.isDefined = true then parseInt body.month
                else some (env.now.month + 1)) = costMonth
              cases costMonth with
              | none => rfl
              | some costMonth =>
                simp only
                by_cases h8 : costMonth < 1 ∨ costMonth > 12
                · simp only [h8, if_true]
                simp only [h8, if_false]
                generalize (if body.year.isDefined = true then parseInt body.year
                  else some env.now.fullYear) = costYear
                cases costYear with
                | none => rfl
                | some costYear =>
                  simp only
                  by_cases h9 : costYear < 1900
                  · simp only [h9, if_true]
                  simp only [h9, if_false]
    | _ => simp [requiredFields, hd, hc, h1]
  | _ => simp [requiredFields, hd]

/-- A value that parses as a number is neither undefined nor null. -/
theorem isNullish_of_parseFloat {v : JsVal} {q : Rat} (h : parseFloat v = some q) :
    v.isNullish = false := by
  cases v <;> simp_all [parseFloat, JsVal.isNullish]

/-- The empty string does not normalise to a category. -/
theorem category_nonEmpty_of_valid {category : String}
    (h : VALID_CATEGORIES.contains (jsTrim (toLowerCase category)) = true) :
    category.data.isEmpty = false := by
  cases category with
  | mk data =>
    cases data with
    | nil => revert h; decide
    | cons c cs => rfl

/-- The required-field checks on valid fields. -/
theorem requiredFields_of_valid {body : CostBody} {description category : String}
    {userid : Int} {sum : Rat} (h : ValidCostFields body description category userid sum) :
    requiredFields body = .ok (description, jsTrim (toLowerCase category), userid, sum) := by
  obtain ⟨hd, h1, hc, h3, hu, hs⟩ := h
  have h2 := category_nonEmpty_of_valid h3
  have h4 := isNullish_of_parseInt hu
  have h5 := isNullish_of_parseFloat hs
  have h3m : jsTrim (toLowerCase category) ∈ VALID_CATEGORIES := by simpa using h3
  simp [requiredFields, hd, h1, hc, h2, h3m, h4, hu, h5, hs]

/-- The outcome of the required-field checks: a failure has status 400, a
success means valid fields. -/
theorem requiredFields_spec (body : CostBody) :
    match requiredFields body with
    | .error response => response.status = 400
    | .ok (description, normalized, userid, sum) =>
      ∃ category, ValidCostFields body description category userid sum ∧
        normalized = jsTrim (toLowerCase category) := by
  cases hd : body.description with
  | str description =>
    by_cases h1 : description.data.isEmpty = true
    · simp [requiredFields, hd, h1]
    cases hc : body.category with
    | str category =>
      by_cases h2 : category.data.isEmpty = true
      · simp [requiredFields, hd, hc, h1, h2]
      by_cases h3 : jsTrim (toLowerCase category) ∈ VALID_CATEGORIES
      swap
      · simp [requiredFields, hd, hc, h1, h2, h3]
      by_cases h4 : body.userid.isNullish = true
      · simp [requiredFields, hd, hc, h1, h2, h3, h4]
      cases hu : parseInt body.userid with
      | none => simp [requiredFields, hd, hc, h1, h2, h3, h4, hu]
      | some parsedUserid =>
        by_cases h5 : body.sum.isNullish = true
        · simp [requiredFields, hd, hc, h1, h2, h3, h4, hu, h5]
        cases hs : parseFloat body.sum with
        | none => simp [requiredFields, hd, hc, h1, h2, h3, h4, hu, h5, hs]
        | some parsedSum =>
          have hv : ValidCostFields body description category parsedUserid parsedSum :=
            ⟨hd, by simpa using h1, hc, by simpa using h3, hu, hs⟩
          rw [requiredFields_of_valid hv]
          exact ⟨category, hv, rfl⟩
    | _ => simp [requiredFields, hd, hc, h1]
  | _ => simp [requiredFields, hd]

/-- The date checks on valid date values. -/
theorem dateFields_of_valid {now : Clock} {body : CostBody} {day month year : Int}
    (h : ValidCostDate now body day month year) (userid : Int) :
    dateFields now body userid = .ok (day, month, year) := by
  obtain ⟨hd, h1, hm, h2, hy, h3⟩ := h
  have h1n : ¬ (day < 1 ∨ day > 31) := by omega
  have h2n : ¬ (month < 1 ∨ month > 12) := by omega
  have h3n : ¬ (year < 1900) := by omega
  simp [dateFields, hd, hm, hy, h1n, h2n, h3n]

/-- The outcome of the date checks: a failure has status 400, a success means
valid date values. -/
theorem dateFields_spec (now : Clock) (body : CostBody) (userid : Int) :
    match dateFields now body userid with
    | .error response => response.status = 400
    | .ok (day, month, year) => ValidCostDate now body day month year := by
  cases hd : resolvedDay now body with
  | none => simp [dateFields, hd]
  | some day =>
    by_cases h1 : day < 1 ∨ day > 31
    · simp [dateFields, hd, h1]
    cases hm : resolvedMonth now body with
    | none => simp [dateFields, hd, h1, hm]
    | some month =>
      by_cases h2 : month < 1 ∨ month > 12
      · simp [dateFields, hd, h1, hm, h2]
      cases hy : resolvedYear now body with
      | none => simp [dateFields, hd, h1, hm, h2, hy]
      | some year =>
        by_cases h3 : year < 1900
        · simp [dateFields, hd, h1, hm, h2, hy, h3]
        have hv : ValidCostDate now body day month year :=
          ⟨hd, by omega, hm, by omega, hy, by omega⟩
        rw [dateFields_of_valid hv userid]
        exact hv

/-- Trimming white space at both ends of a list of characters is idempotent. -/
theorem trimChars_idem {α : Type} (p : α → Bool) (l : List α) :
    List.rdropWhile p (List.dropWhile p (List.rdropWhile p (List.dropWhile p l))) =
      List.rdropWhile p (List.dropWhile p l) := by
  have hpre : List.rdropWhile p (List.dropWhile p l) <+: List.dropWhile p l :=
    List.rdropWhile_prefix p _
  have hdrop : List.dropWhile p (List.rdropWhile p (List.dropWhile p l)) =
      List.rdropWhile p (List.dropWhile p l) := by
    cases hr : List.rdropWhile p (List.dropWhile p l) with
    | nil => rfl
    | cons a t =>
      rw [hr] at hpre
      obtain ⟨rest, hrest⟩ := hpre
      have hhead := List.head?_dropWhile_not p l
      rw [← hrest] at hhead
      simp only [List.cons_append, List.head?_cons] at hhead
      rw [List.dropWhile_cons_of_neg (by simpa using hhead)]
  rw [hdrop, List.rdropWhile_idempotent]

/-- The method `trim` is idempotent. -/
theorem jsTrim_idem (s : String) : jsTrim (jsTrim s) = jsTrim s := by
  unfold jsTrim
  exact congrArg String.mk (trimChars_idem isJsWhiteSpace s.data)

/-- A category of the enumeration is its own lower-cased, trimmed form. -/
theorem normalize_of_mem {c : String} (h : c ∈ VALID_CATEGORIES) :
    jsTrim (toLowerCase c) = c := by
  simp only [VALID_CATEGORIES, List.mem_cons, List.mem_singleton, List.not_mem_nil,
    or_false] at h
  rcases h with rfl | rfl | rfl | rfl | rfl <;> decide

/-- Saving a cost whose fields passed the handler's checks, with a
description that is not blank, appends the cost to the ledger. -/
theorem costSave_of_valid (env : Env) (db : Db) (description category : String)
    (userid : Int) (sum : Rat) (day month year : Int)
    (hdesc : (jsTrim description).data.isEmpty = false)
    (hcat : VALID_CATEGORIES.contains (jsTrim (toLowerCase category)) = true)
    (hday : 1 ≤ day ∧ day ≤ 31) (hmonth : 1 ≤ month ∧ month ≤ 12) (hyear : 1900 ≤ year)
    (hs : env.costSaveFails = false) :
    Cost.save env db
        { description := jsTrim description, category := jsTrim (toLowerCase category),
          userid := userid, sum := sum, day := day, month := month, year := year } =
      .ok ({ description := jsTrim description, category := jsTrim (toLowerCase category),
             userid := userid, sum := sum, day := day, month := month, year := year },
           { db with costs := db.costs ++
              [{ description := jsTrim description, category := jsTrim (toLowerCase category),
                 userid := userid, sum := sum, day := day, month := month, year := year }] }) := by
  have hmem : jsTrim (toLowerCase category) ∈ VALID_CATEGORIES := by simpa using hcat
  have hnorm := normalize_of_mem hmem
  have hr : ¬ (day < 1 ∨ day > 31 ∨ month < 1 ∨ month > 12 ∨ year < 1900) := by omega
  unfold Cost.save
  simp only [jsTrim_idem, hnorm, hs, hdesc, hr, hcat, if_false, Bool.false_eq_true,
    Bool.not_true]

/-- Saving a cost with a blank description is rejected. -/
theorem costSave_of_blank (env : Env) (db : Db) (c : Cost)
    (hdesc : (jsTrim c.description).data.isEmpty = true) :
    ∃ message, Cost.save env db c = .error message := by
  unfold Cost.save
  by_cases hs : env.costSaveFails = true
  · exact ⟨env.faultMessage, by simp [hs]⟩
  · exact ⟨"Cost validation failed: description: Description is required",
      by simp [hs, hdesc]⟩

/-- An accepted submission is answered 201 with the new record, which is
appended to the ledger. -/
theorem addCost_of_accepted (env : Env) (db : Db) (body : CostBody)
    (description category : String) (userid : Int) (sum : Rat) (day month year : Int)
    (h : AcceptedCost env.now db body description category userid sum day month year)
    (hu : env.userFindFails = false) (hs : env.costSaveFails = false) :
    (addCost env db body).1 =
      ⟨201, .cost (newCostOf description category userid sum day month year)⟩ ∧
    (addCost env db body).2.costs =
      db.costs ++ [newCostOf description category userid sum day month year] := by
  obtain ⟨hf, huser, hd, hopen, hblank⟩ := h
  obtain ⟨u, hfind⟩ := Option.isSome_iff_exists.mp huser
  have hsave := costSave_of_valid env
    (logger.info env db "Endpoint accessed: POST /api/add (cost)")
    description category userid sum day month year hblank hf.categoryValid
    hd.dayRange hd.monthRange hd.yearRange hs
  rw [addCost_eq_staged]
  unfold addCostStaged
  simp only [requiredFields_of_valid hf, dateFields_of_valid hd, hu, hopen,
    logger.info, userFindOne_saveLog, hfind, if_false, Bool.false_eq_true]
  simp only [logger.info] at hsave
  rw [hsave]
  simp [newCostOf]

/-- Every call of POST /api/add either leaves the ledger as it was and is not
answered 201, or it is an accepted submission, answered 201 with the new
record, which is appended to the ledger. -/
theorem addCost_outcome (env : Env) (db : Db) (body : CostBody) :
    ((addCost env db body).1.status ≠ 201 ∧ (addCost env db body).2.costs = db.costs) ∨
    ∃ description category userid sum day month year,
      AcceptedCost env.now db body description category userid sum day month year ∧
      env.userFindFails = false ∧ env.costSaveFails = false ∧
      (addCost env db body).1 =
        ⟨201, .cost (newCostOf description category userid sum day month year)⟩ ∧
      (addCost env db body).2.costs =
        db.costs ++ [newCostOf description category userid sum day month year] := by
  have hreq := requiredFields_spec body
  cases hrf : requiredFields body with
  | error response =>
    rw [hrf] at hreq
    left
    rw [addCost_eq_staged]
    unfold addCostStaged
    simp only [hrf, logger.info, saveLogToMongoDB_costs]
    exact ⟨by rw [hreq]; decide, trivial⟩
  | ok fields =>
    obtain ⟨description, normalized, userid, sum⟩ := fields
    rw [hrf] at hreq
    obtain ⟨category, hf, rfl⟩ := hreq
    by_cases hu : env.userFindFails = true
    · left
      rw [addCost_eq_staged]
      unfold addCostStaged
      simp [hrf, hu, logger.info, logger.error]
    cases hfind : User.findOne db userid with
    | none =>
      left
      rw [addCost_eq_staged]
      unfold addCostStaged
      simp [hrf, hu, hfind, logger.info, logger.warn]
    | some u =>
      have hdate := dateFields_spec env.now body userid
      cases hdf : dateFields env.now body userid with
      | error response =>
        rw [hdf] at hdate
        left
        rw [addCost_eq_staged]
        unfold addCostStaged
        simp only [hrf, hu, hfind, hdf, logger.info, userFindOne_saveLog,
          saveLogToMongoDB_costs, if_false, Bool.false_eq_true]
        exact ⟨by rw [hdate]; decide, trivial⟩
      | ok date =>
        obtain ⟨day, month, year⟩ := date
        rw [hdf] at hdate
        by_cases hpast : isMonthInPast env.now year month = true
        · left
          rw [addCost_eq_staged]
          unfold addCostStaged
          simp [hrf, hu, hfind, hdf, hpast, logger.info, logger.warn]
        by_cases hs : env.costSaveFails = true
        · left
          rw [addCost_eq_staged]
          unfold addCostStaged
          simp [hrf, hu, hfind, hdf, hpast, hs, Cost.save, logger.info, logger.error]
        by_cases hblank : (jsTrim description).data.isEmpty = true
        · left
          obtain ⟨message, hsave⟩ := costSave_of_blank env
            (logger.info env db "Endpoint accessed: POST /api/add (cost)")
            { description := jsTrim description, category := jsTrim (toLowerCase category),
              userid := userid, sum := sum, day := day, month := month, year := year }
            (by rw [jsTrim_idem]; exact hblank)
          rw [addCost_eq_staged]
          unfold addCostStaged
          simp only [hrf, hu, hfind, hdf, hpast, userFindOne_saveLog, if_false,
            Bool.false_eq_true]
          rw [hsave]
          simp [logger.info, logger.error, hfind]
        · right
          have hacc : AcceptedCost env.now db body description category userid sum
              day month year :=
            ⟨hf, by rw [hfind]; rfl, hdate, by simpa using hpast, by simpa using hblank⟩
          have hu2 : env.userFindFails = false := by simpa using hu
          have hs2 : env.costSaveFails = false := by simpa using hs
          exact ⟨description, category, userid, sum, day, month, year, hacc, hu2, hs2,
            addCost_of_accepted env db body description category userid sum day month year
              hacc hu2 hs2⟩

/-! ## Grouping -/

/-- C11: for every ledger and every category of the enumeration, the bucket
of the category in generateReport's result is the list of the records of that
category among those the ledger query returned, in the order of the query,
each projected to its sum, description and day; it is a sub-list of the
projected query result; a name outside the enumeration has no bucket. -/
theorem C11_generateReport_grouping (db : Db) (userid year month : Int) (category : String)
    (hcat : category ∈ VALID_CATEGORIES) :
    (generateReport db userid year month).bucket category =
      some (((Cost.find db userid year month).filter
        (fun cost => decide (cost.category = category))).map CostItem.ofCost) ∧
    (∀ items, (generateReport db userid year month).bucket category = some items →
      List.Sublist items ((Cost.find db userid year month).map CostItem.ofCost)) ∧
    (∀ other, other ∉ VALID_CATEGORIES →
      (generateReport db userid year month).bucket other = none) := by
  have hbucket : (generateReport db userid year month).bucket category =
      some (((Cost.find db userid year month).filter
        (fun cost => decide (cost.category = category))).map CostItem.ofCost) := by
    simp only [VALID_CATEGORIES, List.mem_cons, List.mem_singleton, List.not_mem_nil,
      or_false] at hcat
    rcases hcat with rfl | rfl | rfl | rfl | rfl <;>
      simp [Report.bucket, generateReport_costs, VALID_CATEGORIES, CostItem.ofCost,
        List.findSome?_cons, List.find?_cons] <;> rfl
  refine ⟨hbucket, ?_, ?_⟩
  · intro items hitems
    rw [hbucket] at hitems
    simp only [Option.some.injEq] at hitems
    rw [← hitems]
    exact (List.filter_sublist _).map _
  · intro other hother
    simp only [VALID_CATEGORIES, List.mem_cons, List.mem_singleton, List.not_mem_nil,
      or_false, not_or] at hother
    obtain ⟨h1, h2, h3, h4, h5⟩ := hother
    simp [Report.bucket, generateReport_costs, VALID_CATEGORIES, List.findSome?_cons,
      List.find?_cons, Ne.symm h1, Ne.symm h2, Ne.symm h3, Ne.symm h4, Ne.symm h5]

/-- Witness of C11 (the test "should return costs grouped by category"): a
food record 'Pizza' and a sports record 'Gym membership' give one-item food
and sports buckets with these descriptions. -/
theorem C11_generateReport_grouping_witness :
    (generateReport groupingDb 123123 2026 11).bucket "food" =
      some [{ sum := 30, description := "Pizza", day := 6 }] ∧
    (generateReport groupingDb 123123 2026 11).bucket "sports" =
      some [{ sum := 50, description := "Gym membership", day := 6 }] :=
  ⟨(C11_generateReport_grouping groupingDb 123123 2026 11 "food" (by decide)).1.trans
      (by decide),
   (C11_generateReport_grouping groupingDb 123123 2026 11 "sports" (by decide)).1.trans
      (by decide)⟩

/-! ## POST /api/add: past dates -/

/-- The response of POST /api/add to a submission with valid required fields
for an existing user whose date values are valid but in the past. -/
theorem addCost_of_past (env : Env) (db : Db) (body : CostBody)
    (description category : String) (userid : Int) (sum : Rat) (day month year : Int)
    (hf : ValidCostFields body description category userid sum)
    (huser : (User.findOne db userid).isSome = true)
    (hd : ValidCostDate env.now body day month year)
    (hpast : isMonthInPast env.now year month = true)
    (hu : env.userFindFails = false) :
    (addCost env db body).1 =
      ⟨400, .error (.ofInt userid) "Cannot add costs with dates in the past"⟩ := by
  obtain ⟨u, hfind⟩ := Option.isSome_iff_exists.mp huser
  rw [addCost_eq_staged]
  unfold addCostStaged
  simp [requiredFields_of_valid hf, dateFields_of_valid hd, hu, hpast, logger.info, hfind]

/-- The status of POST /api/add for valid required fields and an existing
user when the date checks fail. -/
theorem addCost_of_bad_date (env : Env) (db : Db) (body : CostBody)
    (description category : String) (userid : Int) (sum : Rat) (response : Response)
    (hf : ValidCostFields body description category userid sum)
    (huser : (User.findOne db userid).isSome = true)
    (hd : dateFields env.now body userid = .error response)
    (hu : env.userFindFails = false) :
    (addCost env db body).1 = response ∧ (addCost env db body).2.costs = db.costs := by
  obtain ⟨u, hfind⟩ := Option.isSome_iff_exists.mp huser
  rw [addCost_eq_staged]
  unfold addCostStaged
  simp [requiredFields_of_valid hf, hd, hu, logger.info, hfind]

/-- C12: a submission to POST /api/add whose resolved (year, month), each the
parsed field or the component of the current date when the field is omitted,
is strictly before the current month never adds to the ledger and is never
answered 201; when its required fields pass their checks and its user exists
(the store answering the lookup) it is answered 400, and with valid date
values the 400 is 'Cannot add costs with dates in the past'. -/
theorem C12_no_past_write (env : Env) (db : Db) (body : CostBody) (year month : Int)
    (hyear : resolvedYear env.now body = some year)
    (hmonth : resolvedMonth env.now body = some month)
    (hpast : isMonthInPast env.now year month = true) :
    (addCost env db body).2.costs = db.costs ∧
    (addCost env db body).1.status ≠ 201 ∧
    (∀ description category userid sum,
      ValidCostFields body description category userid sum →
      (User.findOne db userid).isSome = true → env.userFindFails = false →
      (addCost env db body).1.status = 400 ∧
      (∀ day, resolvedDay env.now body = some day → 1 ≤ day ∧ day ≤ 31 →
        1 ≤ month ∧ month ≤ 12 → 1900 ≤ year →
        (addCost env db body).1 =
          ⟨400, .error (.ofInt userid) "Cannot add costs with dates in the past"⟩)) := by
  have hleft : (addCost env db body).1.status ≠ 201 ∧
      (addCost env db body).2.costs = db.costs := by
    rcases addCost_outcome env db body with h | ⟨d, c, u, s, dd, mm, yy, hacc, -⟩
    · exact h
    · have hy := hacc.date.yearIs
      have hm := hacc.date.monthIs
      rw [hyear] at hy
      rw [hmonth] at hm
      simp only [Option.some.injEq] at hy hm
      have hopen := hacc.notPast
      rw [← hy, ← hm, hpast] at hopen
      cases hopen
  refine ⟨hleft.2, hleft.1, ?_⟩
  intro description category userid sum hf huser hu
  constructor
  · have hspec := dateFields_spec env.now body userid
    cases hdf : dateFields env.now body userid with
    | error response =>
      rw [hdf] at hspec
      rw [(addCost_of_bad_date env db body description category userid sum response hf huser
        hdf hu).1]
      exact hspec
    | ok date =>
      obtain ⟨dd, mm, yy⟩ := date
      rw [hdf] at hspec
      have hy := hspec.yearIs
      have hm := hspec.monthIs
      rw [hyear] at hy
      rw [hmonth] at hm
      simp only [Option.some.injEq] at hy hm
      subst hy hm
      rw [addCost_of_past env db body description category userid sum dd month year hf huser
        hspec hpast hu]
  · intro day hday hdr hmr hyr
    exact addCost_of_past env db body description category userid sum day month year hf huser
      ⟨hday, hdr, hmonth, hmr, hyear, hyr⟩ hpast hu

/-- Witness of C12: in November 2026 the submission dated 1 January 2020 and
the submission that gives only the month January are both answered 400 and
leave the ledger as it was. -/
theorem C12_no_past_write_witness :
    ((addCost exampleEnv exampleDb pastBody).1.status = 400 ∧
      (addCost exampleEnv exampleDb pastBody).2.costs = exampleDb.costs) ∧
    ((addCost exampleEnv exampleDb januaryBody).1.status = 400 ∧
      (addCost exampleEnv exampleDb januaryBody).2.costs = exampleDb.costs) :=
  have h1 := C12_no_past_write exampleEnv exampleDb pastBody 2020 1
    (by decide) (by decide) (by decide)
  have h2 := C12_no_past_write exampleEnv exampleDb januaryBody 2026 1
    (by decide) (by decide) (by decide)
  ⟨⟨(h1.2.2 "Past cost" "food" 123123 10
      ⟨rfl, by decide, rfl, by decide, by decide, rfl⟩ (by decide) rfl).1, h1.1⟩,
   ⟨(h2.2.2 "Past cost" "food" 123123 10
      ⟨rfl, by decide, rfl, by decide, by decide, rfl⟩ (by decide) rfl).1, h2.1⟩⟩

/-! ## POST /api/add: category, date defaulting, required fields, unknown user -/

/-- A description that is not blank is not empty. -/
theorem nonEmpty_of_not_blank {description : String}
    (h : (jsTrim description).data.isEmpty = false) : description.data.isEmpty = false := by
  cases description with
  | mk data =>
    cases data with
    | nil => revert h; decide
    | cons c cs => rfl

/-- The response of POST /api/add to a category outside the enumeration. -/
theorem addCost_of_invalid_category (env : Env) (db : Db) (body : CostBody)
    (description category : String)
    (hdesc : body.description = .str description)
    (hne : description.data.isEmpty = false)
    (hcat : body.category = .str category)
    (hcne : category.data.isEmpty = false)
    (hinvalid : jsTrim (toLowerCase category) ∉ VALID_CATEGORIES) :
    (addCost env db body).1 =
      ⟨400, .error .null "Category must be one of: food, health, housing, sports, education"⟩ ∧
    (addCost env db body).2.costs = db.costs := by
  rw [addCost_eq_staged]
  unfold addCostStaged
  simp [requiredFields, hdesc, hne, hcat, hcne, hinvalid, logger.info]

/-- C13: for a submission that is valid apart from its category (description
a string that is not blank, category a non-empty string, userid and sum that
parse, an existing user, valid date values not in the past, the store
answering), POST /api/add answers 201 if and only if the lower-cased, trimmed
category is one of food, health, housing, sports, education; then the stored
and returned category is that lower-cased, trimmed form; otherwise the answer
is 400 'Category must be one of: ...' and the ledger is unchanged. -/
theorem C13_category_normalisation (env : Env) (db : Db) (body : CostBody)
    (description category : String) (userid : Int) (sum : Rat) (day month year : Int)
    (hdesc : body.description = .str description)
    (hblank : (jsTrim description).data.isEmpty = false)
    (hcat : body.category = .str category)
    (hcne : category.data.isEmpty = false)
    (huserid : parseInt body.userid = some userid)
    (hsum : parseFloat body.sum = some sum)
    (huser : (User.findOne db userid).isSome = true)
    (hdate : ValidCostDate env.now body day month year)
    (hopen : isMonthInPast env.now year month = false)
    (hu : env.userFindFails = false) (hs : env.costSaveFails = false) :
    ((addCost env db body).1.status = 201 ↔
      jsTrim (toLowerCase category) ∈ VALID_CATEGORIES) ∧
    (jsTrim (toLowerCase category) ∈ VALID_CATEGORIES →
      (addCost env db body).1 =
        ⟨201, .cost (newCostOf description category userid sum day month year)⟩ ∧
      (addCost env db body).2.costs =
        db.costs ++ [newCostOf description category userid sum day month year] ∧
      (newCostOf description category userid sum day month year).category =
        jsTrim (toLowerCase category)) ∧
    (jsTrim (toLowerCase category) ∉ VALID_CATEGORIES →
      (addCost env db body).1 =
        ⟨400, .error .null
          "Category must be one of: food, health, housing, sports, education"⟩ ∧
      (addCost env db body).2.costs = db.costs) := by
  have hne := nonEmpty_of_not_blank hblank
  have hvalid : jsTrim (toLowerCase category) ∈ VALID_CATEGORIES →
      (addCost env db body).1 =
        ⟨201, .cost (newCostOf description category userid sum day month year)⟩ ∧
      (addCost env db body).2.costs =
        db.costs ++ [newCostOf description category userid sum day month year] := by
    intro hmem
    exact addCost_of_accepted env db body description category userid sum day month year
      ⟨⟨hdesc, hne, hcat, by simpa using hmem, huserid, hsum⟩, huser, hdate, hopen, hblank⟩
      hu hs
  have hinvalid := addCost_of_invalid_category env db body description category hdesc hne
    hcat hcne
  refine ⟨?_, ?_, hinvalid⟩
  · constructor
    · intro h201
      by_contra hnot
      rw [(hinvalid hnot).1] at h201
      revert h201
      decide
    · intro hmem
      rw [(hvalid hmem).1]
  · intro hmem
    exact ⟨(hvalid hmem).1, (hvalid hmem).2, rfl⟩

/-- Witness of C13: the category "Food" is stored and returned as "food", and
"invalid_category" is answered 400. -/
theorem C13_category_normalisation_witness :
    ((addCost exampleEnv exampleDb lunchBody).1.status = 201 ∧
      (newCostOf "Lunch" "Food" 123123 25 6 11 2026).category = "food") ∧
    (addCost exampleEnv exampleDb invalidCategoryBody).1 =
      ⟨400, .error .null
        "Category must be one of: food, health, housing, sports, education"⟩ :=
  ⟨⟨(C13_category_normalisation exampleEnv exampleDb lunchBody "Lunch" "Food" 123123 25
        6 11 2026 rfl (by decide) rfl (by decide) (by decide) rfl (by decide)
        ⟨by decide, by decide, by decide, by decide, by decide, by decide⟩ (by decide)
        rfl rfl).1.mpr (by decide), by decide⟩,
   ((C13_category_normalisation exampleEnv exampleDb invalidCategoryBody
        "Invalid category test" "invalid_category" 123123 10
        6 11 2026 rfl (by decide) rfl (by decide) (by decide) rfl (by decide)
        ⟨by decide, by decide, by decide, by decide, by decide, by decide⟩ (by decide)
        rfl rfl).2.2 (by decide)).1⟩

/-- The call `parseInt` keeps an integer. -/
theorem parseInt_ofInt (n : Int) : parseInt (JsVal.ofInt n) = some n := by
  simp [parseInt, JsVal.ofInt]

/-- C14: for a submission that POST /api/add accepts (valid fields, existing
user, valid date values not in the past, the store answering) the answer is
201 with a record that is also the one appended to the ledger, and its day,
month and year are the resolved values: for each of the three, the component
of the current date when the field is omitted and the parsed field when it is
supplied (an integer is kept as it is); with all three omitted the record is
dated today. -/
theorem C14_date_defaulting (env : Env) (db : Db) (body : CostBody)
    (description category : String) (userid : Int) (sum : Rat) (day month year : Int)
    (hacc : AcceptedCost env.now db body description category userid sum day month year)
    (hu : env.userFindFails = false) (hs : env.costSaveFails = false) :
    ∃ record : Cost,
      (addCost env db body).1 = ⟨201, .cost record⟩ ∧
      (addCost env db body).2.costs = db.costs ++ [record] ∧
      (record.day = day ∧ record.month = month ∧ record.year = year) ∧
      (body.day = .undefined → record.day = env.now.date) ∧
      (body.month = .undefined → record.month = env.now.month + 1) ∧
      (body.year = .undefined → record.year = env.now.fullYear) ∧
      (body.day ≠ .undefined → parseInt body.day = some record.day) ∧
      (body.month ≠ .undefined → parseInt body.month = some record.month) ∧
      (body.year ≠ .undefined → parseInt body.year = some record.year) ∧
      (∀ n : Int, body.day = .ofInt n → record.day = n) ∧
      (∀ n : Int, body.month = .ofInt n → record.month = n) ∧
      (∀ n : Int, body.year = .ofInt n → record.year = n) := by
  obtain ⟨h1, h2⟩ := addCost_of_accepted env db body description category userid sum
    day month year hacc hu hs
  have hd := hacc.date.dayIs
  have hm := hacc.date.monthIs
  have hy := hacc.date.yearIs
  unfold resolvedDay at hd
  unfold resolvedMonth at hm
  unfold resolvedYear at hy
  refine ⟨newCostOf description category userid sum day month year, h1, h2, ⟨rfl, rfl, rfl⟩,
    ?_, ?_, ?_, ?_, ?_, ?_, ?_, ?_, ?_⟩
  · intro h
    rw [h] at hd
    simpa [JsVal.isDefined, newCostOf] using hd.symm
  · intro h
    rw [h] at hm
    simpa [JsVal.isDefined, newCostOf] using hm.symm
  · intro h
    rw [h] at hy
    simpa [JsVal.isDefined, newCostOf] using hy.symm
  · intro h
    have : body.day.isDefined = true := by
      cases hb : body.day <;> simp_all [JsVal.isDefined]
    simpa [this, newCostOf] using hd
  · intro h
    have : body.month.isDefined = true := by
      cases hb : body.month <;> simp_all [JsVal.isDefined]
    simpa [this, newCostOf] using hm
  · intro h
    have : body.year.isDefined = true := by
      cases hb : body.year <;> simp_all [JsVal.isDefined]
    simpa [this, newCostOf] using hy
  · intro n h
    rw [h] at hd
    simpa [JsVal.isDefined, JsVal.ofInt, parseInt, newCostOf] using hd.symm
  · intro n h
    rw [h] at hm
    simpa [JsVal.isDefined, JsVal.ofInt, parseInt, newCostOf] using hm.symm
  · intro n h
    rw [h] at hy
    simpa [JsVal.isDefined, JsVal.ofInt, parseInt, newCostOf] using hy.symm

/-- Witness of C14 (the test "should use current date if not provided"): a
submission without date fields on 6 November 2026 is stored with that date. -/
theorem C14_date_defaulting_witness :
    ∃ record : Cost,
      (addCost exampleEnv exampleDb lunchBody).1 = ⟨201, .cost record⟩ ∧
      (addCost exampleEnv exampleDb lunchBody).2.costs = exampleDb.costs ++ [record] ∧
      record.day = 6 ∧ record.month = 11 ∧ record.year = 2026 :=
  have ⟨record, h1, h2, h3, _⟩ := C14_date_defaulting exampleEnv exampleDb lunchBody
    "Lunch" "Food" 123123 25 6 11 2026
    ⟨⟨rfl, by decide, rfl, by decide, by decide, rfl⟩, by decide,
      ⟨by decide, by decide, by decide, by decide, by decide, by decide⟩, by decide,
      by decide⟩ rfl rfl
  ⟨record, h1, h2, h3.1, h3.2.1, h3.2.2⟩

/-- The response of POST /api/add when the required-field checks fail. -/
theorem addCost_of_required_error (env : Env) (db : Db) (body : CostBody) (response : Response)
    (h : requiredFields body = .error response) :
    (addCost env db body).1 = response ∧
    (addCost env db body).2 = logger.info env db "Endpoint accessed: POST /api/add (cost)" := by
  rw [addCost_eq_staged]
  unfold addCostStaged
  simp [h]

/-- C15: POST /api/add answers 400 and leaves the ledger (and the users and
the report cache) unchanged whenever the description is missing, not a string
or empty, the category is missing, not a string or empty, the userid is
missing or does not parse as a number, or the sum is missing or does not parse
as a number. -/
theorem C15_required_fields (env : Env) (db : Db) (body : CostBody)
    (hbad : (∀ description, body.description = .str description →
              description.data.isEmpty = true) ∨
            (∀ category, body.category = .str category → category.data.isEmpty = true) ∨
            parseInt body.userid = none ∨
            parseFloat body.sum = none) :
    (addCost env db body).1.status = 400 ∧
    (addCost env db body).2.costs = db.costs ∧
    (addCost env db body).2.users = db.users ∧
    (addCost env db body).2.reports = db.reports := by
  have hspec := requiredFields_spec body
  cases hrf : requiredFields body with
  | error response =>
    rw [hrf] at hspec
    obtain ⟨h1, h2⟩ := addCost_of_required_error env db body response hrf
    rw [h1, h2]
    simp [logger.info, hspec]
  | ok fields =>
    obtain ⟨description, normalized, userid, sum⟩ := fields
    rw [hrf] at hspec
    obtain ⟨category, hf, -⟩ := hspec
    exfalso
    rcases hbad with h | h | h | h
    · have := h description hf.descriptionIs
      rw [hf.descriptionNonEmpty] at this
      cases this
    · have := h category hf.categoryIs
      rw [category_nonEmpty_of_valid hf.categoryValid] at this
      cases this
    · rw [hf.useridParses] at h
      cases h
    · rw [hf.sumParses] at h
      cases h

/-- Witness of C15 (the test "should return 400 when sum is missing"). -/
theorem C15_required_fields_witness :
    (addCost exampleEnv exampleDb noSumBody).1.status = 400 ∧
    (addCost exampleEnv exampleDb noSumBody).2.costs = exampleDb.costs :=
  have h := C15_required_fields exampleEnv exampleDb noSumBody
    (Or.inr (Or.inr (Or.inr rfl)))
  ⟨h.1, h.2.1⟩

/-- C16: for a submission to POST /api/add with a valid description, category
and sum whose userid parses to a number that is the id of no user (the store
answering the lookup), the answer is 404 'User not found. Cannot add cost for
non-existent user.' and the ledger, the users and the report cache are
unchanged, whatever the date fields are. -/
theorem C16_unknown_user (env : Env) (db : Db) (body : CostBody)
    (description category : String) (userid : Int) (sum : Rat)
    (hf : ValidCostFields body description category userid sum)
    (huser : User.findOne db userid = none)
    (hu : env.userFindFails = false) :
    (addCost env db body).1 =
      ⟨404, .error (.ofInt userid) "User not found. Cannot add cost for non-existent user."⟩ ∧
    (addCost env db body).2.costs = db.costs ∧
    (addCost env db body).2.users = db.users ∧
    (addCost env db body).2.reports = db.reports := by
  rw [addCost_eq_staged]
  unfold addCostStaged
  simp [requiredFields_of_valid hf, hu, huser, logger.info, logger.warn]

/-- Witness of C16 (the test "should return 404 for non-existent user"). -/
theorem C16_unknown_user_witness :
    (addCost exampleEnv exampleDb strangerBody).1 =
      ⟨404, .error (.ofInt 999999) "User not found. Cannot add cost for non-existent user."⟩ ∧
    (addCost exampleEnv exampleDb strangerBody).2.costs = exampleDb.costs :=
  have h := C16_unknown_user exampleEnv exampleDb strangerBody "Test" "food" 999999 10
    ⟨rfl, by decide, rfl, by decide, by decide, rfl⟩ (by decide) rfl
  ⟨h.1, h.2.1⟩

/-! ## GET /api/report: unknown user and parameter validation -/

/-- The parameters pass validation when they parse and are in range. -/
theorem reportParams_of_parsed {query : ReportQuery} {userid year month : Int}
    (hid : parseInt query.id = some userid) (hy : parseInt query.year = some year)
    (hm : parseInt query.month = some month) (hyr : 1900 ≤ year)
    (hmr : 1 ≤ month ∧ month ≤ 12) :
    reportParams query = some (userid, year, month) := by
  simp [reportParams, hid, hy, hm, hyr, hmr]

/-- C17: for a request to GET /api/report whose year and month are in range
and whose id parses to a number that is the id of no user (the store answering
the lookup), the answer is 404 'User not found'; the ledger, the report cache
and the users are unchanged, and the response is the same whatever the ledger
and the cache hold and also when a ledger scan, a cache lookup or a cache
insert would throw (neither is queried). -/
theorem C17_report_unknown_user (env : Env) (db : Db) (query : ReportQuery)
    (userid year month : Int)
    (hid : parseInt query.id = some userid) (hy : parseInt query.year = some year)
    (hm : parseInt query.month = some month) (hyr : 1900 ≤ year)
    (hmr : 1 ≤ month ∧ month ≤ 12)
    (huser : User.findOne db userid = none)
    (hu : env.userFindFails = false) :
    (getReport env db query).1 = ⟨404, .error (.ofInt userid) "User not found"⟩ ∧
    (getReport env db query).2.costs = db.costs ∧
    (getReport env db query).2.reports = db.reports ∧
    (getReport env db query).2.users = db.users ∧
    (∀ (ledger : List Cost) (cache : List Report) (scanFails lookupFails insertFails : Bool),
      (getReport { env with costFindFails := scanFails, reportFindFails := lookupFails,
                            reportSaveFails := insertFails }
        { db with costs := ledger, reports := cache } query).1 =
        (getReport env db query).1) := by
  have hp := reportParams_of_parsed hid hy hm hyr hmr
  have hresp : ∀ (env2 : Env) (db2 : Db), env2.userFindFails = false →
      User.findOne db2 userid = none →
      getReport env2 db2 query =
        (⟨404, .error (.ofInt userid) "User not found"⟩,
          logger.warn env2 (logger.info env2 db2 "Endpoint accessed: GET /api/report")
            "User not found when getting report") := by
    intro env2 db2 hu2 huser2
    rw [getReport_of_params env2 db2 query userid year month hp]
    unfold resolveReport
    simp [hu2, huser2, logger.info]
  rw [hresp env db hu huser]
  refine ⟨rfl, by simp [logger.info, logger.warn], by simp [logger.info, logger.warn],
    by simp [logger.info, logger.warn], ?_⟩
  intro ledger cache scanFails lookupFails insertFails
  rw [hresp { env with costFindFails := scanFails, reportFindFails := lookupFails,
                       reportSaveFails := insertFails }
    { db with costs := ledger, reports := cache } hu
    (by simpa [User.findOne] using huser)]

/-- Witness of C17 (the test "should return 404 for non-existent user"). -/
theorem C17_report_unknown_user_witness :
    (getReport exampleEnv exampleDb strangerQuery).1 =
      ⟨404, .error (.ofInt 999999) "User not found"⟩ ∧
    (getReport exampleEnv exampleDb strangerQuery).2.reports = exampleDb.reports :=
  have h := C17_report_unknown_user exampleEnv exampleDb strangerQuery 999999 2025 1
    (by decide) (by decide) (by decide) (by decide) (by decide) (by decide) rfl
  ⟨h.1, h.2.2.1⟩

/-- The response to a valid request for an open period. -/
theorem getReport_open_resp (env : Env) (db : Db) (query : ReportQuery)
    (userid year month : Int)
    (hvalid : ValidReportRequest db query userid year month)
    (hopen : isMonthInPast env.now year month = false)
    (hu : env.userFindFails = false) (hc : env.costFindFails = false) :
    (getReport env db query).1 = ⟨200, .report (generateReport db userid year month)⟩ := by
  rw [getReport_of_params env db query userid year month hvalid.params,
    resolveReport_open env _ query.id userid year month
      (by simpa [logger.info] using hvalid.user) hopen hu hc]
  simp [logger.info]

/-- A missing parameter does not parse. -/
theorem parseInt_of_isNullish {v : JsVal} (h : v.isNullish = true) : parseInt v = none := by
  cases v <;> simp_all [parseInt, JsVal.isNullish]

/-- C18: GET /api/report answers 400 whenever id, year or month is missing or
does not parse as a number, the year is below 1900 or the month is outside
1..12; in each of these cases the users, the ledger and the report cache are
unchanged and the response is the same for every database and environment (no
store is read; the only write is the access entry of the audit log); for an
existing user with year ≥ 1900 and 1 ≤ month ≤ 12, the store answering, the
answer is 200. -/
theorem C18_report_validation (env : Env) (db : Db) (query : ReportQuery) :
    ((query.id.isNullish = true ∨ query.year.isNullish = true ∨ query.month.isNullish = true ∨
      parseInt query.id = none ∨ parseInt query.year = none ∨ parseInt query.month = none ∨
      (∃ year, parseInt query.year = some year ∧ year < 1900) ∨
      (∃ month, parseInt query.month = some month ∧ (month < 1 ∨ 12 < month))) →
      (getReport env db query).1.status = 400 ∧
      (getReport env db query).2.users = db.users ∧
      (getReport env db query).2.costs = db.costs ∧
      (getReport env db query).2.reports = db.reports ∧
      (∀ (env2 : Env) (db2 : Db),
        (getReport env2 db2 query).1 = (getReport env db query).1)) ∧
    (∀ userid year month, ValidReportRequest db query userid year month →
      env.userFindFails = false → env.reportFindFails = false →
      env.costFindFails = false →
      (getReport env db query).1.status = 200) := by
  constructor
  · intro hbad
    have hnone : reportParams query = none := by
      have hbad2 : parseInt query.id = none ∨ parseInt query.year = none ∨
          parseInt query.month = none ∨
          (∃ year, parseInt query.year = some year ∧ year < 1900) ∨
          (∃ month, parseInt query.month = some month ∧ (month < 1 ∨ 12 < month)) := by
        rcases hbad with h | h | h | h | h | h | h | h
        · exact Or.inl (parseInt_of_isNullish h)
        · exact Or.inr (Or.inl (parseInt_of_isNullish h))
        · exact Or.inr (Or.inr (Or.inl (parseInt_of_isNullish h)))
        · exact Or.inl h
        · exact Or.inr (Or.inl h)
        · exact Or.inr (Or.inr (Or.inl h))
        · exact Or.inr (Or.inr (Or.inr (Or.inl h)))
        · exact Or.inr (Or.inr (Or.inr (Or.inr h)))
      unfold reportParams
      rcases hbad2 with h | h | h | ⟨y, h, hy⟩ | ⟨m, h, hm⟩
      · simp [h]
      · cases hid : parseInt query.id <;> simp [h]
      · cases hid : parseInt query.id <;> cases hyr : parseInt query.year <;> simp [h]
      · cases hid : parseInt query.id <;> cases hmo : parseInt query.month <;> simp [h]
        omega
      · cases hid : parseInt query.id <;> cases hyr : parseInt query.year <;> simp [h]
        omega
    obtain ⟨hstatus, hdb⟩ := getReport_of_no_params env db query hnone
    refine ⟨hstatus, ?_, ?_, ?_, ?_⟩
    · rw [hdb]; simp [logger.info]
    · rw [hdb]; simp [logger.info]
    · rw [hdb]; simp [logger.info]
    · intro env2 db2
      exact getReport_of_no_params_resp env env2 db db2 query hnone
  · intro userid year month hvalid hu hr hc
    cases hpast : isMonthInPast env.now year month with
    | false => rw [getReport_open_resp env db query userid year month hvalid hpast hu hc]
    | true =>
      cases hfind : Report.findOne db userid year month with
      | none =>
        rw [getReport_miss_resp env db query userid year month hvalid hpast hfind hu hr hc]
      | some cached =>
        rw [(getReport_hit env db query userid year month cached hvalid hpast hfind hu hr).1]

/-- Witness of C18 (the tests "should return 400 for invalid month" and
"should return 400 when id is missing"): month 13 and a missing id are
answered 400, and the request for the current month of the test user is
answered 200. -/
theorem C18_report_validation_witness :
    (getReport exampleEnv exampleDb monthThirteenQuery).1.status = 400 ∧
    (getReport exampleEnv exampleDb noIdQuery).1.status = 400 ∧
    (getReport exampleEnv exampleDb currentQuery).1.status = 200 :=
  ⟨((C18_report_validation exampleEnv exampleDb monthThirteenQuery).1
      (Or.inr (Or.inr (Or.inr (Or.inr (Or.inr (Or.inr (Or.inr
        ⟨13, by decide, by decide⟩)))))))).1,
   ((C18_report_validation exampleEnv exampleDb noIdQuery).1 (Or.inl rfl)).1,
   (C18_report_validation exampleEnv exampleDb currentQuery).2 123123 2026 11
      ⟨by decide, by decide, by decide, by decide, by decide, by decide⟩ rfl rfl rfl⟩

/-! ## POST /api/add: what is persisted -/

/-- A call of POST /api/add that is answered 201 is an accepted submission. -/
theorem addCost_of_created (env : Env) (db : Db) (body : CostBody)
    (h : (addCost env db body).1.status = 201) :
    ∃ description category userid sum day month year,
      AcceptedCost env.now db body description category userid sum day month year ∧
      (addCost env db body).1 =
        ⟨201, .cost (newCostOf description category userid sum day month year)⟩ ∧
      (addCost env db body).2.costs =
        db.costs ++ [newCostOf description category userid sum day month year] := by
  rcases addCost_outcome env db body with ⟨hne, -⟩ | ⟨d, c, u, s, dd, mm, yy, hacc, -, -, h1, h2⟩
  · exact absurd h hne
  · exact ⟨d, c, u, s, dd, mm, yy, hacc, h1, h2⟩

/-- Counterexample to C19: on 6 November 2026 the submission with sum -5 for
the existing user 123123 is answered 201, and the record that is returned and
appended to the ledger has the negative sum -5. -/
theorem C19_negative_sum_counterexample :
    (addCost exampleEnv exampleDb refundBody).1 = ⟨201, .cost refundRecord⟩ ∧
    (addCost exampleEnv exampleDb refundBody).2.costs = exampleDb.costs ++ [refundRecord] ∧
    ¬ (0 ≤ refundRecord.sum) := by
  have h := addCost_of_accepted exampleEnv exampleDb refundBody "Refund" "food" 123123 (-5)
    6 11 2026
    ⟨⟨rfl, by decide, rfl, by decide, by decide, rfl⟩, by decide,
      ⟨by decide, by decide, by decide, by decide, by decide, by decide⟩, by decide,
      by decide⟩ rfl rfl
  have hrec : newCostOf "Refund" "food" 123123 (-5) 6 11 2026 = refundRecord := by decide
  rw [hrec] at h
  refine ⟨h.1, h.2, ?_⟩
  simp only [refundRecord]
  norm_num

/-- C19 (amended): every record that POST /api/add persists carries as its
sum the number that parseFloat reads from the submitted sum: for every
submission answered 201 the returned record is the one appended to the ledger
and its sum is the parsed submitted sum, so it is ≥ 0 exactly when the
submitted amount is; no check of the sign is made. -/
theorem C19_stored_sum_is_submitted_sum (env : Env) (db : Db) (body : CostBody)
    (h : (addCost env db body).1.status = 201) :
    ∃ (record : Cost) (sum : Rat),
      parseFloat body.sum = some sum ∧
      (addCost env db body).1 = ⟨201, .cost record⟩ ∧
      (addCost env db body).2.costs = db.costs ++ [record] ∧
      record.sum = sum ∧
      (0 ≤ record.sum ↔ 0 ≤ sum) := by
  obtain ⟨d, c, u, s, dd, mm, yy, hacc, h1, h2⟩ := addCost_of_created env db body h
  exact ⟨newCostOf d c u s dd mm yy, s, hacc.fields.sumParses, h1, h2, rfl, Iff.rfl⟩

/-- Witness of C19 (amended): the submission "Lunch" with sum 25 is stored
with sum 25. -/
theorem C19_stored_sum_is_submitted_sum_witness :
    ∃ (record : Cost) (sum : Rat),
      parseFloat lunchBody.sum = some sum ∧
      (addCost exampleEnv exampleDb lunchBody).1 = ⟨201, .cost record⟩ ∧
      (addCost exampleEnv exampleDb lunchBody).2.costs = exampleDb.costs ++ [record] ∧
      record.sum = sum ∧
      (0 ≤ record.sum ↔ 0 ≤ sum) :=
  C19_stored_sum_is_submitted_sum exampleEnv exampleDb lunchBody (by decide)

/-- C20: every record that POST /api/add persists has a category of the
enumeration, 1 ≤ day ≤ 31, 1 ≤ month ≤ 12 and year ≥ 1900: a call either
leaves the ledger as it was, or appends the one record it returns with 201,
which satisfies these ranges; a submission one of whose resolved date values
is not a number or is outside its range never adds to the ledger, and when
its required fields pass their checks and its user exists (the store
answering the lookup) it is answered 400. -/
theorem C20_persisted_ranges (env : Env) (db : Db) (body : CostBody) :
    (((addCost env db body).1.status ≠ 201 ∧ (addCost env db body).2.costs = db.costs) ∨
      ∃ record : Cost,
        (addCost env db body).1 = ⟨201, .cost record⟩ ∧
        (addCost env db body).2.costs = db.costs ++ [record] ∧
        record.category ∈ VALID_CATEGORIES ∧
        (1 ≤ record.day ∧ record.day ≤ 31) ∧
        (1 ≤ record.month ∧ record.month ≤ 12) ∧
        1900 ≤ record.year) ∧
    (((∀ day, resolvedDay env.now body = some day → day < 1 ∨ 31 < day) ∨
      (∀ month, resolvedMonth env.now body = some month → month < 1 ∨ 12 < month) ∨
      (∀ year, resolvedYear env.now body = some year → year < 1900)) →
      (addCost env db body).2.costs = db.costs ∧
      (addCost env db body).1.status ≠ 201 ∧
      (∀ description category userid sum,
        ValidCostFields body description category userid sum →
        (User.findOne db userid).isSome = true → env.userFindFails = false →
        (addCost env db body).1.status = 400)) := by
  constructor
  · rcases addCost_outcome env db body with h | ⟨d, c, u, s, dd, mm, yy, hacc, -, -, h1, h2⟩
    · exact Or.inl h
    · right
      refine ⟨newCostOf d c u s dd mm yy, h1, h2, ?_, hacc.date.dayRange,
        hacc.date.monthRange, hacc.date.yearRange⟩
      simpa [newCostOf] using hacc.fields.categoryValid
  · intro hviol
    have hnodate : ∀ day month year, ¬ ValidCostDate env.now body day month year := by
      intro day month year hv
      rcases hviol with h | h | h
      · have := h day hv.dayIs
        have := hv.dayRange
        omega
      · have := h month hv.monthIs
        have := hv.monthRange
        omega
      · have := h year hv.yearIs
        have := hv.yearRange
        omega
    have hleft : (addCost env db body).1.status ≠ 201 ∧
        (addCost env db body).2.costs = db.costs := by
      rcases addCost_outcome env db body with h | ⟨d, c, u, s, dd, mm, yy, hacc, -⟩
      · exact h
      · exact absurd hacc.date (hnodate dd mm yy)
    refine ⟨hleft.2, hleft.1, ?_⟩
    intro description category userid sum hf huser hu
    have hspec := dateFields_spec env.now body userid
    cases hdf : dateFields env.now body userid with
    | error response =>
      rw [hdf] at hspec
      rw [(addCost_of_bad_date env db body description category userid sum response hf huser
        hdf hu).1]
      exact hspec
    | ok date =>
      obtain ⟨dd, mm, yy⟩ := date
      rw [hdf] at hspec
      exact absurd hspec (hnodate dd mm yy)

/-- Witness of C20: the submission "Lunch" is stored with category food and
the date 6 November 2026, and a submission dated on day 32 is answered 400 and
leaves the ledger as it was. -/
theorem C20_persisted_ranges_witness :
    (addCost exampleEnv exampleDb lunchBody).2.costs =
      exampleDb.costs ++ [{ description := "Lunch", category := "food", userid := 123123,
                            sum := 25, day := 6, month := 11, year := 2026 }] ∧
    (addCost exampleEnv exampleDb dayThirtyTwoBody).1.status = 400 ∧
    (addCost exampleEnv exampleDb dayThirtyTwoBody).2.costs = exampleDb.costs :=
  have h := (C20_persisted_ranges exampleEnv exampleDb dayThirtyTwoBody).2
    (Or.inl (fun day hday => by
      have h32 : resolvedDay exampleEnv.now dayThirtyTwoBody = some 32 := by decide
      rw [h32] at hday
      simp only [Option.some.injEq] at hday
      omega))
  ⟨by decide,
   h.2.2 "Test" "food" 123123 10 ⟨rfl, by decide, rfl, by decide, by decide, rfl⟩
     (by decide) rfl,
   h.1⟩

/-! ## Closedness is monotone -/

/-- The time order of clock readings implies their month order. -/
theorem Clock.monthLe_of_le {a b : Clock} (h : Clock.le a b) : Clock.monthLe a b := by
  unfold Clock.le at h
  unfold Clock.monthLe
  omega

/-- A period that precedes or equals a closed period is closed. -/
theorem isMonthInPast_of_le {now : Clock} {year month year2 month2 : Int}
    (hle : toLex (year2, month2) ≤ toLex (year, month))
    (h : isMonthInPast now year month = true) : isMonthInPast now year2 month2 = true := by
  rw [isMonthInPast_eq_true_iff] at h ⊢
  rw [Prod.Lex.le_iff] at hle
  simp only at hle
  omega

/-- C28: if isMonthInPast(year, month) is true at a reference time, it is
true at every later reference time (later by the month order of the clock
readings, hence also by their full time order); and if (year, month) is closed
at a reference time, every period that precedes or equals it in calendar order
is closed at that time as well; so a period that is open at a later time was
open before. -/
theorem C28_closedness_monotone (t t2 : Clock) (year month year2 month2 : Int) :
    (Clock.monthLe t t2 → isMonthInPast t year month = true →
      isMonthInPast t2 year month = true) ∧
    (Clock.le t t2 → isMonthInPast t year month = true →
      isMonthInPast t2 year month = true) ∧
    (toLex (year2, month2) ≤ toLex (year, month) → isMonthInPast t year month = true →
      isMonthInPast t year2 month2 = true) ∧
    (Clock.le t t2 → isMonthInPast t2 year month = false →
      isMonthInPast t year month = false) := by
  refine ⟨fun h1 h2 => isMonthInPast_mono h1 h2,
    fun h1 h2 => isMonthInPast_mono (Clock.monthLe_of_le h1) h2,
    fun h1 h2 => isMonthInPast_of_le h1 h2, ?_⟩
  intro h1 h2
  cases h : isMonthInPast t year month with
  | false => rfl
  | true =>
    rw [isMonthInPast_mono (Clock.monthLe_of_le h1) h] at h2
    cases h2

/-- Witness of C28: January 2020, closed on 6 November 2026, is closed on
2 December 2026, and so is December 2019. -/
theorem C28_closedness_monotone_witness :
    isMonthInPast decemberEnv.now 2020 1 = true ∧
    isMonthInPast exampleEnv.now 2019 12 = true :=
  have h := C28_closedness_monotone exampleEnv.now decemberEnv.now 2020 1 2019 12
  ⟨h.2.1 (by decide) (by decide), h.2.2.1 (by decide) (by decide)⟩

/-! ## Frame of GET /api/report -/

/-- C29: every call of GET /api/report leaves the cost ledger and the user
directory unchanged, and leaves the report cache as it was or appends to it
one entry whose key is the requested (userid, year, month), which was not a
key of the cache; the entries that were in the cache stay, unchanged and in
their order, at the front. -/
theorem C29_report_frame (env : Env) (db : Db) (query : ReportQuery) :
    (getReport env db query).2.costs = db.costs ∧
    (getReport env db query).2.users = db.users ∧
    ((getReport env db query).2.reports = db.reports ∨
      ∃ userid year month costs,
        parseInt query.id = some userid ∧ parseInt query.year = some year ∧
        parseInt query.month = some month ∧
        (userid, year, month) ∉ db.reports.map Report.key ∧
        (getReport env db query).2.reports = db.reports ++ [⟨userid, year, month, costs⟩]) ∧
    db.reports <+: (getReport env db query).2.reports ∧
    (∀ r ∈ db.reports, r ∈ (getReport env db query).2.reports) := by
  obtain ⟨hc, hu⟩ := getReport_costs_users env db query
  have hcases : (getReport env db query).2.reports = db.reports ∨
      ∃ userid year month costs,
        parseInt query.id = some userid ∧ parseInt query.year = some year ∧
        parseInt query.month = some month ∧
        (userid, year, month) ∉ db.reports.map Report.key ∧
        (getReport env db query).2.reports = db.reports ++ [⟨userid, year, month, costs⟩] := by
    rcases getReport_reports env db query with h | ⟨u, y, m, hp, -, hmiss, -, h⟩
    · exact Or.inl h
    · right
      have hparse : parseInt query.id = some u ∧ parseInt query.year = some y ∧
          parseInt query.month = some m := by
        unfold reportParams at hp
        cases hid : parseInt query.id <;> cases hy : parseInt query.year <;>
          cases hm : parseInt query.month <;> simp only [hid, hy, hm] at hp <;>
          try (simp at hp; done)
        split at hp
        · simp only [Option.some.injEq, Prod.mk.injEq] at hp
          simp [hp.1, hp.2.1, hp.2.2]
        · simp at hp
      exact ⟨u, y, m, _, hparse.1, hparse.2.1, hparse.2.2,
        (reportFindOne_eq_none_iff db u y m).mp hmiss, h⟩
  have hprefix : db.reports <+: (getReport env db query).2.reports := by
    rcases hcases with h | ⟨u, y, m, c, -, -, -, -, h⟩
    · rw [h]
    · rw [h]; exact List.prefix_append _ _
  exact ⟨hc, hu, hcases, hprefix, fun r hr => hprefix.subset hr⟩

/-! ## POST /api/add: any day of the current month -/

/-- The current month is not in the past. -/
theorem isMonthInPast_current (now : Clock) :
    isMonthInPast now now.fullYear (now.month + 1) = false := by
  rw [isMonthInPast_eq_false_iff]
  omega

/-- C22: the past-date check reads the year and the month only: a submission
to POST /api/add with valid required fields and a description that is not
blank, for an existing user, whose year and month resolve to the current year
and month and whose day resolves to any number in 1..31, whether before, on
or after today, is answered 201 and its record is appended to the ledger (the
store answering the user lookup and the save, the clock reading a month in
0..11 of a year from 1900 on). -/
theorem C22_current_month_any_day (env : Env) (db : Db) (body : CostBody)
    (description category : String) (userid : Int) (sum : Rat) (day : Int)
    (hf : ValidCostFields body description category userid sum)
    (hblank : (jsTrim description).data.isEmpty = false)
    (huser : (User.findOne db userid).isSome = true)
    (hday : resolvedDay env.now body = some day) (hrange : 1 ≤ day ∧ day ≤ 31)
    (hmonth : resolvedMonth env.now body = some (env.now.month + 1))
    (hyear : resolvedYear env.now body = some env.now.fullYear)
    (hclock : 0 ≤ env.now.month ∧ env.now.month ≤ 11 ∧ 1900 ≤ env.now.fullYear)
    (hu : env.userFindFails = false) (hs : env.costSaveFails = false) :
    isMonthInPast env.now env.now.fullYear (env.now.month + 1) = false ∧
    (addCost env db body).1 =
      ⟨201, .cost (newCostOf description category userid sum day (env.now.month + 1)
        env.now.fullYear)⟩ ∧
    (addCost env db body).2.costs =
      db.costs ++ [newCostOf description category userid sum day (env.now.month + 1)
        env.now.fullYear] := by
  have hopen := isMonthInPast_current env.now
  have hacc : AcceptedCost env.now db body description category userid sum day
      (env.now.month + 1) env.now.fullYear :=
    ⟨hf, huser, ⟨hday, hrange, hmonth, by omega, hyear, hclock.2.2⟩, hopen, hblank⟩
  exact ⟨hopen, addCost_of_accepted env db body description category userid sum day _ _
    hacc hu hs⟩

/-- Witness of C22: on 6 November 2026 a submission dated 1 November 2026,
five days before today, is answered 201 and stored. -/
theorem C22_current_month_any_day_witness :
    (addCost exampleEnv exampleDb firstOfMonthBody).1 =
      ⟨201, .cost { description := "Coffee", category := "food", userid := 123123, sum := 3,
                    day := 1, month := 11, year := 2026 }⟩ ∧
    (addCost exampleEnv exampleDb firstOfMonthBody).2.costs =
      exampleDb.costs ++ [{ description := "Coffee", category := "food", userid := 123123,
                            sum := 3, day := 1, month := 11, year := 2026 }] :=
  (C22_current_month_any_day exampleEnv exampleDb firstOfMonthBody "Coffee" "food" 123123 3 1
    ⟨rfl, by decide, rfl, by decide, by decide, rfl⟩ (by decide) (by decide) (by decide)
    (by decide) (by decide) (by decide) (by decide) rfl rfl).2

/-! ## POST /api/add: the order of the checks -/

/-- The first failure of two lists of checks, one after the other. -/
theorem firstFailure_append (a b : List (Option Response)) :
    firstFailure (a ++ b) =
      match firstFailure a with
      | some r => some r
      | none => firstFailure b := by
  induction a with
  | nil => simp [firstFailure]
  | cons x xs ih =>
    cases x with
    | none => simpa [firstFailure] using ih
    | some r => simp [firstFailure]

/-- The required-field checks of the handler agree with the first failure of
the stated field checks. -/
theorem fieldChecks_spec (body : CostBody) :
    match requiredFields body with
    | .error response => firstFailure (fieldChecks body) = some response
    | .ok _ => firstFailure (fieldChecks body) = none := by
  cases hd : body.description with
  | str description =>
    by_cases h1 : description.data.isEmpty = true
    · simp [requiredFields, firstFailure, fieldChecks, checkDescription, hd, h1]
    cases hc : body.category with
    | str category =>
      by_cases h2 : category.data.isEmpty = true
      · simp [requiredFields, firstFailure, fieldChecks, checkDescription, checkCategory,
          hd, hc, h1, h2]
      by_cases h3 : jsTrim (toLowerCase category) ∈ VALID_CATEGORIES
      swap
      · simp [requiredFields, firstFailure, fieldChecks, checkDescription, checkCategory,
          hd, hc, h1, h2, h3]
      by_cases h4 : body.userid.isNullish = true
      · simp [requiredFields, firstFailure, fieldChecks, checkDescription, checkCategory,
          checkUserid, hd, hc, h1, h2, h3, h4]
      cases hu : parseInt body.userid with
      | none =>
        simp [requiredFields, firstFailure, fieldChecks, checkDescription, checkCategory,
          checkUserid, hd, hc, h1, h2, h3, h4, hu]
      | some parsedUserid =>
        by_cases h5 : body.sum.isNullish = true
        · simp [requiredFields, firstFailure, fieldChecks, checkDescription, checkCategory,
            checkUserid, checkSum, echoedUserid, hd, hc, h1, h2, h3, h4, hu, h5]
        cases hs : parseFloat body.sum with
        | none =>
          simp [requiredFields, firstFailure, fieldChecks, checkDescription, checkCategory,
            checkUserid, checkSum, echoedUserid, hd, hc, h1, h2, h3, h4, hu, h5, hs]
        | some parsedSum =>
          simp [requiredFields, firstFailure, fieldChecks, checkDescription, checkCategory,
            checkUserid, checkSum, echoedUserid, hd, hc, h1, h2, h3, h4, hu, h5, hs]
    | _ =>
      simp [requiredFields, firstFailure, fieldChecks, checkDescription, checkCategory,
        hd, hc, h1]
  | _ => simp [requiredFields, firstFailure, fieldChecks, checkDescription, hd]

/-- The date checks of the handler agree with the first failure of the stated
day, month and year checks. -/
theorem dateChecks_spec (now : Clock) (body : CostBody) (userid : Int)
    (hu : parseInt body.userid = some userid) :
    match dateFields now body userid with
    | .error response =>
      firstFailure [checkDay now body, checkMonth now body, checkYear now body] = some response
    | .ok _ =>
      firstFailure [checkDay now body, checkMonth now body, checkYear now body] = none := by
  cases hd : resolvedDay now body with
  | none => simp [dateFields, firstFailure, checkDay, echoedUserid, hu, hd]
  | some day =>
    by_cases h1 : day < 1 ∨ day > 31
    · have h1n : ¬ (1 ≤ day ∧ day ≤ 31) := by omega
      simp [dateFields, firstFailure, checkDay, echoedUserid, hu, hd, h1, h1n]
    have h1p : 1 ≤ day ∧ day ≤ 31 := by omega
    cases hm : resolvedMonth now body with
    | none =>
      simp [dateFields, firstFailure, checkDay, checkMonth, echoedUserid, hu, hd, h1, h1p, hm]
    | some month =>
      by_cases h2 : month < 1 ∨ month > 12
      · have h2n : ¬ (1 ≤ month ∧ month ≤ 12) := by omega
        simp [dateFields, firstFailure, checkDay, checkMonth, echoedUserid, hu, hd, h1, h1p,
          hm, h2, h2n]
      have h2p : 1 ≤ month ∧ month ≤ 12 := by omega
      cases hy : resolvedYear now body with
      | none =>
        simp [dateFields, firstFailure, checkDay, checkMonth, checkYear, echoedUserid, hu, hd,
          h1, h1p, hm, h2, h2p, hy]
      | some year =>
        by_cases h3 : year < 1900
        · have h3n : ¬ (1900 ≤ year) := by omega
          simp [dateFields, firstFailure, checkDay, checkMonth, checkYear, echoedUserid, hu, hd,
            h1, h1p, hm, h2, h2p, hy, h3, h3n]
        have h3p : 1900 ≤ year := by omega
        simp [dateFields, firstFailure, checkDay, checkMonth, checkYear, echoedUserid, hu, hd,
          h1, h1p, hm, h2, h2p, hy, h3, h3p]
/-- The first failure of the stated checks after the field checks have
passed. -/
theorem firstFailure_of_fields {now : Clock} {db : Db} {body : CostBody}
    (h : firstFailure (fieldChecks body) = none) :
    firstFailure (checksInStatedOrder now db body) =
      firstFailure [checkUserExists db body, checkDay now body, checkMonth now body,
        checkYear now body, checkPastDate now body] := by
  unfold checksInStatedOrder
  rw [firstFailure_append, h]

/-- With the store answering the user lookup, the response of POST /api/add is
that of the first stated check that fails, and then the ledger is unchanged;
when no check fails the handler goes on to save the record. -/
theorem addCost_firstFailure (env : Env) (db : Db) (body : CostBody)
    (hu : env.userFindFails = false) :
    match firstFailure (checksInStatedOrder env.now db body) with
    | some response =>
      (addCost env db body).1 = response ∧ (addCost env db body).2.costs = db.costs
    | none => (addCost env db body).1.status = 201 ∨ (addCost env db body).1.status = 500 := by
  have hA := fieldChecks_spec body
  have hreq := requiredFields_spec body
  cases hrf : requiredFields body with
  | error r0 =>
    rw [hrf] at hA
    simp only at hA
    obtain ⟨h1, h2⟩ := addCost_of_required_error env db body r0 hrf
    have hff : firstFailure (checksInStatedOrder env.now db body) = some r0 := by
      unfold checksInStatedOrder
      rw [firstFailure_append, hA]
    rw [hff]
    simp only
    rw [h1, h2]
    simp [logger.info]
  | ok fields =>
    obtain ⟨description, normalized, userid, sum⟩ := fields
    rw [hrf] at hA hreq
    simp only at hA
    obtain ⟨category, hf, -⟩ := hreq
    rw [firstFailure_of_fields hA]
    cases huser : User.findOne db userid with
    | none =>
      have hff : firstFailure [checkUserExists db body, checkDay env.now body,
          checkMonth env.now body, checkYear env.now body, checkPastDate env.now body] =
          some ⟨404, .error (.ofInt userid)
            "User not found. Cannot add cost for non-existent user."⟩ := by
        simp [firstFailure, checkUserExists, hf.useridParses, huser]
      rw [hff]
      simp only
      rw [addCost_eq_staged]
      unfold addCostStaged
      simp [requiredFields_of_valid hf, hu, huser, logger.info, logger.warn]
    | some usr =>
      have hsome : (User.findOne db userid).isSome = true := by simp [huser]
      have hB := dateChecks_spec env.now body userid hf.useridParses
      have hdate := dateFields_spec env.now body userid
      have hsplit : firstFailure [checkUserExists db body, checkDay env.now body,
          checkMonth env.now body, checkYear env.now body, checkPastDate env.now body] =
          match firstFailure [checkDay env.now body, checkMonth env.now body,
              checkYear env.now body] with
          | some r => some r
          | none => checkPastDate env.now body := by
        have h0 : checkUserExists db body = none := by
          simp [checkUserExists, hf.useridParses, huser]
        have h1 : [checkUserExists db body, checkDay env.now body,
            checkMonth env.now body, checkYear env.now body, checkPastDate env.now body] =
            [checkUserExists db body] ++ ([checkDay env.now body, checkMonth env.now body,
              checkYear env.now body] ++ [checkPastDate env.now body]) := rfl
        rw [h1, firstFailure_append, firstFailure_append]
        cases hx : checkPastDate env.now body <;> simp [firstFailure, h0, hx]
      rw [hsplit]
      cases hdf : dateFields env.now body userid with
      | error r1 =>
        rw [hdf] at hB
        simp only at hB
        rw [hB]
        exact addCost_of_bad_date env db body description category userid sum r1 hf hsome hdf hu
      | ok date =>
        obtain ⟨day, month, year⟩ := date
        rw [hdf] at hB hdate
        simp only at hB hdate
        rw [hB]
        simp only
        cases hpast : isMonthInPast env.now year month with
        | true =>
          have hc : checkPastDate env.now body =
              some ⟨400, .error (.ofInt userid) "Cannot add costs with dates in the past"⟩ := by
            simp [checkPastDate, hdate.yearIs, hdate.monthIs, hpast, echoedUserid,
              hf.useridParses]
          rw [hc]
          have hresp := addCost_of_past env db body description category userid sum day month
            year hf hsome hdate hpast hu
          refine ⟨hresp, ?_⟩
          rcases addCost_outcome env db body with h | ⟨_, _, _, _, _, _, _, -, -, -, h201, -⟩
          · exact h.2
          · rw [hresp] at h201
            simp at h201
        | false =>
          have hc : checkPastDate env.now body = none := by
            simp [checkPastDate, hdate.yearIs, hdate.monthIs, hpast]
          rw [hc]
          simp only
          rw [addCost_eq_staged]
          unfold addCostStaged
          simp only [requiredFields_of_valid hf, dateFields_of_valid hdate, hu, hpast,
            logger.info, userFindOne_saveLog, huser, if_false, Bool.false_eq_true]
          cases hsave : Cost.save env
              (saveLogToMongoDB env db "info" "Endpoint accessed: POST /api/add (cost)"
                SERVICE_NAME)
              { description := jsTrim description, category := jsTrim (toLowerCase category),
                userid := userid, sum := sum, day := day, month := month, year := year } with
          | error message => simp
          | ok saved => simp

/-- C27: the response of POST /api/add is decided by the first check that
fails in the order description, category, userid, sum, user existence, day,
month, year, past-date.  A failure among the first four decides the response
whatever the store does; with the store answering the user lookup, the first
failure of all nine decides the response and the ledger is unchanged, and when
none fails the handler reaches the save (201, or 500 when the save is
rejected).  In particular a submission with valid description, category,
userid and sum for a user that does not exist fails the user check first and
is answered 404, whatever its day, month and year are. -/
theorem C27_error_precedence (env : Env) (db : Db) (body : CostBody) :
    (∀ response, firstFailure (fieldChecks body) = some response →
      (addCost env db body).1 = response) ∧
    (env.userFindFails = false →
      ∀ response, firstFailure (checksInStatedOrder env.now db body) = some response →
        (addCost env db body).1 = response ∧ (addCost env db body).2.costs = db.costs) ∧
    (env.userFindFails = false →
      firstFailure (checksInStatedOrder env.now db body) = none →
        (addCost env db body).1.status = 201 ∨ (addCost env db body).1.status = 500) ∧
    (env.userFindFails = false →
      ∀ description category userid sum,
        ValidCostFields body description category userid sum →
        User.findOne db userid = none →
          firstFailure (checksInStatedOrder env.now db body) =
            some ⟨404, .error (.ofInt userid)
              "User not found. Cannot add cost for non-existent user."⟩ ∧
          (addCost env db body).1 =
            ⟨404, .error (.ofInt userid)
              "User not found. Cannot add cost for non-existent user."⟩) := by
  refine ⟨?_, ?_, ?_, ?_⟩
  · intro response h
    have hA := fieldChecks_spec body
    cases hrf : requiredFields body with
    | error r0 =>
      rw [hrf] at hA
      simp only at hA
      rw [hA] at h
      simp only [Option.some.injEq] at h
      rw [← h]
      exact (addCost_of_required_error env db body r0 hrf).1
    | ok fields =>
      rw [hrf] at hA
      simp only at hA
      rw [hA] at h
      cases h
  · intro hu response h
    have hmain := addCost_firstFailure env db body hu
    rw [h] at hmain
    exact hmain
  · intro hu h
    have hmain := addCost_firstFailure env db body hu
    rw [h] at hmain
    exact hmain
  · intro hu description category userid sum hf huser
    have hA := fieldChecks_spec body
    rw [requiredFields_of_valid hf] at hA
    simp only at hA
    have hff : firstFailure (checksInStatedOrder env.now db body) =
        some ⟨404, .error (.ofInt userid)
          "User not found. Cannot add cost for non-existent user."⟩ := by
      rw [firstFailure_of_fields hA]
      simp [firstFailure, checkUserExists, hf.useridParses, huser]
    have hmain := addCost_firstFailure env db body hu
    rw [hff] at hmain
    exact ⟨hff, hmain.1⟩

/-- Witness of C27: a submission for a user that does not exist, dated on day
32 of January 2020, is answered 404 and not 400. -/
theorem C27_error_precedence_witness :
    (addCost exampleEnv exampleDb strangerPastBody).1 =
      ⟨404, .error (.ofInt 999999)
        "User not found. Cannot add cost for non-existent user."⟩ :=
  ((C27_error_precedence exampleEnv exampleDb strangerPastBody).2.2.2 rfl "Test" "food" 999999
    10 ⟨rfl, by decide, rfl, by decide, by decide, rfl⟩ (by decide)).2

/-! ## Submit, then report -/

/-- The bucket of a name in a generated report: for a category of the
enumeration the projected records of that category, in ledger order; no bucket
for any other name. -/
theorem generateReport_bucket (db : Db) (userid year month : Int) (category : String) :
    (generateReport db userid year month).bucket category =
      if category ∈ VALID_CATEGORIES then
        some (((Cost.find db userid year month).filter
          (fun cost => decide (cost.category = category))).map CostItem.ofCost)
      else none := by
  by_cases hcat : category ∈ VALID_CATEGORIES
  · rw [if_pos hcat]
    simp only [VALID_CATEGORIES, List.mem_cons, List.mem_singleton, List.not_mem_nil,
      or_false] at hcat
    rcases hcat with rfl | rfl | rfl | rfl | rfl <;>
      simp [Report.bucket, generateReport_costs, VALID_CATEGORIES, CostItem.ofCost,
        List.findSome?_cons, List.find?_cons] <;> rfl
  · rw [if_neg hcat]
    simp only [VALID_CATEGORIES, List.mem_cons, List.mem_singleton, List.not_mem_nil,
      or_false, not_or] at hcat
    obtain ⟨h1, h2, h3, h4, h5⟩ := hcat
    simp [Report.bucket, generateReport_costs, VALID_CATEGORIES, List.findSome?_cons,
      List.find?_cons, Ne.symm h1, Ne.symm h2, Ne.symm h3, Ne.symm h4, Ne.symm h5]

/-- The ledger query after a record of the queried user and month has been
appended. -/
theorem costFind_append_same (db db2 : Db) (doc : Cost)
    (h : db2.costs = db.costs ++ [doc]) :
    Cost.find db2 doc.userid doc.year doc.month =
      Cost.find db doc.userid doc.year doc.month ++ [doc] := by
  unfold Cost.find
  rw [h, List.filter_append]
  simp

/-- C21: after a submission that POST /api/add accepts (valid fields, existing
user, valid date values not in the past, description not blank; the store
answering the lookup and the save), answered 201, a following GET /api/report
for the record's userid, year and month (the store answering its reads; the
period still open, or closed with no report cached for it, as in every state
reached from an empty cache, where only closed periods are cached and an
accepted submission is for an open one) is answered 200 with a report in which the bucket of the normalised category is the bucket the
ledger gave before the submission followed by the item of sum, trimmed
description and day as its last entry, and every other bucket is what the
ledger gave before the submission. -/
theorem C21_submit_then_report (env env2 : Env) (db : Db) (body : CostBody)
    (query : ReportQuery) (description category : String) (userid : Int) (sum : Rat)
    (day month year : Int)
    (hacc : AcceptedCost env.now db body description category userid sum day month year)
    (hu : env.userFindFails = false) (hs : env.costSaveFails = false)
    (hid : parseInt query.id = some userid) (hy : parseInt query.year = some year)
    (hm : parseInt query.month = some month)
    (hu2 : env2.userFindFails = false) (hr2 : env2.reportFindFails = false)
    (hc2 : env2.costFindFails = false)
    (hfresh : isMonthInPast env2.now year month = false ∨
      Report.findOne db userid year month = none) :
    (addCost env db body).1.status = 201 ∧
    ∃ report before,
      (getReport env2 (addCost env db body).2 query).1 = ⟨200, .report report⟩ ∧
      (generateReport db userid year month).bucket (jsTrim (toLowerCase category)) =
        some before ∧
      report.bucket (jsTrim (toLowerCase category)) =
        some (before ++ [{ sum := sum, description := jsTrim description, day := day }]) ∧
      ∀ other, other ≠ jsTrim (toLowerCase category) →
        report.bucket other = (generateReport db userid year month).bucket other := by
  obtain ⟨h201, hcosts⟩ := addCost_of_accepted env db body description category userid sum
    day month year hacc hu hs
  obtain ⟨hreports, husers, -⟩ := addCost_frame env db body
  have hvalid : ValidReportRequest (addCost env db body).2 query userid year month :=
    ⟨hid, hy, hm, hacc.date.yearRange, hacc.date.monthRange, by
      simpa [User.findOne, husers] using hacc.user⟩
  have hresp : (getReport env2 (addCost env db body).2 query).1 =
      ⟨200, .report (generateReport (addCost env db body).2 userid year month)⟩ := by
    cases hpast : isMonthInPast env2.now year month with
    | false => exact getReport_open_resp env2 _ query userid year month hvalid hpast hu2 hc2
    | true =>
      have hmiss : Report.findOne db userid year month = none := by
        rcases hfresh with h | h
        · rw [hpast] at h
          cases h
        · exact h
      exact getReport_miss_resp env2 _ query userid year month hvalid hpast
        (by rw [reportFindOne_congr hreports]; exact hmiss) hu2 hr2 hc2
  have hmem : jsTrim (toLowerCase category) ∈ VALID_CATEGORIES := by
    simpa using hacc.fields.categoryValid
  have hfind : Cost.find (addCost env db body).2 userid year month =
      Cost.find db userid year month ++
        [newCostOf description category userid sum day month year] :=
    costFind_append_same db (addCost env db body).2
      (newCostOf description category userid sum day month year) hcosts
  refine ⟨by rw [h201], generateReport (addCost env db body).2 userid year month,
    ((Cost.find db userid year month).filter
      (fun cost => decide (cost.category = jsTrim (toLowerCase category)))).map
        CostItem.ofCost, hresp, ?_, ?_, ?_⟩
  · rw [generateReport_bucket, if_pos hmem]
  · rw [generateReport_bucket, if_pos hmem, hfind]
    simp [List.filter_append, newCostOf, CostItem.ofCost]
  · intro other hother
    rw [generateReport_bucket, generateReport_bucket, hfind]
    by_cases hin : other ∈ VALID_CATEGORIES
    · simp [hin, List.filter_append, newCostOf, Ne.symm hother]
    · simp [hin]

/-- Witness of C21: on 6 November 2026, after the submission 'Lunch' (food,
25, no date) the report of November 2026 has the food bucket Pizza, Bread,
Lunch, the new item last, dated today. -/
theorem C21_submit_then_report_witness :
    ∃ report,
      (getReport exampleEnv (addCost exampleEnv exampleDb lunchBody).2 currentQuery).1 =
        ⟨200, .report report⟩ ∧
      report.bucket "food" =
        some [{ sum := 30, description := "Pizza", day := 6 },
              { sum := 4, description := "Bread", day := 7 },
              { sum := 25, description := "Lunch", day := 6 }] ∧
      report.bucket "sports" = some [{ sum := 50, description := "Gym membership", day := 6 }] :=
  have ⟨_, report, before, h1, h2, h3, h4⟩ :=
    C21_submit_then_report exampleEnv exampleEnv exampleDb lunchBody currentQuery
      "Lunch" "Food" 123123 25 6 11 2026
      ⟨⟨rfl, by decide, rfl, by decide, by decide, rfl⟩, by decide,
        ⟨by decide, by decide, by decide, by decide, by decide, by decide⟩, by decide,
        by decide⟩ rfl rfl (by decide) (by decide) (by decide) rfl rfl rfl
      (Or.inl (by decide))
  have hb : before = [{ sum := 30, description := "Pizza", day := 6 },
      { sum := 4, description := "Bread", day := 7 }] :=
    Option.some.inj (h2.symm.trans (by decide))
  ⟨report, h1, h3.trans (by rw [hb]; rfl), (h4 "sports" (by decide)).trans (by decide)⟩

/-! ## The test copy of POST /api/add against the service -/

/-- On years and months that are numbers the helper of the test file is the
classifier of the service. -/
theorem testIsMonthInPast_some (now : Clock) (year month : Int) :
    CostsTest.isMonthInPast now (some year) (some month) = isMonthInPast now year month := by
  unfold CostsTest.isMonthInPast isMonthInPast
  by_cases h1 : year < now.fullYear
  · simp [h1]
  · by_cases h2 : year = now.fullYear ∧ month < now.month + 1
    · simp [h1, h2]
    · have h3 : ¬ (year = now.fullYear ∧ month < now.month + 1) := h2
      simp only [h1, decide_False, Bool.false_eq_true, if_false, h2]
      by_cases h4 : year = now.fullYear
      · have h5 : ¬ month < now.month + 1 := fun h => h3 ⟨h4, h⟩
        simp [h4, h5]
      · simp [h4]

/-- Saving a cost into two states of the store with the same ledger: both
saves are rejected with the same message, or both append the same document. -/
theorem costSave_two (env : Env) (db db2 : Db) (c : Cost) (h : db2.costs = db.costs) :
    (∃ msg, Cost.save env db c = .error msg ∧ Cost.save env db2 c = .error msg) ∨
    (∃ doc : Cost, Cost.save env db c = .ok (doc, { db with costs := db.costs ++ [doc] }) ∧
      Cost.save env db2 c = .ok (doc, { db2 with costs := db.costs ++ [doc] })) := by
  unfold Cost.save
  simp only
  split
  · exact Or.inl ⟨_, rfl, rfl⟩
  · split
    · exact Or.inl ⟨_, rfl, rfl⟩
    · split
      · exact Or.inl ⟨_, rfl, rfl⟩
      · split
        · exact Or.inl ⟨_, rfl, rfl⟩
        · exact Or.inr ⟨_, rfl, by rw [h]⟩

/-- The test copy and the service agree, in status and in what they do to the
ledger, on every request whose day, month and year pass the date checks of the
service. -/
theorem testAddCost_agrees (env : Env) (db : Db) (body : CostBody)
    (hdate : ∀ userid response, dateFields env.now body userid ≠ .error response) :
    (CostsTest.addCost env db body).1.status = (addCost env db body).1.status ∧
    (CostsTest.addCost env db body).2.costs = (addCost env db body).2.costs := by
  rw [addCost_eq_staged]
  unfold addCostStaged CostsTest.addCost
  cases hd : body.description with
  | str description =>
    by_cases h1 : description.data.isEmpty = true
    · simp [requiredFields, logger.info, hd, h1]
    cases hc : body.category with
    | str category =>
      by_cases h2 : category.data.isEmpty = true
      · simp [requiredFields, logger.info, hd, hc, h1, h2]
      by_cases h3 : jsTrim (toLowerCase category) ∈ VALID_CATEGORIES
      swap
      · simp [requiredFields, logger.info, hd, hc, h1, h2, h3]
      by_cases h4 : body.userid.isNullish = true
      · simp [requiredFields, logger.info, hd, hc, h1, h2, h3, h4]
      cases hu : parseInt body.userid with
      | none => simp [requiredFields, logger.info, hd, hc, h1, h2, h3, h4, hu]
      | some parsedUserid =>
        by_cases h5 : body.sum.isNullish = true
        · simp [requiredFields, logger.info, hd, hc, h1, h2, h3, h4, hu, h5]
        cases hs : parseFloat body.sum with
        | none => simp [requiredFields, logger.info, hd, hc, h1, h2, h3, h4, hu, h5, hs]
        | some parsedSum =>
          by_cases hf : env.userFindFails = true
          · simp [requiredFields, logger.info, logger.error, hd, hc, h1, h2, h3, h4, hu, h5,
              hs, hf]
          cases huser : User.findOne db parsedUserid with
          | none =>
            simp [requiredFields, logger.info, logger.warn, hd, hc, h1, h2, h3, h4, hu, h5,
              hs, hf, huser]
          | some usr =>
            have hspec := dateFields_spec env.now body parsedUserid
            cases hdf : dateFields env.now body parsedUserid with
            | error response => exact absurd hdf (hdate parsedUserid response)
            | ok date =>
              obtain ⟨day, month, year⟩ := date
              rw [hdf] at hspec
              simp only at hspec
              have hday := hspec.dayIs
              have hmonth := hspec.monthIs
              have hyear := hspec.yearIs
              unfold resolvedDay at hday
              unfold resolvedMonth at hmonth
              unfold resolvedYear at hyear
              have hcv : VALID_CATEGORIES.contains (jsTrim (toLowerCase category)) = true := by
                simpa using h3
              simp only [requiredFields, logger.info, hd, hc, h1, h2, hcv, h4, hu, h5, hs, hf,
                huser, hday, hmonth, hyear, hdf, testIsMonthInPast_some, userFindOne_saveLog,
                Bool.not_true, Bool.false_eq_true, if_false]
              cases hpast : isMonthInPast env.now year month with
              | true => simp [logger.warn]
              | false =>
                simp only [Bool.false_eq_true, if_false]
                rcases costSave_two env db
                    (saveLogToMongoDB env db "info" "Endpoint accessed: POST /api/add (cost)"
                      SERVICE_NAME)
                    { description := jsTrim description,
                      category := jsTrim (toLowerCase category),
                      userid := parsedUserid, sum := parsedSum, day := day, month := month,
                      year := year } (saveLogToMongoDB_costs _ _ _ _ _) with
                  ⟨msg, e1, e2⟩ | ⟨doc, e1, e2⟩
                · rw [e1, e2]
                  simp [logger.error]
                · rw [e1, e2]
                  simp
    | _ => simp [requiredFields, logger.info, hd, hc, h1]
  | _ => simp [requiredFields, logger.info, hd]

/-- C30: the copy of the POST /api/add handler in tests/costs.test.js is not
equivalent to the handler of the service: it has no checks of the values of
day, month and year.  For the body with description 'Test', category 'food',
userid 123123, sum 10 and day 32, on a store that holds user 123123, the
service answers 400 and the copy goes on to the save, where the schema rejects
day 32, and answers 500; neither adds to the ledger. -/
theorem C30_test_copy_diverges :
    (addCost exampleEnv exampleDb dayThirtyTwoBody).1 =
      ⟨400, .error (.ofInt 123123) "Day must be a number between 1 and 31"⟩ ∧
    (CostsTest.addCost exampleEnv exampleDb dayThirtyTwoBody).1.status = 500 ∧
    (CostsTest.addCost exampleEnv exampleDb dayThirtyTwoBody).1.status ≠
      (addCost exampleEnv exampleDb dayThirtyTwoBody).1.status ∧
    (addCost exampleEnv exampleDb dayThirtyTwoBody).2.costs = exampleDb.costs ∧
    (CostsTest.addCost exampleEnv exampleDb dayThirtyTwoBody).2.costs = exampleDb.costs := by
  refine ⟨rfl, by decide, by decide, by decide, by decide⟩

/-! ## The users service: unique ids -/

/-- A user is found exactly when the id is in the directory. -/
theorem userFindOne_isSome_iff (db : Db) (id : Int) :
    (User.findOne db id).isSome = true ↔ id ∈ db.userIds := by
  unfold User.findOne Db.userIds
  rw [List.find?_isSome]
  simp only [decide_eq_true_eq, List.mem_map]

/-- The insert of a user is rejected, or a document with the given id, which
was not in the directory, is appended. -/
theorem userSave_cases (env : UsersEnv) (db : Db) (u : User) :
    (∃ error, User.save env db u = .error error) ∨
    (∃ doc : User, doc.id = u.id ∧ User.findOne db u.id = none ∧
      User.save env db u = .ok (doc, { db with users := db.users ++ [doc] })) := by
  unfold User.save
  simp only
  split
  · exact Or.inl ⟨_, rfl⟩
  · split
    · exact Or.inl ⟨_, rfl⟩
    · split
      · exact Or.inl ⟨_, rfl⟩
      · split
        · exact Or.inl ⟨_, rfl⟩
        · split
          · exact Or.inl ⟨_, rfl⟩
          · rename_i h
            refine Or.inr ⟨User.mk u.id (jsTrim u.first_name) (jsTrim u.last_name) u.birthday,
              rfl, ?_, rfl⟩
            simpa using h

/-- Every call of POST /api/add of the users service either is not answered
201 and leaves the directory as it was, or is answered 201 and appends one
user, whose id is the parsed id of the body and was not in the directory. -/
theorem addUser_outcome (env : UsersEnv) (db : Db) (body : UsersService.UserBody) :
    ((UsersService.addUser env db body).1.status ≠ 201 ∧
      (UsersService.addUser env db body).2.users = db.users) ∨
    (∃ doc : User, parseInt body.id = some doc.id ∧ User.findOne db doc.id = none ∧
      (UsersService.addUser env db body).1.status = 201 ∧
      (UsersService.addUser env db body).2.users = db.users ++ [doc]) := by
  unfold UsersService.addUser
  simp only [UsersService.logger.info, UsersService.logger.warn, UsersService.logger.error]
  by_cases h0 : body.id.isNullish = true
  · simp [h0]
  cases hf : body.first_name with
  | str first_name =>
    by_cases h1 : first_name.data.isEmpty = true
    · simp [h0, h1]
    cases hl : body.last_name with
    | str last_name =>
      by_cases h2 : last_name.data.isEmpty = true
      · simp [h0, h1, h2]
      by_cases h3 : body.birthday.truthy = true
      swap
      · simp [h0, h1, h2, h3]
      cases hid : parseInt body.id with
      | none => simp [h0, h1, h2, h3]
      | some userId =>
        by_cases h4 : env.userFindFails = true
        · simp only [h0, h1, h2, h3, h4, if_true, if_false, Bool.false_eq_true, Bool.not_true]
          left
          split <;> simp
        cases hu : User.findOne db userId with
        | some existing => simp [h0, h1, h2, h3, h4, hu]
        | none =>
          cases hdate : env.dateOf body.birthday with
          | none => simp [h0, h1, h2, h3, h4, hu, hdate]
          | some birthdayDate =>
            simp only [h0, h1, h2, h3, h4, userFindOne_saveLog, hu, if_false,
              Bool.false_eq_true, Bool.not_true]
            rcases userSave_cases env
                (saveLogToMongoDB env.toEnv db "info" "Endpoint accessed: POST /api/add (user)"
                  UsersService.SERVICE_NAME)
                { id := userId, first_name := jsTrim first_name, last_name := jsTrim last_name,
                  birthday := birthdayDate } with ⟨error, he⟩ | ⟨doc, hdoc, -, he⟩
            · rw [he]
              left
              simp only
              split <;> simp
            · rw [he]
              right
              refine ⟨doc, ?_, ?_, ?_, ?_⟩
              · rw [hdoc]
              · rw [hdoc]; exact hu
              · simp
              · simp
    | _ => simp [h0, h1]
  | _ => simp [h0]

/-- One call of POST /api/add of the users service keeps the ids of the
directory distinct. -/
theorem addUser_nodup (env : UsersEnv) (db : Db) (body : UsersService.UserBody)
    (h : db.userIds.Nodup) : (UsersService.addUser env db body).2.userIds.Nodup := by
  rcases addUser_outcome env db body with ⟨-, hsame⟩ | ⟨doc, -, hnew, -, happ⟩
  · unfold Db.userIds at h ⊢
    rw [hsame]
    exact h
  · have hnot : doc.id ∉ db.userIds := by
      intro hmem
      rw [← userFindOne_isSome_iff, hnew] at hmem
      cases hmem
    unfold Db.userIds at h hnot ⊢
    rw [happ, List.map_append, List.map_singleton]
    rw [List.nodup_append]
    refine ⟨h, List.nodup_singleton _, ?_⟩
    intro a ha hb
    rw [List.mem_singleton] at hb
    subst hb
    exact hnot ha

/-- A sequence of user additions keeps the ids of the directory distinct. -/
theorem runAddUser_nodup (calls : List UsersService.AddCall) :
    ∀ db : Db, db.userIds.Nodup → (UsersService.runAddUser db calls).userIds.Nodup := by
  induction calls with
  | nil => intro db h; exact h
  | cons call rest ih =>
    intro db h
    exact ih _ (addUser_nodup call.env db call.body h)
/-- The answer of POST /api/add of the users service to an id that an existing
user has, when the store answers the lookup: 400 in every case, and with the
other fields present the 400 of the existing-user check. -/
theorem addUser_of_existing (env : UsersEnv) (db : Db) (body : UsersService.UserBody)
    (userId : Int) (hid : parseInt body.id = some userId)
    (hex : (User.findOne db userId).isSome = true) (hfind : env.userFindFails = false) :
    (UsersService.addUser env db body).1.status = 400 ∧
    ((∃ first_name, body.first_name = .str first_name ∧ first_name.data.isEmpty = false) →
      (∃ last_name, body.last_name = .str last_name ∧ last_name.data.isEmpty = false) →
      body.birthday.truthy = true →
      (UsersService.addUser env db body).1 =
        ⟨400, .error (.ofInt userId) "A user with this ID already exists"⟩) := by
  obtain ⟨existing, hu⟩ := Option.isSome_iff_exists.mp hex
  have h0 := isNullish_of_parseInt hid
  unfold UsersService.addUser
  simp only [UsersService.logger.info, UsersService.logger.warn, UsersService.logger.error]
  cases hf : body.first_name with
  | str first_name =>
    by_cases h1 : first_name.data.isEmpty = true
    · have h1e : first_name.data = [] := by simpa using h1
      simp [h0, h1, h1e]
    cases hl : body.last_name with
    | str last_name =>
      by_cases h2 : last_name.data.isEmpty = true
      · have h2e : last_name.data = [] := by simpa using h2
        simp [h0, h1, h2, h2e]
      by_cases h3 : body.birthday.truthy = true
      swap
      · simp [h0, h1, h2, h3]
      simp [h0, h1, h2, h3, hid, hfind, hu]
    | _ => simp [h0, h1]
  | _ => simp [h0]

/-- The answer of POST /api/add of the users service when the insert raises
the duplicate key error. -/
theorem addUser_of_duplicate_key (env : UsersEnv) (db : Db) (body : UsersService.UserBody)
    (userId birthdayDate : Int) (first_name last_name : String) (error : StoreError)
    (hf : body.first_name = .str first_name)
    (hb1 : (jsTrim first_name).data.isEmpty = false)
    (hl : body.last_name = .str last_name)
    (hb2 : (jsTrim last_name).data.isEmpty = false)
    (h3 : body.birthday.truthy = true) (hid : parseInt body.id = some userId)
    (hfind : env.userFindFails = false) (hu : User.findOne db userId = none)
    (hdate : env.dateOf body.birthday = some birthdayDate)
    (hsave : env.userSaveError = some error) (hcode : error.code = some 11000) :
    (UsersService.addUser env db body).1 =
      ⟨400, .error body.id "A user with this ID already exists"⟩ := by
  have h0 := isNullish_of_parseInt hid
  have h1 := nonEmpty_of_not_blank hb1
  have h2 := nonEmpty_of_not_blank hb2
  have hn1 : ¬ (jsTrim first_name).data = [] := by
    intro h
    rw [h] at hb1
    cases hb1
  have hn2 : ¬ (jsTrim last_name).data = [] := by
    intro h
    rw [h] at hb2
    cases hb2
  have he1 : ¬ first_name.data = [] := by
    intro h
    rw [h] at h1
    cases h1
  have he2 : ¬ last_name.data = [] := by
    intro h
    rw [h] at h2
    cases h2
  unfold UsersService.addUser
  simp [UsersService.logger.info, UsersService.logger.error, h0, hf, he1, hl, he2, h3, hid,
    hfind, hu, hdate, User.save, jsTrim_idem, hn1, hn2, hsave, hcode]

/-- C23: POST /api/add of the users service with an id that parses to the id
of an existing user leaves the user directory unchanged and is never answered
201; when the store answers the lookup the answer is 400, and with first name,
last name and birthday present it is 400 'A user with this ID already exists'
(a missing field is reported first).  The same 400 answers an insert of a
valid document that the unique index rejects with the duplicate key error
11000.  So the ids of the
directory stay distinct over every sequence of user additions, and are
distinct after every sequence that starts from an empty directory. -/
theorem C23_user_id_unique (env : UsersEnv) (db : Db) (body : UsersService.UserBody) :
    (∀ userId, parseInt body.id = some userId → (User.findOne db userId).isSome = true →
      (UsersService.addUser env db body).2.users = db.users ∧
      (UsersService.addUser env db body).1.status ≠ 201 ∧
      (env.userFindFails = false → (UsersService.addUser env db body).1.status = 400) ∧
      (env.userFindFails = false →
        (∃ first_name, body.first_name = .str first_name ∧ first_name.data.isEmpty = false) →
        (∃ last_name, body.last_name = .str last_name ∧ last_name.data.isEmpty = false) →
        body.birthday.truthy = true →
        (UsersService.addUser env db body).1 =
          ⟨400, .error (.ofInt userId) "A user with this ID already exists"⟩)) ∧
    (∀ userId birthdayDate first_name last_name error,
      body.first_name = .str first_name → (jsTrim first_name).data.isEmpty = false →
      body.last_name = .str last_name → (jsTrim last_name).data.isEmpty = false →
      body.birthday.truthy = true → parseInt body.id = some userId →
      env.userFindFails = false → User.findOne db userId = none →
      env.dateOf body.birthday = some birthdayDate →
      env.userSaveError = some error → error.code = some 11000 →
      (UsersService.addUser env db body).1 =
          ⟨400, .error body.id "A user with this ID already exists"⟩ ∧
        (UsersService.addUser env db body).2.users = db.users) ∧
    (∀ calls, db.userIds.Nodup → (UsersService.runAddUser db calls).userIds.Nodup) ∧
    (∀ calls, db.users = [] → (UsersService.runAddUser db calls).userIds.Nodup) := by
  refine ⟨?_, ?_, ?_, ?_⟩
  · intro userId hid hex
    have hframe : (UsersService.addUser env db body).1.status ≠ 201 ∧
        (UsersService.addUser env db body).2.users = db.users := by
      rcases addUser_outcome env db body with h | ⟨doc, hdoc, hnew, -, -⟩
      · exact h
      · rw [hid] at hdoc
        simp only [Option.some.injEq] at hdoc
        rw [hdoc, hnew] at hex
        cases hex
    exact ⟨hframe.2, hframe.1,
      fun hfind => (addUser_of_existing env db body userId hid hex hfind).1,
      fun hfind => (addUser_of_existing env db body userId hid hex hfind).2⟩
  · intro userId birthdayDate first_name last_name error hf h1 hl h2 h3 hid hfind hu hdate
      hsave hcode
    have hresp := addUser_of_duplicate_key env db body userId birthdayDate first_name last_name
      error hf h1 hl h2 h3 hid hfind hu hdate hsave hcode
    refine ⟨hresp, ?_⟩
    rcases addUser_outcome env db body with h | ⟨_, -, -, h201, -⟩
    · exact h.2
    · rw [hresp] at h201
      simp at h201
  · intro calls h
    exact runAddUser_nodup calls db h
  · intro calls h
    exact runAddUser_nodup calls db (by simp [Db.userIds, h])

/-- Witness of C23 (the test "should return 400 for duplicate user ID"): a
body with the id of the test user is answered 400 'A user with this ID already
exists' and the directory is unchanged. -/
theorem C23_user_id_unique_witness :
    (UsersService.addUser exampleUsersEnv exampleDb duplicateUserBody).1 =
      ⟨400, .error (.ofInt 123123) "A user with this ID already exists"⟩ ∧
    (UsersService.addUser exampleUsersEnv exampleDb duplicateUserBody).2.users =
      exampleDb.users :=
  have h := (C23_user_id_unique exampleUsersEnv exampleDb duplicateUserBody).1 123123
    (by decide) (by decide)
  ⟨h.2.2.2 rfl ⟨"Duplicate", rfl, by decide⟩ ⟨"User", rfl, by decide⟩ (by decide), h.1⟩
/-! ## The users service: the total of a user -/

/-- The total that GET /api/users/:id reads off the aggregation is the sum of
the sums of the user's cost records. -/
theorem aggregate_total (db : Db) (userid : Int) :
    (match Cost.aggregate db userid with
      | group :: _ => group
      | [] => 0) =
      ((db.costs.filter (fun cost => decide (cost.userid = userid))).map
        (fun cost => cost.sum)).sum := by
  unfold Cost.aggregate
  cases h : db.costs.filter (fun cost => decide (cost.userid = userid)) with
  | nil => simp
  | cons c cs => simp

/-- C24: for the path parameter of an existing user (the store answering the
lookup and the aggregation) GET /api/users/:id answers 200 with the id, first
name and last name of the user, whose id is the parsed parameter, and a total
that is the sum of the sum fields of all cost records with that userid,
whatever their month and category; the total is 0 when the user has no cost
record.  Sums are exact rationals here. -/
theorem C24_user_total (env : UsersEnv) (db : Db) (id : String) (userId : Int) (user : User)
    (hid : parseInt (.str id) = some userId) (huser : User.findOne db userId = some user)
    (hfind : env.userFindFails = false) (hagg : env.costAggregateFails = false) :
    (UsersService.getUser env db id).1 =
      ⟨200, .details user.id user.first_name user.last_name
        ((db.costs.filter (fun cost => decide (cost.userid = userId))).map
          (fun cost => cost.sum)).sum⟩ ∧
    user.id = userId ∧ user ∈ db.users ∧
    ((∀ cost ∈ db.costs, cost.userid ≠ userId) →
      (UsersService.getUser env db id).1 =
        ⟨200, .details user.id user.first_name user.last_name 0⟩) := by
  have hresp : (UsersService.getUser env db id).1 =
      ⟨200, .details user.id user.first_name user.last_name
        ((db.costs.filter (fun cost => decide (cost.userid = userId))).map
          (fun cost => cost.sum)).sum⟩ := by
    unfold UsersService.getUser
    simp only [UsersService.logger.info, hid, hfind, hagg, userFindOne_saveLog, huser,
      if_false, Bool.false_eq_true]
    have hcosts : Cost.aggregate (saveLogToMongoDB env.toEnv db "info"
        "Endpoint accessed: GET /api/users/:id" UsersService.SERVICE_NAME) userId =
        Cost.aggregate db userId := by
      simp [Cost.aggregate]
    rw [hcosts, aggregate_total]
  have hmem : user ∈ db.users := List.mem_of_find?_eq_some huser
  have hkey : user.id = userId := by
    have := List.find?_some huser
    simpa using this
  refine ⟨hresp, hkey, hmem, ?_⟩
  intro hnone
  rw [hresp]
  have hnil : db.costs.filter (fun cost => decide (cost.userid = userId)) = [] := by
    rw [List.filter_eq_nil_iff]
    intro cost hcost
    simpa using hnone cost hcost
  rw [hnil]
  simp

/-- Witness of C24 (the test "should calculate total costs correctly"): costs
of 50.5 and 100 give the total 150.5. -/
theorem C24_user_total_witness :
    (UsersService.getUser exampleUsersEnv totalsDb "123123").1 =
      ⟨200, .details 123123 "mosh" "israeli" (301 / 2)⟩ :=
  (C24_user_total exampleUsersEnv totalsDb "123123" 123123
    { id := 123123, first_name := "mosh", last_name := "israeli", birthday := 0 }
    (by decide) (by decide) rfl rfl).1.trans (by norm_num [totalsDb])

/-! ## The logs service: GET /api/logs -/

/-- What GET /api/logs returns when the query succeeds: all documents that are
in the logs collection when the handler queries it, ordered by timestamp
descending.  These are the n documents that the collection held before the
request together with the access entry that the handler has just written,
n + 1 documents in all; when the write of the access entry fails they are the
n documents. -/
theorem getLogs_listing (env : LogsEnv) (logs : List LogDoc)
    (hfind : env.logFindFails = false) :
    ∃ docs,
      (LogsService.getLogs env logs).1 = ⟨200, .logs docs⟩ ∧
      List.Sorted LogDoc.notEarlier docs ∧
      (env.logSaveFails "Endpoint accessed: GET /api/logs" = false →
        List.Perm docs (logs ++ [LogsService.accessEntry env]) ∧
        docs.length = logs.length + 1) ∧
      (env.logSaveFails "Endpoint accessed: GET /api/logs" = true →
        List.Perm docs logs ∧ docs.length = logs.length) := by
  refine ⟨Log.findSorted (LogsService.logger.info env logs "Endpoint accessed: GET /api/logs"),
    ?_, ?_, ?_, ?_⟩
  · unfold LogsService.getLogs
    simp [hfind]
  · exact List.sorted_insertionSort _ _
  · intro hsave
    have hp : List.Perm
        (Log.findSorted (LogsService.logger.info env logs "Endpoint accessed: GET /api/logs"))
        (logs ++ [LogsService.accessEntry env]) := by
      have := List.perm_insertionSort LogDoc.notEarlier
        (LogsService.logger.info env logs "Endpoint accessed: GET /api/logs")
      simpa [Log.findSorted, LogsService.logger.info, LogsService.saveLogToMongoDB, hsave,
        LogsService.accessEntry] using this
    exact ⟨hp, by simpa using hp.length_eq⟩
  · intro hsave
    have hp : List.Perm
        (Log.findSorted (LogsService.logger.info env logs "Endpoint accessed: GET /api/logs"))
        logs := by
      have := List.perm_insertionSort LogDoc.notEarlier
        (LogsService.logger.info env logs "Endpoint accessed: GET /api/logs")
      simpa [Log.findSorted, LogsService.logger.info, LogsService.saveLogToMongoDB, hsave]
        using this
    exact ⟨hp, hp.length_eq⟩

/-- C25: GET /api/logs does not answer with exactly the documents that the
logs collection held before the request.  The handler writes its access entry
before it queries the collection, so on an empty collection the answer is the
array of that one entry and not the empty array, and with the three logs of
the test in the collection the answer has four entries, newest first, where
tests/logs.test.js expects none and three. -/
theorem C25_access_entry_in_listing :
    (LogsService.getLogs exampleLogsEnv []).1 =
      ⟨200, .logs [{ level := "info", message := "Endpoint accessed: GET /api/logs",
                     service := "logs-service", timestamp := 1000 }]⟩ ∧
    ¬ (∃ docs, (LogsService.getLogs exampleLogsEnv []).1 = ⟨200, .logs docs⟩ ∧
        docs.length = 0) ∧
    (∃ docs, (LogsService.getLogs exampleLogsEnv threeLogs).1 = ⟨200, .logs docs⟩ ∧
        List.Sorted LogDoc.notEarlier docs ∧ docs.length = 4 ∧
        LogsService.accessEntry exampleLogsEnv ∈ docs) := by
  refine ⟨rfl, ?_, ?_⟩
  · rintro ⟨docs, h, hlen⟩
    have h2 : (LogsService.getLogs exampleLogsEnv []).1 =
        ⟨200, .logs [{ level := "info", message := "Endpoint accessed: GET /api/logs",
                       service := "logs-service", timestamp := 1000 }]⟩ := rfl
    rw [h2] at h
    injection h with _ hbody
    injection hbody with hdocs
    rw [← hdocs] at hlen
    cases hlen
  · obtain ⟨docs, h1, h2, h3, _⟩ := getLogs_listing exampleLogsEnv threeLogs rfl
    obtain ⟨hperm, hlen⟩ := h3 rfl
    exact ⟨docs, h1, h2, hlen, hperm.symm.subset (by simp)⟩

/-! ## Log writes never abort a handler -/

/-- Saving a cost in two environments with the same save fault, into two
states of the store with the same ledger: both saves are rejected with the
same message, or both append the same document. -/
theorem costSave_congr (env env2 : Env) (db db2 : Db) (c : Cost)
    (hs : env2.costSaveFails = env.costSaveFails) (hm : env2.faultMessage = env.faultMessage)
    (h : db2.costs = db.costs) :
    (∃ msg, Cost.save env db c = .error msg ∧ Cost.save env2 db2 c = .error msg) ∨
    (∃ doc : Cost, Cost.save env db c = .ok (doc, { db with costs := db.costs ++ [doc] }) ∧
      Cost.save env2 db2 c = .ok (doc, { db2 with costs := db.costs ++ [doc] })) := by
  unfold Cost.save
  simp only [hs, hm]
  split
  · exact Or.inl ⟨_, rfl, rfl⟩
  · split
    · exact Or.inl ⟨_, rfl, rfl⟩
    · split
      · exact Or.inl ⟨_, rfl, rfl⟩
      · split
        · exact Or.inl ⟨_, rfl, rfl⟩
        · exact Or.inr ⟨_, rfl, by rw [h]⟩

/-- The response of POST /api/add and what it stores in the users, the ledger
and the report cache are the same in two environments that differ in the
faults of the log writes only. -/
theorem addCost_env_congr (env env2 : Env) (db : Db) (body : CostBody)
    (hnow : env2.now = env.now) (hu : env2.userFindFails = env.userFindFails)
    (hs : env2.costSaveFails = env.costSaveFails)
    (hm : env2.faultMessage = env.faultMessage) :
    (addCost env2 db body).1 = (addCost env db body).1 ∧
    (addCost env2 db body).2.users = (addCost env db body).2.users ∧
    (addCost env2 db body).2.costs = (addCost env db body).2.costs ∧
    (addCost env2 db body).2.reports = (addCost env db body).2.reports := by
  rw [addCost_eq_staged, addCost_eq_staged]
  unfold addCostStaged
  simp only [logger.info, logger.warn, logger.error, hnow, hu, hm]
  cases hrf : requiredFields body with
  | error r => simp
  | ok fields =>
    obtain ⟨description, normalized, userid, sum⟩ := fields
    simp only
    by_cases hf : env.userFindFails = true
    · simp [hf]
    simp only [hf, userFindOne_saveLog, if_false, Bool.false_eq_true]
    cases huser : User.findOne db userid with
    | none => simp
    | some u =>
      simp only
      cases hdf : dateFields env.now body userid with
      | error r => simp
      | ok date =>
        obtain ⟨day, month, year⟩ := date
        simp only
        cases hpast : isMonthInPast env.now year month with
        | true => simp
        | false =>
          simp only [Bool.false_eq_true, if_false]
          rcases costSave_congr env env2
              (saveLogToMongoDB env db "info" "Endpoint accessed: POST /api/add (cost)"
                SERVICE_NAME)
              (saveLogToMongoDB env2 db "info" "Endpoint accessed: POST /api/add (cost)"
                SERVICE_NAME)
              { description := jsTrim description, category := normalized, userid := userid,
                sum := sum, day := day, month := month, year := year } hs hm (by simp) with
            ⟨msg, e1, e2⟩ | ⟨doc, e1, e2⟩
          · rw [e1, e2]
            simp
          · rw [e1, e2]
            simp
/-- Saving a report in two environments with the same save fault, into two
states of the store with the same cache: both inserts are rejected, or both
append the report. -/
theorem reportSave_congr (env env2 : Env) (db db2 : Db) (r : Report)
    (hs : env2.reportSaveFails = env.reportSaveFails) (h : db2.reports = db.reports) :
    ((∃ msg, Report.save env db r = .error msg) ∧ (∃ msg, Report.save env2 db2 r = .error msg)) ∨
    (Report.save env db r = .ok { db with reports := db.reports ++ [r] } ∧
      Report.save env2 db2 r = .ok { db2 with reports := db.reports ++ [r] }) := by
  have hfind : Report.findOne db2 r.userid r.year r.month =
      Report.findOne db r.userid r.year r.month := reportFindOne_congr h _ _ _
  unfold Report.save
  simp only [hs, hfind]
  split
  · exact Or.inl ⟨⟨_, rfl⟩, ⟨_, rfl⟩⟩
  · split
    · exact Or.inl ⟨⟨_, rfl⟩, ⟨_, rfl⟩⟩
    · split
      · exact Or.inl ⟨⟨_, rfl⟩, ⟨_, rfl⟩⟩
      · exact Or.inr ⟨rfl, by rw [h]⟩

/-- The part of GET /api/report that follows validation gives the same
response and stores the same in two environments that differ in the faults of
the log writes only, on two states of the store that differ in the logs
only. -/
theorem resolveReport_env_congr (env env2 : Env) (db db2 : Db) (rawId : JsVal)
    (userid year month : Int)
    (hnow : env2.now = env.now) (hu : env2.userFindFails = env.userFindFails)
    (hr : env2.reportFindFails = env.reportFindFails)
    (hc : env2.costFindFails = env.costFindFails)
    (hs : env2.reportSaveFails = env.reportSaveFails)
    (hm : env2.faultMessage = env.faultMessage)
    (husers : db2.users = db.users) (hcosts : db2.costs = db.costs)
    (hreports : db2.reports = db.reports) :
    (resolveReport env2 db2 rawId userid year month).1 =
      (resolveReport env db rawId userid year month).1 ∧
    (resolveReport env2 db2 rawId userid year month).2.users =
      (resolveReport env db rawId userid year month).2.users ∧
    (resolveReport env2 db2 rawId userid year month).2.costs =
      (resolveReport env db rawId userid year month).2.costs ∧
    (resolveReport env2 db2 rawId userid year month).2.reports =
      (resolveReport env db rawId userid year month).2.reports := by
  have hfindU : User.findOne db2 userid = User.findOne db userid := by
    simp [User.findOne, husers]
  have hfindR : Report.findOne db2 userid year month = Report.findOne db userid year month :=
    reportFindOne_congr hreports _ _ _
  have hgen : generateReport db2 userid year month = generateReport db userid year month :=
    generateReport_congr hcosts _ _ _
  unfold resolveReport
  simp only [logger.info, logger.warn, logger.error, hnow, hu, hr, hc, hm, hfindU, hfindR, hgen]
  by_cases hf : env.userFindFails = true
  · simp [hf, husers, hcosts, hreports]
  simp only [hf, if_false, Bool.false_eq_true]
  cases huser : User.findOne db userid with
  | none => simp [husers, hcosts, hreports]
  | some u =>
    simp only
    cases hpast : isMonthInPast env.now year month with
    | false =>
      by_cases hcf : env.costFindFails = true
      · simp [hcf, husers, hcosts, hreports]
      · simp [hcf, husers, hcosts, hreports]
    | true =>
      by_cases hrf : env.reportFindFails = true
      · simp [hrf, husers, hcosts, hreports]
      simp only [hrf, Bool.and_false, Bool.true_and, if_false, if_true, Bool.false_eq_true]
      cases hcached : Report.findOne db userid year month with
      | some cached => simp [husers, hcosts, hreports]
      | none =>
        simp only
        by_cases hcf : env.costFindFails = true
        · simp [hcf, husers, hcosts, hreports]
        simp only [hcf, if_false, Bool.false_eq_true]
        rcases reportSave_congr env env2 db db2
            { userid := userid, year := year, month := month,
              costs := (generateReport db userid year month).costs } hs hreports with
          ⟨⟨msg, e1⟩, ⟨msg2, e2⟩⟩ | ⟨e1, e2⟩
        · rw [e1, e2]
          simp [husers, hcosts, hreports]
        · rw [e1, e2]
          simp [husers, hcosts, hreports]

/-- The response of GET /api/report and what it stores in the users, the
ledger and the report cache are the same in two environments that differ in
the faults of the log writes only. -/
theorem getReport_env_congr (env env2 : Env) (db : Db) (query : ReportQuery)
    (hnow : env2.now = env.now) (hu : env2.userFindFails = env.userFindFails)
    (hr : env2.reportFindFails = env.reportFindFails)
    (hc : env2.costFindFails = env.costFindFails)
    (hs : env2.reportSaveFails = env.reportSaveFails)
    (hm : env2.faultMessage = env.faultMessage) :
    (getReport env2 db query).1 = (getReport env db query).1 ∧
    (getReport env2 db query).2.users = (getReport env db query).2.users ∧
    (getReport env2 db query).2.costs = (getReport env db query).2.costs ∧
    (getReport env2 db query).2.reports = (getReport env db query).2.reports := by
  cases hp : reportParams query with
  | none =>
    refine ⟨getReport_of_no_params_resp env env2 db db query hp, ?_, ?_, ?_⟩ <;>
      rw [(getReport_of_no_params env db query hp).2,
        (getReport_of_no_params env2 db query hp).2] <;>
      simp [logger.info]
  | some params =>
    obtain ⟨userid, year, month⟩ := params
    rw [getReport_of_params env db query userid year month hp,
      getReport_of_params env2 db query userid year month hp]
    exact resolveReport_env_congr env env2 _ _ query.id userid year month hnow hu hr hc hs hm
      (by simp [logger.info]) (by simp [logger.info]) (by simp [logger.info])
/-- Saving a user in two environments with the same save error, into two
states of the store with the same directory: both inserts are rejected with
the same error, or both append the same document. -/
theorem userSave_congr (env env2 : UsersEnv) (db db2 : Db) (u : User)
    (hs : env2.userSaveError = env.userSaveError) (h : db2.users = db.users) :
    (∃ error, User.save env db u = .error error ∧ User.save env2 db2 u = .error error) ∨
    (∃ doc : User, User.save env db u = .ok (doc, { db with users := db.users ++ [doc] }) ∧
      User.save env2 db2 u = .ok (doc, { db2 with users := db.users ++ [doc] })) := by
  have hfind : User.findOne db2 u.id = User.findOne db u.id := by
    simp [User.findOne, h]
  unfold User.save
  simp only [hs, hfind]
  split
  · exact Or.inl ⟨_, rfl, rfl⟩
  · split
    · exact Or.inl ⟨_, rfl, rfl⟩
    · split
      · exact Or.inl ⟨_, rfl, rfl⟩
      · split
        · exact Or.inl ⟨_, rfl, rfl⟩
        · split
          · exact Or.inl ⟨_, rfl, rfl⟩
          · exact Or.inr ⟨User.mk u.id (jsTrim u.first_name) (jsTrim u.last_name) u.birthday,
              rfl, by rw [h]⟩

/-- The response of POST /api/add of the users service and what it stores in
the users, the ledger and the report cache are the same in two environments
that differ in the faults of the log writes only. -/
theorem addUser_env_congr (env env2 : UsersEnv) (db : Db) (body : UsersService.UserBody)
    (hu : env2.userFindFails = env.userFindFails) (hd : env2.dateOf = env.dateOf)
    (hs : env2.userSaveError = env.userSaveError)
    (hm : env2.faultMessage = env.faultMessage) :
    (UsersService.addUser env2 db body).1 = (UsersService.addUser env db body).1 ∧
    (UsersService.addUser env2 db body).2.users = (UsersService.addUser env db body).2.users ∧
    (UsersService.addUser env2 db body).2.costs = (UsersService.addUser env db body).2.costs ∧
    (UsersService.addUser env2 db body).2.reports =
      (UsersService.addUser env db body).2.reports := by
  unfold UsersService.addUser
  simp only [UsersService.logger.info, UsersService.logger.warn, UsersService.logger.error,
    hu, hd, hm]
  by_cases h0 : body.id.isNullish = true
  · simp [h0]
  cases hf : body.first_name with
  | str first_name =>
    by_cases h1 : first_name.data.isEmpty = true
    · simp [h0, h1]
    cases hl : body.last_name with
    | str last_name =>
      by_cases h2 : last_name.data.isEmpty = true
      · simp [h0, h1, h2]
      by_cases h3 : body.birthday.truthy = true
      swap
      · simp [h0, h1, h2, h3]
      cases hid : parseInt body.id with
      | none => simp [h0, h1, h2, h3]
      | some userId =>
        by_cases h4 : env.userFindFails = true
        · simp [h0, h1, h2, h3, h4]
        cases hfind : User.findOne db userId with
        | some existing => simp [h0, h1, h2, h3, h4, hfind]
        | none =>
          cases hdate : env.dateOf body.birthday with
          | none => simp [h0, h1, h2, h3, h4, hfind, hdate]
          | some birthdayDate =>
            simp only [h0, h1, h2, h3, h4, userFindOne_saveLog, hfind, if_false,
              Bool.false_eq_true, Bool.not_true]
            rcases userSave_congr env env2
                (saveLogToMongoDB env.toEnv db "info" "Endpoint accessed: POST /api/add (user)"
                  UsersService.SERVICE_NAME)
                (saveLogToMongoDB env2.toEnv db "info" "Endpoint accessed: POST /api/add (user)"
                  UsersService.SERVICE_NAME)
                { id := userId, first_name := jsTrim first_name, last_name := jsTrim last_name,
                  birthday := birthdayDate } hs (by simp) with
              ⟨error, e1, e2⟩ | ⟨doc, e1, e2⟩
            · rw [e1, e2]
              simp only
              split <;> simp
            · rw [e1, e2]
              simp
    | _ => simp [h0, h1]
  | _ => simp [h0]

/-- The response of GET /api/users/:id and what it stores in the users, the
ledger and the report cache are the same in two environments that differ in
the faults of the log writes only. -/
theorem getUser_env_congr (env env2 : UsersEnv) (db : Db) (id : String)
    (hu : env2.userFindFails = env.userFindFails)
    (ha : env2.costAggregateFails = env.costAggregateFails)
    (hm : env2.faultMessage = env.faultMessage) :
    (UsersService.getUser env2 db id).1 = (UsersService.getUser env db id).1 ∧
    (UsersService.getUser env2 db id).2.users = (UsersService.getUser env db id).2.users ∧
    (UsersService.getUser env2 db id).2.costs = (UsersService.getUser env db id).2.costs ∧
    (UsersService.getUser env2 db id).2.reports = (UsersService.getUser env db id).2.reports := by
  unfold UsersService.getUser
  simp only [UsersService.logger.info, UsersService.logger.warn, UsersService.logger.error,
    hu, ha, hm]
  cases hid : parseInt (.str id) with
  | none => simp
  | some userId =>
    by_cases h1 : env.userFindFails = true
    · simp [h1]
    cases hfind : User.findOne db userId with
    | none => simp [h1, hfind]
    | some user =>
      by_cases h2 : env.costAggregateFails = true
      · simp [h1, h2, hfind]
      · simp [h1, h2, hfind, Cost.aggregate]
/-- A log write that fails never aborts a handler.  `saveLogToMongoDB`, and
with it logger.info, warn, error, debug and logRequest, returns normally for
every level, message and service, leaves the store as it was when the save
fails, and never touches the users, the ledger or the report cache.  So for
POST /api/add (cost), GET /api/report, POST /api/add (user) and
GET /api/users/:id the response and what is stored in the users, the ledger
and the report cache do not depend on which log writes succeed, and for
GET /api/logs the status does not. -/
theorem log_failure_never_aborts (env : Env) (usersEnv : UsersEnv) (logsEnv : LogsEnv)
    (db : Db) (logs : List LogDoc) (f : String → Bool) :
    (∀ level message service,
      (env.logSaveFails message = true → saveLogToMongoDB env db level message service = db) ∧
      (saveLogToMongoDB env db level message service).users = db.users ∧
      (saveLogToMongoDB env db level message service).costs = db.costs ∧
      (saveLogToMongoDB env db level message service).reports = db.reports) ∧
    (∀ message, env.logSaveFails message = true →
      logger.info env db message = db ∧ logger.warn env db message = db ∧
      logger.error env db message = db ∧ logger.debug env db message = db) ∧
    (∀ method url statusCode responseTime,
      env.logSaveFails (method ++ " " ++ url ++ " " ++ toString statusCode ++ " " ++
        toString responseTime ++ "ms") = true →
      logger.logRequest env db method url statusCode responseTime = db) ∧
    (∀ level message service, logsEnv.logSaveFails message = true →
      LogsService.saveLogToMongoDB logsEnv logs level message service = logs) ∧
    (∀ body,
      (addCost { env with logSaveFails := f } db body).1 = (addCost env db body).1 ∧
      (addCost { env with logSaveFails := f } db body).2.users = (addCost env db body).2.users ∧
      (addCost { env with logSaveFails := f } db body).2.costs = (addCost env db body).2.costs ∧
      (addCost { env with logSaveFails := f } db body).2.reports =
        (addCost env db body).2.reports) ∧
    (∀ query,
      (getReport { env with logSaveFails := f } db query).1 = (getReport env db query).1 ∧
      (getReport { env with logSaveFails := f } db query).2.users =
        (getReport env db query).2.users ∧
      (getReport { env with logSaveFails := f } db query).2.costs =
        (getReport env db query).2.costs ∧
      (getReport { env with logSaveFails := f } db query).2.reports =
        (getReport env db query).2.reports) ∧
    (∀ body,
      (UsersService.addUser { usersEnv with logSaveFails := f } db body).1 =
        (UsersService.addUser usersEnv db body).1 ∧
      (UsersService.addUser { usersEnv with logSaveFails := f } db body).2.users =
        (UsersService.addUser usersEnv db body).2.users ∧
      (UsersService.addUser { usersEnv with logSaveFails := f } db body).2.costs =
        (UsersService.addUser usersEnv db body).2.costs ∧
      (UsersService.addUser { usersEnv with logSaveFails := f } db body).2.reports =
        (UsersService.addUser usersEnv db body).2.reports) ∧
    (∀ id,
      (UsersService.getUser { usersEnv with logSaveFails := f } db id).1 =
        (UsersService.getUser usersEnv db id).1 ∧
      (UsersService.getUser { usersEnv with logSaveFails := f } db id).2.users =
        (UsersService.getUser usersEnv db id).2.users ∧
      (UsersService.getUser { usersEnv with logSaveFails := f } db id).2.costs =
        (UsersService.getUser usersEnv db id).2.costs ∧
      (UsersService.getUser { usersEnv with logSaveFails := f } db id).2.reports =
        (UsersService.getUser usersEnv db id).2.reports) ∧
    (LogsService.getLogs { logsEnv with logSaveFails := f } logs).1.status =
      (LogsService.getLogs logsEnv logs).1.status := by
  refine ⟨?_, ?_, ?_, ?_, ?_, ?_, ?_, ?_, ?_⟩
  · intro level message service
    refine ⟨fun h => by simp [saveLogToMongoDB, h], by simp, by simp, by simp⟩
  · intro message h
    simp [logger.info, logger.warn, logger.error, logger.debug, saveLogToMongoDB, h]
  · intro method url statusCode responseTime h
    simp only [logger.logRequest, saveLogToMongoDB, h, if_true]
  · intro level message service h
    simp [LogsService.saveLogToMongoDB, h]
  · intro body
    exact addCost_env_congr env _ db body rfl rfl rfl rfl
  · intro query
    exact getReport_env_congr env _ db query rfl rfl rfl rfl rfl rfl
  · intro body
    exact addUser_env_congr usersEnv _ db body rfl rfl rfl rfl
  · intro id
    exact getUser_env_congr usersEnv _ db id rfl rfl rfl
  · unfold LogsService.getLogs
    simp only
    by_cases h : logsEnv.logFindFails = true
    · simp [h]
    · simp [h]

/-- C26: the result of GET /api/logs depends on whether log persistence
succeeded.  In two environments that differ only in whether the log writes
succeed, the handler answers the same empty collection with different bodies:
the empty array when its access entry could not be saved, the array of that
entry when it could.  The status is 200 in both, no call is aborted; the body
differs because the handler writes the access entry before it queries the
collection. -/
theorem C26_logs_body_depends_on_log_write :
    silentLogsEnv = { exampleLogsEnv with logSaveFails := fun _ => true } ∧
    (LogsService.getLogs silentLogsEnv []).1 = ⟨200, .logs []⟩ ∧
    (LogsService.getLogs exampleLogsEnv []).1 =
      ⟨200, .logs [LogsService.accessEntry exampleLogsEnv]⟩ ∧
    (LogsService.getLogs exampleLogsEnv []).1 ≠ (LogsService.getLogs silentLogsEnv []).1 := by
  refine ⟨rfl, rfl, rfl, ?_⟩
  intro h
  have h1 : (LogsService.getLogs silentLogsEnv []).1 = ⟨200, .logs []⟩ := rfl
  have h2 : (LogsService.getLogs exampleLogsEnv []).1 =
      ⟨200, .logs [LogsService.accessEntry exampleLogsEnv]⟩ := rfl
  rw [h1, h2] at h
  injection h with _ hbody
  injection hbody with hdocs
  cases hdocs

end HIT
